import Mathlib

/-!
# Univariate engine, relations and circuit self-check of the Honk flavor framework

A shallow embedding of

* `barretenberg/polynomials/univariate.hpp` (`Univariate`, `UnivariateView`),
* `barretenberg/proof_system/relations/permutation_relation.hpp`,
* `barretenberg/proof_system/relations/baby_vm/the_relation.hpp`,
* `barretenberg/proof_system/circuit_builder/baby_vm/baby_vm_circuit_builder.hpp`,
* `barretenberg/honk/flavor/baby_vm.hpp`, `ultra_grumpkin.hpp`, `ultra_recursive.hpp`
  (the entity tables),
* `aztec3/circuits/abis/private_kernel/private_call_data.hpp` (`operator==`),

followed by the properties proved about them.

Conventions of the embedding.

* `std::array<T, N>` is a function `Fin N → T`; a read at a `size_t` index is `array_read`,
  a write is `array_write`.  Both take the index as a natural number, as the source does.
* A `for (size_t i = lo; i < hi; ++i)` loop is `forLoop lo hi body`, threading the mutated
  locals through the body.
* The field type `Fr` is a type parameter.  Its default constructor leaves the element
  unspecified in the source, so the value of a default-constructed element is `default` of an
  arbitrary `Inhabited Fr` instance.
-/

set_option autoImplicit false

namespace barretenberg

/-! ## Loops and arrays -/

/-- The loop `for (size_t i = lo; i < hi; ++i) { s = body i s; }`. -/
def forLoop {σ : Type} (lo hi : Nat) (body : Nat → σ → σ) (init : σ) : σ :=
  (List.range' lo (hi - lo)).foldl (fun s i => body i s) init

/-- Read `a[i]` of a `std::array<T, N>`; an index outside the array yields the unspecified
default element. -/
def array_read {T : Type} [Inhabited T] {N : Nat} (a : Fin N → T) (i : Nat) : T :=
  if h : i < N then a ⟨i, h⟩ else default

/-- The assignment `a[i] = x` on a `std::array<T, N>`. -/
def array_write {T : Type} {N : Nat} (a : Fin N → T) (i : Nat) (x : T) : Fin N → T :=
  fun j => if j.val = i then x else a j

/-- The call `std::copy(src.begin(), src.end(), dst.begin())`: the first `M` cells of `dst` are
overwritten by `src`. -/
def std_copy {T : Type} [Inhabited T] {M N : Nat} (src : Fin M → T) (dst : Fin N → T) :
    Fin N → T :=
  fun j => if j.val < M then array_read src j.val else dst j

/-! ## Barycentric tables -/

/-- The static tables of `BarycentricData<Fr, LENGTH, EXTENDED_LENGTH>` that `univariate.hpp`
reads.  The header `barycentric.hpp` that fills them is not part of the sources at hand, so the
tables are a parameter of `extend_to` and `evaluate`. -/
structure BarycentricData (Fr : Type) where
  big_domain : Nat → Fr
  lagrange_denominators : Nat → Fr
  precomputed_denominator_inverses : Nat → Fr
  full_numerator_values : Nat → Fr

/-- Modelled from the spec: `barycentric.hpp` is missing; the Lagrange denominator
`d_j = Π_{i ≠ j, i < L} (x_j - x_i)` on the domain `x_i = i`. -/
def lagrange_denominator (Fr : Type) [Field Fr] (L j : Nat) : Fr :=
  (((List.range L).filter (fun i : Nat => i ≠ j)).map (fun i : Nat => (j : Fr) - (i : Fr))).prod

/-- Modelled from the spec: `barycentric.hpp` is missing; the value `B(k) = Π_{i < L} (k - x_i)`. -/
def full_numerator_value (Fr : Type) [Field Fr] (L k : Nat) : Fr :=
  ((List.range L).map (fun i : Nat => (k : Fr) - (i : Fr))).prod

/-- Modelled from the spec: `barycentric.hpp` is missing; the tables of
`BarycentricData<Fr, L, U>` as the spec formula defines them: `big_domain[i] = i`,
`lagrange_denominators[j] = d_j`, `precomputed_denominator_inverses[L*k + j] = 1/(d_j (k - j))`
and `full_numerator_values[k] = B(k)`. -/
def BarycentricData.spec_tables (Fr : Type) [Field Fr] (L : Nat) : BarycentricData Fr where
  big_domain := fun i => (i : Fr)
  lagrange_denominators := fun j => lagrange_denominator Fr L j
  precomputed_denominator_inverses := fun idx =>
    1 / (lagrange_denominator Fr L (idx % L) * (((idx / L : Nat) : Fr) - ((idx % L : Nat) : Fr)))
  full_numerator_values := fun k => full_numerator_value Fr L k

/-- The extension tables hold the values of the spec formula at every index `extend_to` reads
for lengths `L` and `U`. -/
def BarycentricData.ExtendSpec {Fr : Type} [Field Fr] (Data : BarycentricData Fr) (L U : Nat) :
    Prop :=
  (∀ k j, L ≤ k → k < U → j < L →
      Data.precomputed_denominator_inverses (L * k + j)
        = 1 / (lagrange_denominator Fr L j * ((k : Fr) - (j : Fr)))) ∧
  (∀ k, L ≤ k → k < U → Data.full_numerator_values k = full_numerator_value Fr L k)

/-- The evaluation tables hold the values of the spec formula at every index `evaluate` reads
for length `L`. -/
def BarycentricData.EvaluateSpec {Fr : Type} [Field Fr] (Data : BarycentricData Fr) (L : Nat) :
    Prop :=
  (∀ i, i < L → Data.lagrange_denominators i = lagrange_denominator Fr L i) ∧
  (∀ i, i < L → Data.big_domain i = (i : Fr))

/-! ## Univariate -/

/-- The class `Univariate<Fr, _length>`: a univariate polynomial given by its values on
`{0, ..., _length - 1}`. -/
structure Univariate (Fr : Type) (_length : Nat) where
  evaluations : Fin _length → Fr

/-- The class `UnivariateView<Fr, view_length>`: a span over the first `view_length` cells of a
univariate. -/
structure UnivariateView (Fr : Type) (view_length : Nat) where
  evaluations : Fin view_length → Fr

namespace Univariate

variable {Fr : Type} {_length : Nat}

/-- The default constructor `Univariate() = default`: every cell is a default-constructed `Fr`. -/
def uninit [Inhabited Fr] : Univariate Fr _length :=
  ⟨fun _ => default⟩

/-- The const accessor `value_at(i)`. -/
def value_at [Inhabited Fr] (self : Univariate Fr _length) (i : Nat) : Fr :=
  array_read self.evaluations i

/-- The assignment `value_at(i) = x` through the non-const accessor. -/
def set_value_at (self : Univariate Fr _length) (i : Nat) (x : Fr) : Univariate Fr _length :=
  ⟨array_write self.evaluations i x⟩

/-- The constructor `Univariate(Fr value)`. -/
def of_scalar [Inhabited Fr] (value : Fr) : Univariate Fr _length :=
  forLoop 0 _length (fun i self => self.set_value_at i value) uninit

/-- The operator `+=` with a univariate. -/
def add_assign [Add Fr] [Inhabited Fr] (self other : Univariate Fr _length) :
    Univariate Fr _length :=
  forLoop 0 _length
    (fun i self => self.set_value_at i (self.value_at i + other.value_at i)) self

/-- The operator `-=` with a univariate. -/
def sub_assign [Sub Fr] [Inhabited Fr] (self other : Univariate Fr _length) :
    Univariate Fr _length :=
  forLoop 0 _length
    (fun i self => self.set_value_at i (self.value_at i - other.value_at i)) self

/-- The operator `*=` with a univariate. -/
def mul_assign [Mul Fr] [Inhabited Fr] (self other : Univariate Fr _length) :
    Univariate Fr _length :=
  forLoop 0 _length
    (fun i self => self.set_value_at i (self.value_at i * other.value_at i)) self

/-- The operator `+` with a univariate: copy, then `+=`. -/
def add [Add Fr] [Inhabited Fr] (self other : Univariate Fr _length) : Univariate Fr _length :=
  let res := self
  res.add_assign other

/-- The operator `-` with a univariate: copy, then `-=`. -/
def sub [Sub Fr] [Inhabited Fr] (self other : Univariate Fr _length) : Univariate Fr _length :=
  let res := self
  res.sub_assign other

/-- The operator `*` with a univariate: copy, then `*=`. -/
def mul [Mul Fr] [Inhabited Fr] (self other : Univariate Fr _length) : Univariate Fr _length :=
  let res := self
  res.mul_assign other

/-- The operator `+=` with a scalar: `for (auto& eval : evaluations) eval += scalar`. -/
def add_assign_scalar [Add Fr] (self : Univariate Fr _length) (scalar : Fr) :
    Univariate Fr _length :=
  ⟨fun i => self.evaluations i + scalar⟩

/-- The operator `-=` with a scalar. -/
def sub_assign_scalar [Sub Fr] (self : Univariate Fr _length) (scalar : Fr) :
    Univariate Fr _length :=
  ⟨fun i => self.evaluations i - scalar⟩

/-- The operator `*=` with a scalar. -/
def mul_assign_scalar [Mul Fr] (self : Univariate Fr _length) (scalar : Fr) :
    Univariate Fr _length :=
  ⟨fun i => self.evaluations i * scalar⟩

/-- The operator `+` with a scalar: copy, then `+=`. -/
def add_scalar [Add Fr] (self : Univariate Fr _length) (scalar : Fr) : Univariate Fr _length :=
  let res := self
  res.add_assign_scalar scalar

/-- The operator `-` with a scalar: copy, then `-=`. -/
def sub_scalar [Sub Fr] (self : Univariate Fr _length) (scalar : Fr) : Univariate Fr _length :=
  let res := self
  res.sub_assign_scalar scalar

/-- The operator `*` with a scalar: copy, then `*=`. -/
def mul_scalar [Mul Fr] (self : Univariate Fr _length) (scalar : Fr) : Univariate Fr _length :=
  let res := self
  res.mul_assign_scalar scalar

/-- The member template `extend_to<EXTENDED_LENGTH>()`.  The hypothesis is the
`static_assert(EXTENDED_LENGTH >= LENGTH)`; `Data` is `BarycentricData<Fr, LENGTH,
EXTENDED_LENGTH>`. -/
def extend_to [CommRing Fr] [Inhabited Fr] (EXTENDED_LENGTH : Nat)
    (_static_assert : _length ≤ EXTENDED_LENGTH) (Data : BarycentricData Fr)
    (self : Univariate Fr _length) : Univariate Fr EXTENDED_LENGTH :=
  let result : Univariate Fr EXTENDED_LENGTH := uninit
  let result : Univariate Fr EXTENDED_LENGTH := ⟨std_copy self.evaluations result.evaluations⟩
  if _length = 2 then
    let delta := self.value_at 1 - self.value_at 0
    forLoop 1 (EXTENDED_LENGTH - 1)
      (fun idx result => result.set_value_at (idx + 1) (result.value_at idx + delta)) result
  else
    forLoop _length EXTENDED_LENGTH
      (fun k result =>
        let result := result.set_value_at k 0
        let result := forLoop 0 _length
          (fun j result =>
            let term := self.value_at j
            let term := term * Data.precomputed_denominator_inverses (_length * k + j)
            result.set_value_at k (result.value_at k + term)) result
        result.set_value_at k (result.value_at k * Data.full_numerator_values k)) result

/-- The body of the outer loop of the general branch of `extend_to`, as written there. -/
def extend_body [CommRing Fr] [Inhabited Fr] {L U : Nat} (Data : BarycentricData Fr)
    (self : Univariate Fr L) (k : Nat) (result : Univariate Fr U) : Univariate Fr U :=
  let result := result.set_value_at k 0
  let result := forLoop 0 L
    (fun j result =>
      let term := self.value_at j
      let term := term * Data.precomputed_denominator_inverses (L * k + j)
      result.set_value_at k (result.value_at k + term)) result
  result.set_value_at k (result.value_at k * Data.full_numerator_values k)

/-- The member `evaluate(u)`; `Data` is `BarycentricData<Fr, LENGTH, LENGTH>`. -/
def evaluate [Field Fr] [Inhabited Fr] (Data : BarycentricData Fr)
    (self : Univariate Fr _length) (u : Fr) : Fr :=
  let full_numerator_value : Fr :=
    forLoop 0 _length (fun i full_numerator_value => full_numerator_value * (u - (i : Fr))) 1
  let denominator_inverses : Fin _length → Fr := fun _ => default
  let denominator_inverses : Fin _length → Fr :=
    forLoop 0 _length
      (fun i denominator_inverses =>
        let inv := Data.lagrange_denominators i
        let inv := inv * (u - Data.big_domain i)
        let inv := 1 / inv
        array_write denominator_inverses i inv) denominator_inverses
  let result : Fr :=
    forLoop 0 _length
      (fun i result =>
        let term := self.value_at i
        let term := term * array_read denominator_inverses i
        result + term) 0
  result * full_numerator_value

end Univariate

namespace UnivariateView

variable {Fr : Type} {view_length : Nat}

/-- The accessor `value_at(i)` of a view. -/
def value_at [Inhabited Fr] (self : UnivariateView Fr view_length) (i : Nat) : Fr :=
  array_read self.evaluations i

/-- The constructor `UnivariateView(const Univariate<Fr, full_length>&)`: a span of
`view_length` cells starting at the first cell of the univariate. -/
def of_univariate [Inhabited Fr] {full_length : Nat} (univariate_in : Univariate Fr full_length) :
    UnivariateView Fr view_length :=
  ⟨fun i => array_read univariate_in.evaluations i.val⟩

end UnivariateView

/-- The constructor `Univariate(UnivariateView<Fr, _length> in)`: the cells are
default-constructed and then assigned one by one from the view. -/
def Univariate.of_view {Fr : Type} [Inhabited Fr] {_length : Nat}
    (view : UnivariateView Fr _length) : Univariate Fr _length :=
  forLoop 0 _length (fun i self => self.set_value_at i (array_read view.evaluations i))
    Univariate.uninit

end barretenberg

namespace proof_system

open barretenberg

/-! ## Relations -/

/-- The struct `RelationParameters<FF>`; `relation_parameters.hpp` is not part of the sources at
hand, the members are those that `check_circuit` initialises. -/
structure RelationParameters (FF : Type) where
  eta : FF
  beta : FF
  gamma : FF
  public_input_delta : FF
  lookup_grand_product_delta : FF
  beta_sqr : FF
  beta_cube : FF
  eccvm_set_permutation_delta : FF

/-- The parameters with every member mapped through `f`; used to read field parameters as
constant polynomials. -/
def RelationParameters.map {A B : Type} (f : A → B) (p : RelationParameters A) :
    RelationParameters B where
  eta := f p.eta
  beta := f p.beta
  gamma := f p.gamma
  public_input_delta := f p.public_input_delta
  lookup_grand_product_delta := f p.lookup_grand_product_delta
  beta_sqr := f p.beta_sqr
  beta_cube := f p.beta_cube
  eccvm_set_permutation_delta := f p.eccvm_set_permutation_delta

namespace UltraPermutationRelationImpl

/-- The members of the template argument `AllEntities` that the permutation relation reads. -/
structure AllEntities (DataType : Type) where
  w_l : DataType
  w_r : DataType
  w_o : DataType
  w_4 : DataType
  id_1 : DataType
  id_2 : DataType
  id_3 : DataType
  id_4 : DataType
  sigma_1 : DataType
  sigma_2 : DataType
  sigma_3 : DataType
  sigma_4 : DataType
  z_perm : DataType
  z_perm_shift : DataType
  lagrange_first : DataType
  lagrange_last : DataType

/-- The constant `SUBRELATION_LENGTHS`. -/
def SUBRELATION_LENGTHS : List Nat := [6, 3]

/-- Every entity of the row is an edge of a sumcheck round: a polynomial of degree at most 1 in
the round variable. -/
def AllEntities.IsEdge {K : Type} [Field K] (input : AllEntities (Polynomial K)) : Prop :=
  (input.w_l.natDegree ≤ 1 ∧ input.w_r.natDegree ≤ 1 ∧ input.w_o.natDegree ≤ 1 ∧
    input.w_4.natDegree ≤ 1) ∧
  (input.id_1.natDegree ≤ 1 ∧ input.id_2.natDegree ≤ 1 ∧ input.id_3.natDegree ≤ 1 ∧
    input.id_4.natDegree ≤ 1) ∧
  (input.sigma_1.natDegree ≤ 1 ∧ input.sigma_2.natDegree ≤ 1 ∧ input.sigma_3.natDegree ≤ 1 ∧
    input.sigma_4.natDegree ≤ 1) ∧
  (input.z_perm.natDegree ≤ 1 ∧ input.z_perm_shift.natDegree ≤ 1 ∧
    input.lagrange_first.natDegree ≤ 1 ∧ input.lagrange_last.natDegree ≤ 1)

variable {FF : Type} [CommRing FF]

/-- The function `compute_grand_product_numerator`, on a row of field values (the `View` of a
field element is the element). -/
def compute_grand_product_numerator (input : AllEntities FF)
    (relation_parameters : RelationParameters FF) : FF :=
  let w_1 := input.w_l
  let w_2 := input.w_r
  let w_3 := input.w_o
  let w_4 := input.w_4
  let id_1 := input.id_1
  let id_2 := input.id_2
  let id_3 := input.id_3
  let id_4 := input.id_4
  let beta := relation_parameters.beta
  let gamma := relation_parameters.gamma
  (w_1 + id_1 * beta + gamma) * (w_2 + id_2 * beta + gamma) * (w_3 + id_3 * beta + gamma) *
    (w_4 + id_4 * beta + gamma)

/-- The function `compute_grand_product_denominator`, on a row of field values. -/
def compute_grand_product_denominator (input : AllEntities FF)
    (relation_parameters : RelationParameters FF) : FF :=
  let w_1 := input.w_l
  let w_2 := input.w_r
  let w_3 := input.w_o
  let w_4 := input.w_4
  let sigma_1 := input.sigma_1
  let sigma_2 := input.sigma_2
  let sigma_3 := input.sigma_3
  let sigma_4 := input.sigma_4
  let beta := relation_parameters.beta
  let gamma := relation_parameters.gamma
  (w_1 + sigma_1 * beta + gamma) * (w_2 + sigma_2 * beta + gamma) *
    (w_3 + sigma_3 * beta + gamma) * (w_4 + sigma_4 * beta + gamma)

/-- The function `accumulate` of the permutation relation, on a row of field values with an
array of two field accumulators. -/
def accumulate (accumulators : Fin 2 → FF) (input : AllEntities FF)
    (relation_parameters : RelationParameters FF) (scaling_factor : FF) : Fin 2 → FF :=
  let public_input_delta := relation_parameters.public_input_delta
  -- Contribution (1)
  let accumulators :=
    let z_perm := input.z_perm
    let z_perm_shift := input.z_perm_shift
    let lagrange_first := input.lagrange_first
    let lagrange_last := input.lagrange_last
    array_write accumulators 0
      (accumulators 0 +
        (((z_perm + lagrange_first) * compute_grand_product_numerator input relation_parameters) -
          ((z_perm_shift + lagrange_last * public_input_delta) *
            compute_grand_product_denominator input relation_parameters)) * scaling_factor)
  -- Contribution (2)
  let accumulators :=
    let z_perm_shift := input.z_perm_shift
    let lagrange_last := input.lagrange_last
    array_write accumulators 1 (accumulators 1 + (lagrange_last * z_perm_shift) * scaling_factor)
  accumulators

end UltraPermutationRelationImpl

namespace BabyVMRelationImpl

/-- The members of its argument `new_term` that the toy-VM relation reads. -/
structure NewTerm (DataType : Type) where
  w_l : DataType
  w_r : DataType
  w_o : DataType
  q_m : DataType

/-- The constant `RELATION_LENGTH`. -/
def RELATION_LENGTH : Nat := 3
/-- The constant `LEN_1`. -/
def LEN_1 : Nat := 3
/-- The constant `LEN_2`. -/
def LEN_2 : Nat := 2
/-- The constant `LEN_3`. -/
def LEN_3 : Nat := 3
/-- The constant `LEN_4`. -/
def LEN_4 : Nat := 3

variable {FF : Type} [CommRing FF]

/-- The function `accumulate` of the toy-VM relation, on a row of field values with an array of
four field accumulators.  Both selector views are taken from the member `q_m`, as in the
source. -/
def accumulate (accumulators : Fin 4 → FF) (new_term : NewTerm FF)
    (_parameters : RelationParameters FF) (scaling_factor : FF) : Fin 4 → FF :=
  let w_l := new_term.w_l
  let w_r := new_term.w_r
  let w_o := new_term.w_o
  let q_mul := new_term.q_m
  let q_add := new_term.q_m
  let tmp := w_l + w_r - w_o
  let tmp := tmp * q_add
  let tmp := tmp * (1 - q_mul)
  let tmp := tmp * scaling_factor
  let accumulators := array_write accumulators 0 (accumulators 0 + tmp)
  let tmp := w_l * w_r - w_o
  let tmp := tmp * q_add
  let tmp := tmp * (1 - q_mul)
  let tmp := tmp * scaling_factor
  let accumulators := array_write accumulators 1 (accumulators 1 + tmp)
  let tmp := q_mul
  let tmp := tmp * (1 - q_mul)
  let tmp := tmp * scaling_factor
  let accumulators := array_write accumulators 2 (accumulators 2 + tmp)
  let tmp := q_add
  let tmp := tmp * (1 - q_add)
  let tmp := tmp * scaling_factor
  let accumulators := array_write accumulators 3 (accumulators 3 + tmp)
  accumulators

end BabyVMRelationImpl

/-! ## Circuit self-check -/

/-- What `check_circuit` uses of a relation class: the size of its `RelationValues` array and
its `add_full_relation_value_contribution`.  The wrapper `Relation` of `relation_types.hpp` and
the two relation classes that `check_circuit` names are not part of the sources at hand, so the
relations are a parameter of `check_circuit`. -/
structure Relation (FF : Type) (NUM_POLYNOMIALS NUM_SUBRELATIONS : Nat) where
  add_full_relation_value_contribution :
    (Fin NUM_SUBRELATIONS → FF) → (Fin NUM_POLYNOMIALS → FF) → RelationParameters FF → FF →
      (Fin NUM_SUBRELATIONS → FF)

/-- The contract of relation evaluation: the contribution of a row, times the scaling factor, is
added into the accumulators. -/
def Relation.Accumulates {FF : Type} [CommRing FF] {NUM_POLYNOMIALS NUM_SUBRELATIONS : Nat}
    (relation : Relation FF NUM_POLYNOMIALS NUM_SUBRELATIONS) : Prop :=
  ∀ accumulator row params scaling_factor j,
    relation.add_full_relation_value_contribution accumulator row params scaling_factor j
      = accumulator j
        + relation.add_full_relation_value_contribution (fun _ => 0) row params scaling_factor j

/-- The arguments of one call `info("Relation ", relation_name, ", subrelation index ", j,
" failed at row ", i)`. -/
structure FailureReport where
  relation_name : String
  subrelation_index : Nat
  row_index : Nat
  deriving DecidableEq, Repr

namespace BabyVMCircuitBuilder

variable {FF : Type} [CommRing FF] [DecidableEq FF] [Inhabited FF]
variable {NUM_POLYNOMIALS NUM_SUBRELATIONS : Nat}

/-- The row loop body `row[j] = rows[j][i]` for `j < NUM_POLYNOMIALS`, on a default-constructed
`RowPolynomials`. -/
def get_row (rows : Fin NUM_POLYNOMIALS → List FF) (i : Nat) : Fin NUM_POLYNOMIALS → FF :=
  let row : Fin NUM_POLYNOMIALS → FF := fun _ => default
  forLoop 0 NUM_POLYNOMIALS (fun j row => array_write row j ((array_read rows j).getD i default))
    row

/-- The inner loop of `evaluate_relation` at row `i`: every nonzero entry of `result` is
reported and clears the flag `x`. -/
def report_failures (relation_name : String) (result : Fin NUM_SUBRELATIONS → FF) (i : Nat)
    (log : List FailureReport) : Bool × List FailureReport :=
  let x := true
  forLoop 0 NUM_SUBRELATIONS
    (fun j state =>
      if array_read result j ≠ 0 then (false, state.2 ++ [⟨relation_name, j, i⟩]) else state)
    (x, log)

/-- The loop over the rows of `evaluate_relation`, from the row indices still to visit, the
current `result` array and the reports emitted so far.  A row with a report returns `false`
at once. -/
def evaluate_rows (relation : Relation FF NUM_POLYNOMIALS NUM_SUBRELATIONS)
    (params : RelationParameters FF) (rows : Fin NUM_POLYNOMIALS → List FF)
    (relation_name : String) :
    List Nat → (Fin NUM_SUBRELATIONS → FF) → List FailureReport → Bool × List FailureReport
  | [], _, log => (true, log)
  | i :: rest, result, log =>
    let row := get_row rows i
    let result := relation.add_full_relation_value_contribution result row params 1
    let state := report_failures relation_name result i log
    if !state.1 then (false, state.2)
    else evaluate_rows relation params rows relation_name rest result state.2

/-- The residual of row `i` alone: the values `add_full_relation_value_contribution` leaves in
zeroed accumulators when it is run on row `i` with scaling factor 1. -/
def residual (relation : Relation FF NUM_POLYNOMIALS NUM_SUBRELATIONS)
    (params : RelationParameters FF) (rows : Fin NUM_POLYNOMIALS → List FF) (i : Nat) :
    Fin NUM_SUBRELATIONS → FF :=
  relation.add_full_relation_value_contribution (fun _ => 0) (get_row rows i) params 1

/-- The lambda `evaluate_relation` of `check_circuit`. -/
def evaluate_relation (relation : Relation FF NUM_POLYNOMIALS NUM_SUBRELATIONS)
    (params : RelationParameters FF) (rows : Fin NUM_POLYNOMIALS → List FF) (num_rows : Nat)
    (relation_name : String) (log : List FailureReport) : Bool × List FailureReport :=
  let result : Fin NUM_SUBRELATIONS → FF := fun _ => default
  -- for (auto& r : result) { r = 0; }
  let result : Fin NUM_SUBRELATIONS → FF := fun j => (fun (_r : FF) => 0) (result j)
  evaluate_rows relation params rows relation_name (List.range' 0 num_rows) result log

/-- The member `check_circuit`, from the polynomials that `compute_full_polynomials` returned.
The challenges that the source names without declaring them (`beta`, `gamma`, `beta_sqr`,
`beta_cube`, `eccvm_set_permutation_delta`) and the two relation classes are parameters.  The
result is the returned flag together with the reports emitted, in order. -/
def check_circuit {NUM_ADDITION NUM_MULTIPLICATION : Nat}
    (BabyVMAdditionRelation : Relation FF NUM_POLYNOMIALS NUM_ADDITION)
    (BabyVMMultiplicationRelation : Relation FF NUM_POLYNOMIALS NUM_MULTIPLICATION)
    (beta gamma beta_sqr beta_cube eccvm_set_permutation_delta : FF)
    (rows : Fin NUM_POLYNOMIALS → List FF) : Bool × List FailureReport :=
  let params : RelationParameters FF :=
    { eta := 0
      beta := beta
      gamma := gamma
      public_input_delta := 0
      lookup_grand_product_delta := 0
      beta_sqr := beta_sqr
      beta_cube := beta_cube
      eccvm_set_permutation_delta := eccvm_set_permutation_delta }
  let num_rows := (array_read rows 0).length
  let result := true
  let state : Bool × List FailureReport :=
    if result then
      evaluate_relation BabyVMAdditionRelation params rows num_rows "BabyVMAdditionRelation" []
    else (false, [])
  let state : Bool × List FailureReport :=
    if state.1 then
      evaluate_relation BabyVMMultiplicationRelation params rows num_rows
        "BabyVMMultiplicationRelation" state.2
    else (false, state.2)
  state

end BabyVMCircuitBuilder

/-! ## The builder and its trace -/

namespace baby_vm

/-- The struct `VMOperation<FF>`, with its default member initialisers. -/
structure VMOperation (FF : Type) [Zero FF] where
  add : Bool := false
  mul : Bool := false
  eq : Bool := false
  reset : Bool := false
  base_point : FF := 0
  mul_scalar_full : FF := 0

end baby_vm

/-- The data member of the class `BabyVMCircuitBuilder`. -/
structure BabyVMCircuitBuilder (FF : Type) [Zero FF] where
  vm_operations : List (baby_vm.VMOperation FF)

namespace BabyVMCircuitBuilder

variable {FF : Type} [CommRing FF] [DecidableEq FF] [Inhabited FF]
variable {NUM_POLYNOMIALS : Nat}

/-- The member `add_accumulate`. -/
def add_accumulate (self : BabyVMCircuitBuilder FF) (to_add : FF) : BabyVMCircuitBuilder FF :=
  { vm_operations := self.vm_operations ++
      [{ add := true, mul := false, eq := false, reset := false, base_point := to_add }] }

/-- The member `mul_accumulate`. -/
def mul_accumulate (self : BabyVMCircuitBuilder FF) (to_mul scalar : FF) :
    BabyVMCircuitBuilder FF :=
  { vm_operations := self.vm_operations ++
      [{ add := false, mul := true, eq := false, reset := false, base_point := to_mul,
         mul_scalar_full := scalar }] }

/-- The member `eq_and_reset`. -/
def eq_and_reset (self : BabyVMCircuitBuilder FF) (expected : FF) : BabyVMCircuitBuilder FF :=
  { vm_operations := self.vm_operations ++
      [{ add := false, mul := false, eq := true, reset := true, base_point := expected,
         mul_scalar_full := 0 }] }

/-- Modelled from the spec: `polynomial.hpp` is missing; a default-constructed `Polynomial` is
empty ("witness polynomials are born empty"). -/
def default_polynomial (FF : Type) : List FF := []

/-- The member `compute_full_polynomials`.  The local `polynomials` is default-constructed and
returned.  The loop over the transcript state assigns to the members of `rows`, an identifier
that the function does not declare and that is not the returned local: `rows` is a separate
piece of state here and `assign_row i state` stands for the twenty assignments
`rows.transcript_...[i] = transcript_state[i]...` of the loop body.
`ECCVMTranscriptBuilder::compute_transcript_state` and `get_number_of_muls` are not declared in
the sources either and are parameters. -/
def compute_full_polynomials {TranscriptState RowsState : Type} [Inhabited TranscriptState]
    (compute_transcript_state : List (baby_vm.VMOperation FF) → Nat → List TranscriptState)
    (get_number_of_muls : Nat) (assign_row : Nat → TranscriptState → RowsState → RowsState)
    (rows : RowsState) (self : BabyVMCircuitBuilder FF) : Fin NUM_POLYNOMIALS → List FF :=
  let polynomials : Fin NUM_POLYNOMIALS → List FF := fun _ => default_polynomial FF
  let transcript_state := compute_transcript_state self.vm_operations get_number_of_muls
  let _rows : RowsState :=
    forLoop 0 transcript_state.length
      (fun i rows => assign_row i (transcript_state.getD i default) rows) rows
  polynomials

/-- The member `check_circuit()` of a builder: `check_circuit` on the polynomials that its
`compute_full_polynomials()` returns. -/
def check_circuit_of_builder {TranscriptState RowsState : Type} [Inhabited TranscriptState]
    {NUM_ADDITION NUM_MULTIPLICATION : Nat}
    (BabyVMAdditionRelation : Relation FF NUM_POLYNOMIALS NUM_ADDITION)
    (BabyVMMultiplicationRelation : Relation FF NUM_POLYNOMIALS NUM_MULTIPLICATION)
    (beta gamma beta_sqr beta_cube eccvm_set_permutation_delta : FF)
    (compute_transcript_state : List (baby_vm.VMOperation FF) → Nat → List TranscriptState)
    (get_number_of_muls : Nat) (assign_row : Nat → TranscriptState → RowsState → RowsState)
    (rows : RowsState) (self : BabyVMCircuitBuilder FF) : Bool × List FailureReport :=
  check_circuit BabyVMAdditionRelation BabyVMMultiplicationRelation beta gamma beta_sqr
    beta_cube eccvm_set_permutation_delta
    (compute_full_polynomials compute_transcript_state get_number_of_muls assign_row rows self)

/-- The trace `rows` with the `w_o` value of row `r` replaced by `value`; `w_o` is the cell
`std::get<2>` of `BabyVM::AllEntities`. -/
def replace_w_o (rows : Fin NUM_POLYNOMIALS → List FF) (r : Nat) (value : FF) :
    Fin NUM_POLYNOMIALS → List FF :=
  array_write rows 2 ((array_read rows 2).set r value)

end BabyVMCircuitBuilder

/-- An instance of the relation parameter of `check_circuit`, built from
`BabyVMRelationImpl::accumulate` on rows of field values: the contribution of a row is what
`accumulate` adds.  The row cells are those of `BabyVM::AllEntities` (`w_l`, `w_r`, `w_o`,
`q_mul`, `q_add` at the indices 0 to 4); the member `q_m` that `accumulate` reads is not declared
by that flavor and is taken to be the multiplication selector, cell 3. -/
def BabyVMRelation (FF : Type) [CommRing FF] [Inhabited FF] (NUM_POLYNOMIALS : Nat) :
    Relation FF NUM_POLYNOMIALS 4 where
  add_full_relation_value_contribution := fun accumulator input relation_parameters
      scaling_factor =>
    BabyVMRelationImpl.accumulate accumulator
      { w_l := array_read input 0
        w_r := array_read input 1
        w_o := array_read input 2
        q_m := array_read input 3 }
      relation_parameters scaling_factor

end proof_system

/-! ## Flavors: entity schemas

The entity containers of a flavor are classes whose cells are reached through named accessors;
each class is embedded as the list of its accessor names with the index they are bound to, and
each subset accessor as the list of the names it returns. -/

namespace proof_system.honk.flavor

/-- The index that `name` is bound to by the accessors of a container, if it is declared. -/
def resolve (accessors : List (String × Nat)) (name : String) : Option Nat :=
  accessors.lookup name

/-! ### Flavor `BabyVM` (`baby_vm.hpp`) -/

namespace BabyVM

/-- The constant `NUM_WIRES`. -/
def NUM_WIRES : Nat := 74

/-- The constant `NUM_ALL_ENTITIES`. -/
def NUM_ALL_ENTITIES : Nat := 105

/-- The constant `NUM_PRECOMPUTED_ENTITIES`. -/
def NUM_PRECOMPUTED_ENTITIES : Nat := 3

/-- The constant `NUM_WITNESS_ENTITIES`. -/
def NUM_WITNESS_ENTITIES : Nat := 76

/-- The relation classes of the tuple `Relations`, in order. -/
def Relations : List String :=
  ["BabyVMRelation"]

namespace PrecomputedEntities

/-- The named accessors of `PrecomputedEntities`, in the order of their declaration: a line
`DataType& name = std::get<i>(this->_data)` is the pair of `name` and `i`. -/
def accessors : List (String × Nat) :=
  []

/-- The names of the cells that `get_selectors()` returns, in order. -/
def get_selectors : List String :=
  []

/-- The names of the cells that `get_sigma_polynomials()` returns, in order. -/
def get_sigma_polynomials : List String :=
  []

/-- The names of the cells that `get_id_polynomials()` returns, in order. -/
def get_id_polynomials : List String :=
  []

/-- The names of the cells that `get_table_polynomials()` returns, in order. -/
def get_table_polynomials : List String :=
  []

end PrecomputedEntities

namespace WitnessEntities

/-- The named accessors of `WitnessEntities`, in the order of their declaration: a line
`DataType& name = std::get<i>(this->_data)` is the pair of `name` and `i`. -/
def accessors : List (String × Nat) :=
  [("w_l", 0), ("w_r", 1), ("w_o", 2), ("q_mul", 3), ("q_add", 4)]

/-- The names of the cells that `get_wires()` returns, in order. -/
def get_wires : List String :=
  ["w_l", "w_r", "w_o", "q_mul", "q_add"]

/-- The names of the cells that `get_sorted_polynomials()` returns, in order. -/
def get_sorted_polynomials : List String :=
  []

end WitnessEntities

namespace AllEntities

/-- The named accessors of `AllEntities`, in the order of their declaration: a line
`DataType& name = std::get<i>(this->_data)` is the pair of `name` and `i`. -/
def accessors : List (String × Nat) :=
  [("w_l", 0), ("w_r", 1), ("w_o", 2), ("q_mul", 3), ("q_add", 4)]

/-- The names of the cells that `get_wires()` returns, in order. -/
def get_wires : List String :=
  ["w_l", "w_r", "w_o", "q_mul", "q_add"]

/-- The names of the cells that `get_unshifted()` returns, in order. -/
def get_unshifted : List String :=
  ["w_l", "w_r", "w_o", "q_mul", "q_add"]

/-- The names of the cells that `get_to_be_shifted()` returns, in order. -/
def get_to_be_shifted : List String :=
  []

/-- The names of the cells that `get_shifted()` returns, in order. -/
def get_shifted : List String :=
  []

end AllEntities

/-- The assignments of the constructor of `CommitmentLabels`, in order: accessor name and
label. -/
def CommitmentLabels : List (String × String) :=
  [("w_l", "W_L"), ("w_r", "W_R"), ("w_o", "W_O"), ("q_mul", "Q_MUL"), ("q_add", "Q_ADD")]

end BabyVM

/-! ### Flavor `UltraGrumpkin` (`ultra_grumpkin.hpp`) -/

namespace UltraGrumpkin

/-- The constant `NUM_ALL_ENTITIES`. -/
def NUM_ALL_ENTITIES : Nat := 43

/-- The constant `NUM_PRECOMPUTED_ENTITIES`. -/
def NUM_PRECOMPUTED_ENTITIES : Nat := 25

/-- The constant `NUM_WITNESS_ENTITIES`. -/
def NUM_WITNESS_ENTITIES : Nat := 11

/-- The relation classes of the tuple `Relations`, in order. -/
def Relations : List String :=
  ["UltraArithmeticRelation", "UltraPermutationRelation", "LookupRelation",
   "GenPermSortRelation", "EllipticRelation", "AuxiliaryRelation"]

namespace PrecomputedEntities

/-- The named accessors of `PrecomputedEntities`, in the order of their declaration: a line
`DataType& name = std::get<i>(this->_data)` is the pair of `name` and `i`. -/
def accessors : List (String × Nat) :=
  [("q_m", 0), ("q_c", 1), ("q_l", 2), ("q_r", 3), ("q_o", 4), ("q_4", 5), ("q_arith", 6),
   ("q_sort", 7), ("q_elliptic", 8), ("q_aux", 9), ("q_lookup", 10), ("sigma_1", 11),
   ("sigma_2", 12), ("sigma_3", 13), ("sigma_4", 14), ("id_1", 15), ("id_2", 16), ("id_3", 17),
   ("id_4", 18), ("table_1", 19), ("table_2", 20), ("table_3", 21), ("table_4", 22),
   ("lagrange_first", 23), ("lagrange_last", 24)]

/-- The names of the cells that `get_selectors()` returns, in order. -/
def get_selectors : List String :=
  ["q_m", "q_c", "q_l", "q_r", "q_o", "q_4", "q_arith", "q_sort", "q_elliptic", "q_aux",
   "q_lookup"]

/-- The names of the cells that `get_sigma_polynomials()` returns, in order. -/
def get_sigma_polynomials : List String :=
  ["sigma_1", "sigma_2", "sigma_3", "sigma_4"]

/-- The names of the cells that `get_id_polynomials()` returns, in order. -/
def get_id_polynomials : List String :=
  ["id_1", "id_2", "id_3", "id_4"]

/-- The names of the cells that `get_table_polynomials()` returns, in order. -/
def get_table_polynomials : List String :=
  ["table_1", "table_2", "table_3", "table_4"]

end PrecomputedEntities

namespace WitnessEntities

/-- The named accessors of `WitnessEntities`, in the order of their declaration: a line
`DataType& name = std::get<i>(this->_data)` is the pair of `name` and `i`. -/
def accessors : List (String × Nat) :=
  [("w_l", 0), ("w_r", 1), ("w_o", 2), ("w_4", 3), ("sorted_1", 4), ("sorted_2", 5),
   ("sorted_3", 6), ("sorted_4", 7), ("sorted_accum", 8), ("z_perm", 9), ("z_lookup", 10)]

/-- The names of the cells that `get_wires()` returns, in order. -/
def get_wires : List String :=
  ["w_l", "w_r", "w_o", "w_4"]

/-- The names of the cells that `get_sorted_polynomials()` returns, in order. -/
def get_sorted_polynomials : List String :=
  ["sorted_1", "sorted_2", "sorted_3", "sorted_4"]

end WitnessEntities

namespace AllEntities

/-- The named accessors of `AllEntities`, in the order of their declaration: a line
`DataType& name = std::get<i>(this->_data)` is the pair of `name` and `i`. -/
def accessors : List (String × Nat) :=
  [("q_c", 0), ("q_l", 1), ("q_r", 2), ("q_o", 3), ("q_4", 4), ("q_m", 5), ("q_arith", 6),
   ("q_sort", 7), ("q_elliptic", 8), ("q_aux", 9), ("q_lookup", 10), ("sigma_1", 11),
   ("sigma_2", 12), ("sigma_3", 13), ("sigma_4", 14), ("id_1", 15), ("id_2", 16), ("id_3", 17),
   ("id_4", 18), ("table_1", 19), ("table_2", 20), ("table_3", 21), ("table_4", 22),
   ("lagrange_first", 23), ("lagrange_last", 24), ("w_l", 25), ("w_r", 26), ("w_o", 27), ("w_4",
   28), ("sorted_accum", 29), ("z_perm", 30), ("z_lookup", 31), ("table_1_shift", 32),
   ("table_2_shift", 33), ("table_3_shift", 34), ("table_4_shift", 35), ("w_l_shift", 36),
   ("w_r_shift", 37), ("w_o_shift", 38), ("w_4_shift", 39), ("sorted_accum_shift", 40),
   ("z_perm_shift", 41), ("z_lookup_shift", 42)]

/-- The names of the cells that `get_wires()` returns, in order. -/
def get_wires : List String :=
  ["w_l", "w_r", "w_o", "w_4"]

/-- The names of the cells that `get_unshifted()` returns, in order. -/
def get_unshifted : List String :=
  ["q_c", "q_l", "q_r", "q_o", "q_4", "q_m", "q_arith", "q_sort", "q_elliptic", "q_aux",
   "q_lookup", "sigma_1", "sigma_2", "sigma_3", "sigma_4", "id_1", "id_2", "id_3", "id_4",
   "table_1", "table_2", "table_3", "table_4", "lagrange_first", "lagrange_last", "w_l", "w_r",
   "w_o", "w_4", "sorted_accum", "z_perm", "z_lookup"]

/-- The names of the cells that `get_to_be_shifted()` returns, in order. -/
def get_to_be_shifted : List String :=
  ["table_1", "table_2", "table_3", "table_4", "w_l", "w_r", "w_o", "w_4", "sorted_accum",
   "z_perm", "z_lookup"]

/-- The names of the cells that `get_shifted()` returns, in order. -/
def get_shifted : List String :=
  ["table_1_shift", "table_2_shift", "table_3_shift", "table_4_shift", "w_l_shift", "w_r_shift",
   "w_o_shift", "w_4_shift", "sorted_accum_shift", "z_perm_shift", "z_lookup_shift"]

end AllEntities

/-- The assignments of the constructor of `CommitmentLabels`, in order: accessor name and
label. -/
def CommitmentLabels : List (String × String) :=
  [("w_l", "W_L"), ("w_r", "W_R"), ("w_o", "W_O"), ("w_4", "W_4"), ("z_perm", "Z_PERM"),
   ("z_lookup", "Z_LOOKUP"), ("sorted_accum", "SORTED_ACCUM"), ("q_c", "__Q_C"), ("q_l",
   "__Q_L"), ("q_r", "__Q_R"), ("q_o", "__Q_O"), ("q_4", "__Q_4"), ("q_m", "__Q_M"), ("q_arith",
   "__Q_ARITH"), ("q_sort", "__Q_SORT"), ("q_elliptic", "__Q_ELLIPTIC"), ("q_aux", "__Q_AUX"),
   ("q_lookup", "__Q_LOOKUP"), ("sigma_1", "__SIGMA_1"), ("sigma_2", "__SIGMA_2"), ("sigma_3",
   "__SIGMA_3"), ("sigma_4", "__SIGMA_4"), ("id_1", "__ID_1"), ("id_2", "__ID_2"), ("id_3",
   "__ID_3"), ("id_4", "__ID_4"), ("table_1", "__TABLE_1"), ("table_2", "__TABLE_2"),
   ("table_3", "__TABLE_3"), ("table_4", "__TABLE_4"), ("lagrange_first", "__LAGRANGE_FIRST"),
   ("lagrange_last", "__LAGRANGE_LAST")]

end UltraGrumpkin

/-! ### Flavor `UltraRecursive_` (`ultra_recursive.hpp`) -/

namespace UltraRecursive_

/-- The constant `NUM_ALL_ENTITIES`. -/
def NUM_ALL_ENTITIES : Nat := 43

/-- The constant `NUM_PRECOMPUTED_ENTITIES`. -/
def NUM_PRECOMPUTED_ENTITIES : Nat := 25

/-- The constant `NUM_WITNESS_ENTITIES`. -/
def NUM_WITNESS_ENTITIES : Nat := 11

/-- The relation classes of the tuple `Relations`, in order. -/
def Relations : List String :=
  ["UltraArithmeticRelation", "UltraPermutationRelation", "LookupRelation",
   "GenPermSortRelation", "EllipticRelation", "AuxiliaryRelation"]

namespace PrecomputedEntities

/-- The named accessors of `PrecomputedEntities`, in the order of their declaration: a line
`DataType& name = std::get<i>(this->_data)` is the pair of `name` and `i`. -/
def accessors : List (String × Nat) :=
  [("q_m", 0), ("q_c", 1), ("q_l", 2), ("q_r", 3), ("q_o", 4), ("q_4", 5), ("q_arith", 6),
   ("q_sort", 7), ("q_elliptic", 8), ("q_aux", 9), ("q_lookup", 10), ("sigma_1", 11),
   ("sigma_2", 12), ("sigma_3", 13), ("sigma_4", 14), ("id_1", 15), ("id_2", 16), ("id_3", 17),
   ("id_4", 18), ("table_1", 19), ("table_2", 20), ("table_3", 21), ("table_4", 22),
   ("lagrange_first", 23), ("lagrange_last", 24)]

/-- The names of the cells that `get_selectors()` returns, in order. -/
def get_selectors : List String :=
  ["q_m", "q_c", "q_l", "q_r", "q_o", "q_4", "q_arith", "q_sort", "q_elliptic", "q_aux",
   "q_lookup"]

/-- The names of the cells that `get_sigma_polynomials()` returns, in order. -/
def get_sigma_polynomials : List String :=
  ["sigma_1", "sigma_2", "sigma_3", "sigma_4"]

/-- The names of the cells that `get_id_polynomials()` returns, in order. -/
def get_id_polynomials : List String :=
  ["id_1", "id_2", "id_3", "id_4"]

/-- The names of the cells that `get_table_polynomials()` returns, in order. -/
def get_table_polynomials : List String :=
  ["table_1", "table_2", "table_3", "table_4"]

end PrecomputedEntities

namespace WitnessEntities

/-- The named accessors of `WitnessEntities`, in the order of their declaration: a line
`DataType& name = std::get<i>(this->_data)` is the pair of `name` and `i`. -/
def accessors : List (String × Nat) :=
  [("w_l", 0), ("w_r", 1), ("w_o", 2), ("w_4", 3), ("sorted_1", 4), ("sorted_2", 5),
   ("sorted_3", 6), ("sorted_4", 7), ("sorted_accum", 8), ("z_perm", 9), ("z_lookup", 10)]

/-- The names of the cells that `get_wires()` returns, in order. -/
def get_wires : List String :=
  ["w_l", "w_r", "w_o", "w_4"]

/-- The names of the cells that `get_sorted_polynomials()` returns, in order. -/
def get_sorted_polynomials : List String :=
  ["sorted_1", "sorted_2", "sorted_3", "sorted_4"]

end WitnessEntities

namespace AllEntities

/-- The named accessors of `AllEntities`, in the order of their declaration: a line
`DataType& name = std::get<i>(this->_data)` is the pair of `name` and `i`. -/
def accessors : List (String × Nat) :=
  [("q_c", 0), ("q_l", 1), ("q_r", 2), ("q_o", 3), ("q_4", 4), ("q_m", 5), ("q_arith", 6),
   ("q_sort", 7), ("q_elliptic", 8), ("q_aux", 9), ("q_lookup", 10), ("sigma_1", 11),
   ("sigma_2", 12), ("sigma_3", 13), ("sigma_4", 14), ("id_1", 15), ("id_2", 16), ("id_3", 17),
   ("id_4", 18), ("table_1", 19), ("table_2", 20), ("table_3", 21), ("table_4", 22),
   ("lagrange_first", 23), ("lagrange_last", 24), ("w_l", 25), ("w_r", 26), ("w_o", 27), ("w_4",
   28), ("sorted_accum", 29), ("z_perm", 30), ("z_lookup", 31), ("table_1_shift", 32),
   ("table_2_shift", 33), ("table_3_shift", 34), ("table_4_shift", 35), ("w_l_shift", 36),
   ("w_r_shift", 37), ("w_o_shift", 38), ("w_4_shift", 39), ("sorted_accum_shift", 40),
   ("z_perm_shift", 41), ("z_lookup_shift", 42)]

/-- The names of the cells that `get_wires()` returns, in order. -/
def get_wires : List String :=
  ["w_l", "w_r", "w_o", "w_4"]

/-- The names of the cells that `get_unshifted()` returns, in order. -/
def get_unshifted : List String :=
  ["q_c", "q_l", "q_r", "q_o", "q_4", "q_m", "q_arith", "q_sort", "q_elliptic", "q_aux",
   "q_lookup", "sigma_1", "sigma_2", "sigma_3", "sigma_4", "id_1", "id_2", "id_3", "id_4",
   "table_1", "table_2", "table_3", "table_4", "lagrange_first", "lagrange_last", "w_l", "w_r",
   "w_o", "w_4", "sorted_accum", "z_perm", "z_lookup"]

/-- The names of the cells that `get_to_be_shifted()` returns, in order. -/
def get_to_be_shifted : List String :=
  ["table_1", "table_2", "table_3", "table_4", "w_l", "w_r", "w_o", "w_4", "sorted_accum",
   "z_perm", "z_lookup"]

/-- The names of the cells that `get_shifted()` returns, in order. -/
def get_shifted : List String :=
  ["table_1_shift", "table_2_shift", "table_3_shift", "table_4_shift", "w_l_shift", "w_r_shift",
   "w_o_shift", "w_4_shift", "sorted_accum_shift", "z_perm_shift", "z_lookup_shift"]

end AllEntities

/-- The assignments of the constructor of `CommitmentLabels`, in order: accessor name and
label. -/
def CommitmentLabels : List (String × String) :=
  [("w_l", "W_L"), ("w_r", "W_R"), ("w_o", "W_O"), ("w_4", "W_4"), ("z_perm", "Z_PERM"),
   ("z_lookup", "Z_LOOKUP"), ("sorted_accum", "SORTED_ACCUM"), ("q_c", "__Q_C"), ("q_l",
   "__Q_L"), ("q_r", "__Q_R"), ("q_o", "__Q_O"), ("q_4", "__Q_4"), ("q_m", "__Q_M"), ("q_arith",
   "__Q_ARITH"), ("q_sort", "__Q_SORT"), ("q_elliptic", "__Q_ELLIPTIC"), ("q_aux", "__Q_AUX"),
   ("q_lookup", "__Q_LOOKUP"), ("sigma_1", "__SIGMA_1"), ("sigma_2", "__SIGMA_2"), ("sigma_3",
   "__SIGMA_3"), ("sigma_4", "__SIGMA_4"), ("id_1", "__ID_1"), ("id_2", "__ID_2"), ("id_3",
   "__ID_3"), ("id_4", "__ID_4"), ("table_1", "__TABLE_1"), ("table_2", "__TABLE_2"),
   ("table_3", "__TABLE_3"), ("table_4", "__TABLE_4"), ("lagrange_first", "__LAGRANGE_FIRST"),
   ("lagrange_last", "__LAGRANGE_LAST")]

end UltraRecursive_

end proof_system.honk.flavor

/-! ## Views, the general branch, printing -/

namespace barretenberg

namespace Univariate

variable {Fr : Type} {_length : Nat}

/-- The operator `+=` with a view. -/
def add_assign_view [Add Fr] [Inhabited Fr] (self : Univariate Fr _length)
    (view : UnivariateView Fr _length) : Univariate Fr _length :=
  forLoop 0 _length
    (fun i self => self.set_value_at i (self.value_at i + array_read view.evaluations i)) self

/-- The operator `-=` with a view. -/
def sub_assign_view [Sub Fr] [Inhabited Fr] (self : Univariate Fr _length)
    (view : UnivariateView Fr _length) : Univariate Fr _length :=
  forLoop 0 _length
    (fun i self => self.set_value_at i (self.value_at i - array_read view.evaluations i)) self

/-- The operator `*=` with a view. -/
def mul_assign_view [Mul Fr] [Inhabited Fr] (self : Univariate Fr _length)
    (view : UnivariateView Fr _length) : Univariate Fr _length :=
  forLoop 0 _length
    (fun i self => self.set_value_at i (self.value_at i * array_read view.evaluations i)) self

/-- The operator `+` with a view: copy, then `+=`. -/
def add_view [Add Fr] [Inhabited Fr] (self : Univariate Fr _length)
    (view : UnivariateView Fr _length) : Univariate Fr _length :=
  let res := self
  res.add_assign_view view

/-- The operator `-` with a view: copy, then `-=`. -/
def sub_view [Sub Fr] [Inhabited Fr] (self : Univariate Fr _length)
    (view : UnivariateView Fr _length) : Univariate Fr _length :=
  let res := self
  res.sub_assign_view view

/-- The operator `*` with a view: copy, then `*=`. -/
def mul_view [Mul Fr] [Inhabited Fr] (self : Univariate Fr _length)
    (view : UnivariateView Fr _length) : Univariate Fr _length :=
  let res := self
  res.mul_assign_view view

/-- The general branch of `extend_to`, the `else` of `if constexpr (LENGTH == 2)`, for any
`LENGTH`. -/
def extend_to_general [CommRing Fr] [Inhabited Fr] (EXTENDED_LENGTH : Nat)
    (_static_assert : _length ≤ EXTENDED_LENGTH) (Data : BarycentricData Fr)
    (self : Univariate Fr _length) : Univariate Fr EXTENDED_LENGTH :=
  let result : Univariate Fr EXTENDED_LENGTH := uninit
  let result : Univariate Fr EXTENDED_LENGTH := ⟨std_copy self.evaluations result.evaluations⟩
  forLoop _length EXTENDED_LENGTH (extend_body Data self) result

/-- The value `inv` of `evaluate` at step `i` of its second loop, right before it is inverted
by `inv = Fr(1) / inv`. -/
def evaluate_divisor [Field Fr] (Data : BarycentricData Fr) (u : Fr) (i : Nat) : Fr :=
  let inv := Data.lagrange_denominators i
  let inv := inv * (u - Data.big_domain i)
  inv

/-- The operator `<<` of a stream and a univariate: the stream content `os` with the printed
univariate appended.  The printing of a field element is that of the field library and is a
parameter. -/
def stream_out [Inhabited Fr] (print_element : Fr → String) (os : String)
    (u : Univariate Fr _length) : String :=
  let os := os ++ "["
  let os := os ++ print_element (array_read u.evaluations 0) ++ "," ++ "\n"
  forLoop 1 _length
    (fun i os =>
      let os := os ++ " " ++ print_element (array_read u.evaluations i)
      if i + 1 < _length then os ++ "," ++ "\n" else os ++ "]") os

end Univariate

namespace UnivariateView

variable {Fr : Type} {view_length : Nat}

/-- The operator `+` of two views. -/
def add [Add Fr] [Inhabited Fr] (self other : UnivariateView Fr view_length) :
    Univariate Fr view_length :=
  let res := Univariate.of_view self
  res.add_assign_view other

/-- The operator `-` of two views. -/
def sub [Sub Fr] [Inhabited Fr] (self other : UnivariateView Fr view_length) :
    Univariate Fr view_length :=
  let res := Univariate.of_view self
  res.sub_assign_view other

/-- The operator `*` of two views. -/
def mul [Mul Fr] [Inhabited Fr] (self other : UnivariateView Fr view_length) :
    Univariate Fr view_length :=
  let res := Univariate.of_view self
  res.mul_assign_view other

/-- The operator `*` of a view and a univariate. -/
def mul_univariate [Mul Fr] [Inhabited Fr] (self : UnivariateView Fr view_length)
    (other : Univariate Fr view_length) : Univariate Fr view_length :=
  let res := Univariate.of_view self
  res.mul_assign other

/-- The operator `+` of a view and a univariate. -/
def add_univariate [Add Fr] [Inhabited Fr] (self : UnivariateView Fr view_length)
    (other : Univariate Fr view_length) : Univariate Fr view_length :=
  let res := Univariate.of_view self
  res.add_assign other

/-- The operator `+` of a view and a scalar. -/
def add_scalar [Add Fr] [Inhabited Fr] (self : UnivariateView Fr view_length) (other : Fr) :
    Univariate Fr view_length :=
  let res := Univariate.of_view self
  res.add_assign_scalar other

/-- The operator `-` of a view and a scalar. -/
def sub_scalar [Sub Fr] [Inhabited Fr] (self : UnivariateView Fr view_length) (other : Fr) :
    Univariate Fr view_length :=
  let res := Univariate.of_view self
  res.sub_assign_scalar other

/-- The operator `*` of a view and a scalar. -/
def mul_scalar [Mul Fr] [Inhabited Fr] (self : UnivariateView Fr view_length) (other : Fr) :
    Univariate Fr view_length :=
  let res := Univariate.of_view self
  res.mul_assign_scalar other

/-- The operator `-` of a view and a univariate. -/
def sub_univariate [Sub Fr] [Inhabited Fr] (self : UnivariateView Fr view_length)
    (other : Univariate Fr view_length) : Univariate Fr view_length :=
  let res := Univariate.of_view self
  res.sub_assign other

/-- The operator `<<` of a stream and a view. -/
def stream_out [Inhabited Fr] (print_element : Fr → String) (os : String)
    (u : UnivariateView Fr view_length) : String :=
  let os := os ++ "["
  let os := os ++ print_element (array_read u.evaluations 0) ++ "," ++ "\n"
  forLoop 1 view_length
    (fun i os =>
      let os := os ++ " " ++ print_element (array_read u.evaluations i)
      if i + 1 < view_length then os ++ "," ++ "\n" else os ++ "]") os

end UnivariateView

end barretenberg

/-! ## Relations on rows of univariates, and accumulation over rows -/

namespace proof_system

open barretenberg

namespace UltraPermutationRelationImpl

/-- The row with every entity mapped through `f`. -/
def AllEntities.map {A B : Type} (f : A → B) (input : AllEntities A) : AllEntities B where
  w_l := f input.w_l
  w_r := f input.w_r
  w_o := f input.w_o
  w_4 := f input.w_4
  id_1 := f input.id_1
  id_2 := f input.id_2
  id_3 := f input.id_3
  id_4 := f input.id_4
  sigma_1 := f input.sigma_1
  sigma_2 := f input.sigma_2
  sigma_3 := f input.sigma_3
  sigma_4 := f input.sigma_4
  z_perm := f input.z_perm
  z_perm_shift := f input.z_perm_shift
  lagrange_first := f input.lagrange_first
  lagrange_last := f input.lagrange_last

variable {FF : Type} [CommRing FF] [Inhabited FF]

/-- The function `compute_grand_product_numerator` for an accumulator `Univariate<FF, LEN>`: the
entities are edges `Univariate<FF, MAX>` and `View` is `UnivariateView<FF, LEN>`. -/
def compute_grand_product_numerator_univariate {LEN MAX : Nat}
    (input : AllEntities (Univariate FF MAX)) (relation_parameters : RelationParameters FF) :
    Univariate FF LEN :=
  let w_1 : UnivariateView FF LEN := UnivariateView.of_univariate input.w_l
  let w_2 : UnivariateView FF LEN := UnivariateView.of_univariate input.w_r
  let w_3 : UnivariateView FF LEN := UnivariateView.of_univariate input.w_o
  let w_4 : UnivariateView FF LEN := UnivariateView.of_univariate input.w_4
  let id_1 : UnivariateView FF LEN := UnivariateView.of_univariate input.id_1
  let id_2 : UnivariateView FF LEN := UnivariateView.of_univariate input.id_2
  let id_3 : UnivariateView FF LEN := UnivariateView.of_univariate input.id_3
  let id_4 : UnivariateView FF LEN := UnivariateView.of_univariate input.id_4
  let beta := relation_parameters.beta
  let gamma := relation_parameters.gamma
  ((((w_1.add_univariate (id_1.mul_scalar beta)).add_scalar gamma).mul
        ((w_2.add_univariate (id_2.mul_scalar beta)).add_scalar gamma)).mul
      ((w_3.add_univariate (id_3.mul_scalar beta)).add_scalar gamma)).mul
    ((w_4.add_univariate (id_4.mul_scalar beta)).add_scalar gamma)

/-- The function `compute_grand_product_denominator` for an accumulator
`Univariate<FF, LEN>`. -/
def compute_grand_product_denominator_univariate {LEN MAX : Nat}
    (input : AllEntities (Univariate FF MAX)) (relation_parameters : RelationParameters FF) :
    Univariate FF LEN :=
  let w_1 : UnivariateView FF LEN := UnivariateView.of_univariate input.w_l
  let w_2 : UnivariateView FF LEN := UnivariateView.of_univariate input.w_r
  let w_3 : UnivariateView FF LEN := UnivariateView.of_univariate input.w_o
  let w_4 : UnivariateView FF LEN := UnivariateView.of_univariate input.w_4
  let sigma_1 : UnivariateView FF LEN := UnivariateView.of_univariate input.sigma_1
  let sigma_2 : UnivariateView FF LEN := UnivariateView.of_univariate input.sigma_2
  let sigma_3 : UnivariateView FF LEN := UnivariateView.of_univariate input.sigma_3
  let sigma_4 : UnivariateView FF LEN := UnivariateView.of_univariate input.sigma_4
  let beta := relation_parameters.beta
  let gamma := relation_parameters.gamma
  ((((w_1.add_univariate (sigma_1.mul_scalar beta)).add_scalar gamma).mul
        ((w_2.add_univariate (sigma_2.mul_scalar beta)).add_scalar gamma)).mul
      ((w_3.add_univariate (sigma_3.mul_scalar beta)).add_scalar gamma)).mul
    ((w_4.add_univariate (sigma_4.mul_scalar beta)).add_scalar gamma)

/-- The function `accumulate` of the permutation relation on a row of edges
`Univariate<FF, MAX>`, with the tuple of accumulators `Univariate<FF, LEN_0>` and
`Univariate<FF, LEN_1>`; the views of a contribution have the length of its accumulator. -/
def accumulate_univariate {LEN_0 LEN_1 MAX : Nat}
    (accumulators : Univariate FF LEN_0 × Univariate FF LEN_1)
    (input : AllEntities (Univariate FF MAX)) (relation_parameters : RelationParameters FF)
    (scaling_factor : FF) : Univariate FF LEN_0 × Univariate FF LEN_1 :=
  let public_input_delta := relation_parameters.public_input_delta
  -- Contribution (1)
  let accumulators : Univariate FF LEN_0 × Univariate FF LEN_1 :=
    let z_perm : UnivariateView FF LEN_0 := UnivariateView.of_univariate input.z_perm
    let z_perm_shift : UnivariateView FF LEN_0 :=
      UnivariateView.of_univariate input.z_perm_shift
    let lagrange_first : UnivariateView FF LEN_0 :=
      UnivariateView.of_univariate input.lagrange_first
    let lagrange_last : UnivariateView FF LEN_0 :=
      UnivariateView.of_univariate input.lagrange_last
    (accumulators.1.add_assign
        ((((z_perm.add lagrange_first).mul
              (compute_grand_product_numerator_univariate input relation_parameters)).sub
            ((z_perm_shift.add_univariate (lagrange_last.mul_scalar public_input_delta)).mul
              (compute_grand_product_denominator_univariate input relation_parameters))).mul_scalar
          scaling_factor),
      accumulators.2)
  -- Contribution (2)
  let accumulators : Univariate FF LEN_0 × Univariate FF LEN_1 :=
    let z_perm_shift : UnivariateView FF LEN_1 :=
      UnivariateView.of_univariate input.z_perm_shift
    let lagrange_last : UnivariateView FF LEN_1 :=
      UnivariateView.of_univariate input.lagrange_last
    (accumulators.1,
      accumulators.2.add_assign ((lagrange_last.mul z_perm_shift).mul_scalar scaling_factor))
  accumulators

/-- The accumulators after `accumulate` has been called on each pair of a row and a scaling
factor of `rows`, in order, starting from `accumulators`. -/
def accumulate_rows {FF : Type} [CommRing FF] (accumulators : Fin 2 → FF)
    (relation_parameters : RelationParameters FF) (rows : List (AllEntities FF × FF)) :
    Fin 2 → FF :=
  rows.foldl (fun accumulators pair => accumulate accumulators pair.1 relation_parameters pair.2)
    accumulators

end UltraPermutationRelationImpl

namespace BabyVMRelationImpl

/-- The accumulators after `accumulate` has been called on each pair of a row and a scaling
factor of `rows`, in order, starting from `accumulators`. -/
def accumulate_rows {FF : Type} [CommRing FF] (accumulators : Fin 4 → FF)
    (parameters : RelationParameters FF) (rows : List (NewTerm FF × FF)) : Fin 4 → FF :=
  rows.foldl (fun accumulators pair => accumulate accumulators pair.1 parameters pair.2)
    accumulators

end BabyVMRelationImpl

end proof_system

/-! ## Private call data -/

namespace aztec3.circuits.abis.private_kernel

/-- The operator `==` of `std::array<T, N>`: the elements are compared one by one with the
operator `==` of `T`. -/
def array_eq {T : Type} [BEq T] {N : Nat} (a b : Fin N → T) : Bool :=
  (List.finRange N).all (fun i => a i == b i)

/-- The struct `PrivateCallData<NCT>`.  The types of its members are declared in headers that
are not part of the sources at hand and are type parameters; `VKPointer` is
`std::shared_ptr<VK>`, `Fr` is `NCT::fr`, and the array lengths are the constants
`MAX_PRIVATE_CALL_STACK_LENGTH_PER_CALL` and `MAX_READ_REQUESTS_PER_CALL`. -/
structure PrivateCallData (CallStackItem Proof VKPointer FunctionWitness ContractWitness
    ReadRequestWitness Fr : Type) (MAX_PRIVATE_CALL_STACK_LENGTH_PER_CALL
    MAX_READ_REQUESTS_PER_CALL : Nat) where
  call_stack_item : CallStackItem
  private_call_stack_preimages : Fin MAX_PRIVATE_CALL_STACK_LENGTH_PER_CALL → CallStackItem
  proof : Proof
  vk : VKPointer
  function_leaf_membership_witness : FunctionWitness
  contract_leaf_membership_witness : ContractWitness
  read_request_membership_witnesses : Fin MAX_READ_REQUESTS_PER_CALL → ReadRequestWitness
  portal_contract_address : Fr
  acir_hash : Fr

/-- The operator `==` of `PrivateCallData` for native types (`boolean` is `bool`); the
operators `==` of the member types are those of the `BEq` instances. -/
def PrivateCallData.operator_eq {CallStackItem Proof VKPointer FunctionWitness ContractWitness
    ReadRequestWitness Fr : Type} {MAX_PRIVATE_CALL_STACK_LENGTH_PER_CALL
    MAX_READ_REQUESTS_PER_CALL : Nat} [BEq CallStackItem] [BEq VKPointer] [BEq FunctionWitness]
    [BEq ContractWitness] [BEq ReadRequestWitness] [BEq Fr]
    (self other : PrivateCallData CallStackItem Proof VKPointer FunctionWitness ContractWitness
      ReadRequestWitness Fr MAX_PRIVATE_CALL_STACK_LENGTH_PER_CALL MAX_READ_REQUESTS_PER_CALL) :
    Bool :=
  -- WARNING: proof skipped!
  (self.call_stack_item == other.call_stack_item) &&
    array_eq self.private_call_stack_preimages other.private_call_stack_preimages &&
    (self.vk == other.vk) &&
    (self.function_leaf_membership_witness == other.function_leaf_membership_witness) &&
    (self.contract_leaf_membership_witness == other.contract_leaf_membership_witness) &&
    array_eq self.read_request_membership_witnesses other.read_request_membership_witnesses &&
    (self.portal_contract_address == other.portal_contract_address) &&
    (self.acir_hash == other.acir_hash)

end aztec3.circuits.abis.private_kernel

/-! ## Loop bounds, the operation log, the subgroup size, the verifier's commitments -/

namespace barretenberg

/-- The subtraction `a - b` of two `size_t` values: unsigned, modulo `2^64`. -/
def size_t_sub (a b : Nat) : Nat :=
  (a % 2 ^ 64 + 2 ^ 64 - b % 2 ^ 64) % 2 ^ 64

namespace Univariate

/-- The cells that the loop of the `LENGTH == 2` branch of `extend_to` touches, in the order of
execution: the step `idx` reads cell `idx` and writes cell `idx + 1`.  The bound of the loop is
the `size_t` expression `EXTENDED_LENGTH - 1`. -/
def extend_to_linear_accesses (EXTENDED_LENGTH : Nat) : List (Nat × Nat) :=
  forLoop 1 (size_t_sub EXTENDED_LENGTH 1)
    (fun idx accesses => accesses ++ [(idx, idx + 1)]) []

end Univariate
end barretenberg

namespace proof_system
namespace BabyVMCircuitBuilder

/-- A call of one of the three recording members of the builder, with its arguments. -/
inductive Call (FF : Type) where
  | add_accumulate (to_add : FF)
  | mul_accumulate (to_mul scalar : FF)
  | eq_and_reset (expected : FF)

/-- Perform a call on a builder. -/
def Call.run {FF : Type} [CommRing FF] (call : Call FF) (self : BabyVMCircuitBuilder FF) :
    BabyVMCircuitBuilder FF :=
  match call with
  | Call.add_accumulate to_add => self.add_accumulate to_add
  | Call.mul_accumulate to_mul scalar => self.mul_accumulate to_mul scalar
  | Call.eq_and_reset expected => self.eq_and_reset expected

/-- Perform a sequence of calls on a builder, in order. -/
def run_calls {FF : Type} [CommRing FF] (calls : List (Call FF))
    (self : BabyVMCircuitBuilder FF) : BabyVMCircuitBuilder FF :=
  calls.foldl (fun builder call => call.run builder) self

/-- The expression `a << s` on `size_t`: the bits shifted out are lost, and a shift by 64 or
more has no defined result. -/
def shift_left (a s : Nat) : Option Nat :=
  if s < 64 then some ((a * 2 ^ s) % 2 ^ 64) else none

/-- The member `get_circuit_subgroup_size`.  The function `numeric::get_msb64` is declared in a
header that is not part of the sources at hand, so it is a parameter. -/
def get_circuit_subgroup_size (get_msb64 : Nat → Nat) (num_rows : Nat) : Option Nat :=
  let num_rows_log2 := get_msb64 num_rows % 2 ^ 64
  (shift_left 1 num_rows_log2).bind (fun pow =>
    shift_left 1 ((num_rows_log2 + (if pow = num_rows then 0 else 1)) % 2 ^ 64))

end BabyVMCircuitBuilder
end proof_system

namespace proof_system.honk.flavor
open barretenberg

/-- The assignment `name = source->name` between two containers: `name` is resolved in each
container by that container's accessors. -/
def assign_by_name {T : Type} [Inhabited T] {N M : Nat}
    (target_accessors source_accessors : List (String × Nat)) (source : Fin M → T)
    (data : Fin N → T) (name : String) : Fin N → T :=
  match resolve target_accessors name, resolve source_accessors name with
  | some i, some j => array_write data i (array_read source j)
  | _, _ => data

namespace UltraGrumpkin
namespace VerifierCommitments

/-- The names assigned by the constructor of `VerifierCommitments`, in order: a line
`name = verification_key->name` is `name`. -/
def assigned : List String :=
  ["q_m", "q_l", "q_r", "q_o", "q_4", "q_c", "q_arith", "q_sort", "q_elliptic", "q_aux",
   "q_lookup", "sigma_1", "sigma_2", "sigma_3", "sigma_4", "id_1", "id_2", "id_3", "id_4",
   "table_1", "table_2", "table_3", "table_4", "lagrange_first", "lagrange_last"]

/-- The constructor `VerifierCommitments(verification_key, transcript)`: the cells of the base
`AllEntities` are default-constructed, then the assignments are performed; the transcript is
not used. -/
def construct {Commitment : Type} [Inhabited Commitment]
    (verification_key : Fin NUM_PRECOMPUTED_ENTITIES → Commitment) :
    Fin NUM_ALL_ENTITIES → Commitment :=
  assigned.foldl
    (assign_by_name AllEntities.accessors PrecomputedEntities.accessors verification_key)
    (fun _ => default)

end VerifierCommitments
end UltraGrumpkin

namespace UltraRecursive_
namespace VerifierCommitments

/-- The names assigned by the constructor of `VerifierCommitments`, in order: a line
`this->name = verification_key->name` is `name`. -/
def assigned : List String :=
  ["q_m", "q_l", "q_r", "q_o", "q_4", "q_c", "q_arith", "q_sort", "q_elliptic", "q_aux",
   "q_lookup", "sigma_1", "sigma_2", "sigma_3", "sigma_4", "id_1", "id_2", "id_3", "id_4",
   "table_1", "table_2", "table_3", "table_4", "lagrange_first", "lagrange_last"]

/-- The constructor `VerifierCommitments(verification_key)`: the cells of the base
`AllEntities` are default-constructed, then the assignments are performed. -/
def construct {Commitment : Type} [Inhabited Commitment]
    (verification_key : Fin NUM_PRECOMPUTED_ENTITIES → Commitment) :
    Fin NUM_ALL_ENTITIES → Commitment :=
  assigned.foldl
    (assign_by_name AllEntities.accessors PrecomputedEntities.accessors verification_key)
    (fun _ => default)

end VerifierCommitments
end UltraRecursive_

end proof_system.honk.flavor

/-! ## Lemmas on loops and arrays -/

namespace barretenberg

theorem forLoop_of_le {σ : Type} (lo hi : Nat) (body : Nat → σ → σ) (init : σ) (h : hi ≤ lo) :
    forLoop lo hi body init = init := by
  simp [forLoop, Nat.sub_eq_zero_of_le h]

theorem forLoop_succ {σ : Type} (lo hi : Nat) (body : Nat → σ → σ) (init : σ) (h : lo ≤ hi) :
    forLoop lo (hi + 1) body init = body hi (forLoop lo hi body init) := by
  unfold forLoop
  have e : hi + 1 - lo = (hi - lo) + 1 := by omega
  rw [e, List.range'_concat, List.foldl_append]
  simp only [List.foldl_cons, List.foldl_nil, Nat.one_mul]
  congr 1
  omega

/-- Invariant rule for `forLoop`. -/
theorem forLoop_invariant {σ : Type} (P : Nat → σ → Prop) (lo hi : Nat) (body : Nat → σ → σ)
    (init : σ) (hle : lo ≤ hi) (h0 : P lo init)
    (hstep : ∀ i s, lo ≤ i → i < hi → P i s → P (i + 1) (body i s)) :
    P hi (forLoop lo hi body init) := by
  induction hi with
  | zero =>
    have : lo = 0 := by omega
    subst this
    simpa [forLoop] using h0
  | succ m ih =>
    rcases Nat.eq_or_lt_of_le hle with h | h
    · subst h
      rw [forLoop_of_le _ _ _ _ (le_refl _)]
      exact h0
    · have hm : lo ≤ m := by omega
      rw [forLoop_succ _ _ _ _ hm]
      exact hstep m _ hm (by omega)
        (ih hm (fun i s h1 h2 hp => hstep i s h1 (by omega) hp))

theorem array_read_of_lt {T : Type} [Inhabited T] {N : Nat} (a : Fin N → T) (i : Nat)
    (h : i < N) : array_read a i = a ⟨i, h⟩ := by
  simp [array_read, h]

theorem array_read_write {T : Type} [Inhabited T] {N : Nat} (a : Fin N → T) (i j : Nat) (x : T) :
    array_read (array_write a i x) j = if j = i ∧ j < N then x else array_read a j := by
  unfold array_read array_write
  by_cases e : j = i
  · subst e
    by_cases h : j < N <;> simp [h]
  · by_cases h : j < N <;> simp [h, e]

namespace Univariate

variable {Fr : Type} {n : Nat}

theorem ext_value_at [Inhabited Fr] {a b : Univariate Fr n}
    (h : ∀ i, i < n → a.value_at i = b.value_at i) : a = b := by
  cases a with | mk ea => cases b with | mk eb =>
  congr 1
  funext i
  have := h i.val i.isLt
  simpa [value_at, array_read] using this

theorem value_at_set_value_at [Inhabited Fr] (u : Univariate Fr n) (i j : Nat) (x : Fr) :
    (u.set_value_at i x).value_at j = if j = i ∧ j < n then x else u.value_at j := by
  simp [value_at, set_value_at, array_read_write]

theorem value_at_of_le [Inhabited Fr] (u : Univariate Fr n) (i : Nat) (h : n ≤ i) :
    u.value_at i = default := by
  simp [value_at, array_read, Nat.not_lt.mpr h]

/-- A loop that rewrites cell `i` from its own content at step `i`. -/
theorem value_at_forLoop_pointwise [Inhabited Fr] (g : Nat → Fr → Fr) (u : Univariate Fr n)
    (m i : Nat) :
    (forLoop 0 m (fun i s => s.set_value_at i (g i (s.value_at i))) u).value_at i
      = if i < m ∧ i < n then g i (u.value_at i) else u.value_at i := by
  induction m with
  | zero => simp [forLoop]
  | succ m ih =>
    rw [forLoop_succ _ _ _ _ (Nat.zero_le _), value_at_set_value_at]
    by_cases e : i = m
    · subst e
      by_cases hn : i < n
      · simp [hn, ih]
      · simp [hn, ih]
    · have : (i < m + 1) = (i < m) := by
        apply propext; constructor <;> intro h <;> omega
      simp [e, ih, this]

end Univariate
end barretenberg

/-! ## Lemmas on `extend_to` -/

namespace barretenberg
namespace Univariate

variable {Fr : Type} {n : Nat}

theorem value_at_std_copy [Inhabited Fr] {L U : Nat} (f : Univariate Fr L) (r : Univariate Fr U)
    (i : Nat) (hL : i < L) (hU : i < U) :
    (Univariate.mk (std_copy f.evaluations r.evaluations)).value_at i = f.value_at i := by
  simp [value_at, std_copy, array_read, hL, hU]

/-- A loop whose steps all leave cell `i` alone leaves cell `i` alone. -/
theorem value_at_forLoop_of_preserved [Inhabited Fr] (lo hi : Nat)
    (body : Nat → Univariate Fr n → Univariate Fr n) (u : Univariate Fr n) (i : Nat)
    (hbody : ∀ j s, lo ≤ j → j < hi → (body j s).value_at i = s.value_at i) :
    (forLoop lo hi body u).value_at i = u.value_at i := by
  rcases Nat.lt_or_ge hi lo with h | h
  · rw [forLoop_of_le _ _ _ _ (Nat.le_of_lt h)]
  · exact forLoop_invariant (fun _ s => s.value_at i = u.value_at i) lo hi body u h rfl
      (fun j s h1 h2 hp => by
        show (body j s).value_at i = u.value_at i
        rw [hbody j s h1 h2]; exact hp)

/-- The inner loop of the general branch of `extend_to` adds the `j`-th terms to cell `k`. -/
theorem value_at_inner_loop [CommRing Fr] [Inhabited Fr] {U : Nat} (t : Nat → Fr) (k : Nat)
    (hk : k < U) (r : Univariate Fr U) (m : Nat) :
    (forLoop 0 m (fun j result => result.set_value_at k (result.value_at k + t j)) r).value_at k
      = r.value_at k + ((List.range m).map t).sum := by
  induction m with
  | zero => simp [forLoop]
  | succ m ih =>
    rw [forLoop_succ _ _ _ _ (Nat.zero_le _), value_at_set_value_at, ih]
    simp [hk, List.range_succ, add_assoc]

theorem value_at_extend_body_ne [CommRing Fr] [Inhabited Fr] {L U : Nat}
    (Data : BarycentricData Fr) (self : Univariate Fr L) (k : Nat) (result : Univariate Fr U)
    (i : Nat) (h : i ≠ k) :
    (extend_body Data self k result).value_at i = result.value_at i := by
  unfold extend_body
  simp only [value_at_set_value_at, h, false_and, if_false]
  rw [value_at_forLoop_of_preserved]
  · simp [value_at_set_value_at, h]
  · intro j s _ _
    simp [value_at_set_value_at, h]

theorem value_at_extend_body_self [CommRing Fr] [Inhabited Fr] {L U : Nat}
    (Data : BarycentricData Fr) (self : Univariate Fr L) (k : Nat) (result : Univariate Fr U)
    (hk : k < U) :
    (extend_body Data self k result).value_at k
      = ((List.range L).map (fun j =>
            self.value_at j * Data.precomputed_denominator_inverses (L * k + j))).sum
          * Data.full_numerator_values k := by
  unfold extend_body
  simp only [value_at_set_value_at, hk, and_self, if_true]
  rw [value_at_inner_loop (fun j => self.value_at j
    * Data.precomputed_denominator_inverses (L * k + j)) k hk]
  simp [value_at_set_value_at, hk]

theorem extend_to_eq_general [CommRing Fr] [Inhabited Fr] {L : Nat} (U : Nat) (h : L ≤ U)
    (Data : BarycentricData Fr) (self : Univariate Fr L) (hL : L ≠ 2) :
    self.extend_to U h Data
      = forLoop L U (extend_body Data self)
          (Univariate.mk (std_copy self.evaluations (uninit : Univariate Fr U).evaluations)) := by
  unfold extend_to
  simp only [hL, if_false]
  rfl

theorem extend_to_eq_linear [CommRing Fr] [Inhabited Fr] (U : Nat) (h : 2 ≤ U)
    (Data : BarycentricData Fr) (self : Univariate Fr 2) :
    self.extend_to U h Data
      = forLoop 1 (U - 1)
          (fun idx result =>
            result.set_value_at (idx + 1)
              (result.value_at idx + (self.value_at 1 - self.value_at 0)))
          (Univariate.mk (std_copy self.evaluations (uninit : Univariate Fr U).evaluations)) := by
  unfold extend_to
  simp only [if_true]

/-- Cells below `L` of an extension are those of the original (both branches). -/
theorem value_at_extend_to_of_lt [CommRing Fr] [Inhabited Fr] {L : Nat} (U : Nat) (h : L ≤ U)
    (Data : BarycentricData Fr) (self : Univariate Fr L) (i : Nat) (hi : i < L) :
    (self.extend_to U h Data).value_at i = self.value_at i := by
  by_cases hL : L = 2
  · subst hL
    rw [extend_to_eq_linear, value_at_forLoop_of_preserved]
    · exact value_at_std_copy self _ i hi (by omega)
    · intro j s h1 _
      rw [value_at_set_value_at]
      have : i ≠ j + 1 := by omega
      simp [this]
  · rw [extend_to_eq_general U h Data self hL, value_at_forLoop_of_preserved]
    · exact value_at_std_copy self _ i hi (by omega)
    · intro j s h1 _
      exact value_at_extend_body_ne Data self j s i (by omega)

/-- Cells from `L` on of an extension in the general branch hold the barycentric sum. -/
theorem value_at_extend_to_of_ge [CommRing Fr] [Inhabited Fr] {L : Nat} (U : Nat) (h : L ≤ U)
    (Data : BarycentricData Fr) (self : Univariate Fr L) (hL : L ≠ 2) (k : Nat) (hk : L ≤ k)
    (hkU : k < U) :
    (self.extend_to U h Data).value_at k
      = ((List.range L).map (fun j =>
            self.value_at j * Data.precomputed_denominator_inverses (L * k + j))).sum
          * Data.full_numerator_values k := by
  rw [extend_to_eq_general U h Data self hL]
  have key := forLoop_invariant
    (fun m (s : Univariate Fr U) => ∀ k, L ≤ k → k < m → k < U → s.value_at k
      = ((List.range L).map (fun j =>
            self.value_at j * Data.precomputed_denominator_inverses (L * k + j))).sum
          * Data.full_numerator_values k) L U (extend_body Data self)
    (Univariate.mk (std_copy self.evaluations (uninit : Univariate Fr U).evaluations)) h
    (fun k h1 h2 _ => by omega)
    (fun i s h1 h2 hp k hk1 hk2 hk3 => by
      by_cases e : k = i
      · subst e
        exact value_at_extend_body_self Data self k s hk3
      · rw [value_at_extend_body_ne Data self i s k e]
        exact hp k hk1 (by omega) hk3)
  exact key k hk hkU hkU

end Univariate
end barretenberg

/-! ## Arithmetic, round trip and the linear branch -/

namespace barretenberg
namespace Univariate

variable {Fr : Type} {n : Nat}

theorem value_at_of_view [Inhabited Fr] (view : UnivariateView Fr n) (i : Nat) (hi : i < n) :
    (Univariate.of_view view).value_at i = array_read view.evaluations i := by
  unfold Univariate.of_view
  have h := value_at_forLoop_pointwise (fun i _ => array_read view.evaluations i)
    (uninit : Univariate Fr n) n i
  simp only [hi, and_self, if_true] at h
  exact h

theorem value_at_add_assign [Add Fr] [Inhabited Fr] (a b : Univariate Fr n) (i : Nat)
    (hi : i < n) : (a.add_assign b).value_at i = a.value_at i + b.value_at i := by
  unfold add_assign
  have h := value_at_forLoop_pointwise (fun i x => x + b.value_at i) a n i
  simp only [hi, and_self, if_true] at h
  exact h

theorem value_at_sub_assign [Sub Fr] [Inhabited Fr] (a b : Univariate Fr n) (i : Nat)
    (hi : i < n) : (a.sub_assign b).value_at i = a.value_at i - b.value_at i := by
  unfold sub_assign
  have h := value_at_forLoop_pointwise (fun i x => x - b.value_at i) a n i
  simp only [hi, and_self, if_true] at h
  exact h

theorem value_at_mul_assign [Mul Fr] [Inhabited Fr] (a b : Univariate Fr n) (i : Nat)
    (hi : i < n) : (a.mul_assign b).value_at i = a.value_at i * b.value_at i := by
  unfold mul_assign
  have h := value_at_forLoop_pointwise (fun i x => x * b.value_at i) a n i
  simp only [hi, and_self, if_true] at h
  exact h

theorem value_at_add_assign_scalar [Add Fr] [Inhabited Fr] (a : Univariate Fr n) (c : Fr)
    (i : Nat) (hi : i < n) : (a.add_assign_scalar c).value_at i = a.value_at i + c := by
  simp [add_assign_scalar, value_at, array_read, hi]

theorem value_at_sub_assign_scalar [Sub Fr] [Inhabited Fr] (a : Univariate Fr n) (c : Fr)
    (i : Nat) (hi : i < n) : (a.sub_assign_scalar c).value_at i = a.value_at i - c := by
  simp [sub_assign_scalar, value_at, array_read, hi]

theorem value_at_mul_assign_scalar [Mul Fr] [Inhabited Fr] (a : Univariate Fr n) (c : Fr)
    (i : Nat) (hi : i < n) : (a.mul_assign_scalar c).value_at i = a.value_at i * c := by
  simp [mul_assign_scalar, value_at, array_read, hi]

/-- C5. Pointwise arithmetic: for univariates `a`, `b` of equal length `n`, a scalar `c` and an
index `i < n`, the operators `+`, `-`, `*` between univariates and between a univariate and a
scalar act on the `i`-th evaluations, and the compound assignments `+=`, `-=`, `*=` give the same
univariates; all operators are total functions. -/
theorem pointwise_arithmetic [CommRing Fr] [Inhabited Fr] (a b : Univariate Fr n) (c : Fr)
    (i : Nat) (hi : i < n) :
    ((a.add b).value_at i = a.value_at i + b.value_at i ∧
      (a.sub b).value_at i = a.value_at i - b.value_at i ∧
      (a.mul b).value_at i = a.value_at i * b.value_at i) ∧
    ((a.add_scalar c).value_at i = a.value_at i + c ∧
      (a.sub_scalar c).value_at i = a.value_at i - c ∧
      (a.mul_scalar c).value_at i = a.value_at i * c) ∧
    (a.add_assign b = a.add b ∧ a.sub_assign b = a.sub b ∧ a.mul_assign b = a.mul b) ∧
    (a.add_assign_scalar c = a.add_scalar c ∧ a.sub_assign_scalar c = a.sub_scalar c ∧
      a.mul_assign_scalar c = a.mul_scalar c) :=
  ⟨⟨value_at_add_assign a b i hi, value_at_sub_assign a b i hi, value_at_mul_assign a b i hi⟩,
    ⟨value_at_add_assign_scalar a c i hi, value_at_sub_assign_scalar a c i hi,
      value_at_mul_assign_scalar a c i hi⟩,
    ⟨rfl, rfl, rfl⟩, ⟨rfl, rfl, rfl⟩⟩

theorem pointwise_arithmetic_witness :
    (1 : Nat) < 2 ∧
    (((Univariate.mk ![(1 : ℚ), 2]).add (Univariate.mk ![3, 5])).value_at 1
        = (Univariate.mk ![(1 : ℚ), 2]).value_at 1 + (Univariate.mk ![(3 : ℚ), 5]).value_at 1) :=
  ⟨by decide,
    (pointwise_arithmetic (Univariate.mk ![(1 : ℚ), 2]) (Univariate.mk ![3, 5]) 7 1
      (by decide)).1.1⟩

/-- C2. Round trip of `extend_to`: for every `L`, every `U ≥ L` and every univariate `f` of
length `L`, in the linear branch and in the general branch and whatever the tables hold,
truncating `f.extend_to<U>()` to a view of length `L` and building a univariate from the view
gives `f` back: the cells `[0, L)` are copied unchanged. -/
theorem extend_to_round_trip [CommRing Fr] [Inhabited Fr] {L : Nat} (U : Nat) (h : L ≤ U)
    (Data : BarycentricData Fr) (f : Univariate Fr L) :
    Univariate.of_view
        (UnivariateView.of_univariate (f.extend_to U h Data) : UnivariateView Fr L) = f := by
  apply ext_value_at
  intro i hi
  rw [value_at_of_view _ i hi]
  have e : array_read
      (UnivariateView.of_univariate (f.extend_to U h Data) : UnivariateView Fr L).evaluations i
      = (f.extend_to U h Data).value_at i := by
    simp [UnivariateView.of_univariate, array_read, hi, value_at]
  rw [e, value_at_extend_to_of_lt U h Data f i hi]

theorem extend_to_round_trip_witness :
    (3 : Nat) ≤ 5 ∧
    Univariate.of_view
        (UnivariateView.of_univariate
          ((Univariate.mk ![(1 : ℚ), 4, 9]).extend_to 5 (by decide)
            (BarycentricData.spec_tables ℚ 3)) : UnivariateView ℚ 3)
      = Univariate.mk ![(1 : ℚ), 4, 9] :=
  ⟨by decide, extend_to_round_trip 5 (by decide) _ _⟩

/-- C4. Linear special case of `extend_to`: for `L = 2` and every `U ≥ 2`, with
`delta = v1 - v0`, every index `k < U` of `f.extend_to<U>()` holds `v0 + k * delta`, the value
at `k` of the line through `(0, v0)` and `(1, v1)`, and each value after the first is the prior
value plus `delta`. -/
theorem extend_to_linear [CommRing Fr] [Inhabited Fr] (U : Nat) (h : 2 ≤ U)
    (Data : BarycentricData Fr) (f : Univariate Fr 2) :
    (∀ k, k < U → (f.extend_to U h Data).value_at k
        = f.value_at 0 + (k : Fr) * (f.value_at 1 - f.value_at 0)) ∧
    (∀ k, k + 1 < U → (f.extend_to U h Data).value_at (k + 1)
        = (f.extend_to U h Data).value_at k + (f.value_at 1 - f.value_at 0)) := by
  have main : ∀ k, k < U → (f.extend_to U h Data).value_at k
      = f.value_at 0 + (k : Fr) * (f.value_at 1 - f.value_at 0) := by
    rw [extend_to_eq_linear]
    have key := forLoop_invariant
      (fun m (s : Univariate Fr U) => ∀ k, k ≤ m → k < U →
        s.value_at k = f.value_at 0 + (k : Fr) * (f.value_at 1 - f.value_at 0)) 1 (U - 1)
      (fun idx result =>
        result.set_value_at (idx + 1) (result.value_at idx + (f.value_at 1 - f.value_at 0)))
      (Univariate.mk (std_copy f.evaluations (uninit : Univariate Fr U).evaluations))
      (by omega)
      (fun k hk1 hkU => by
        rw [value_at_std_copy f _ k (by omega) hkU]
        rcases Nat.le_one_iff_eq_zero_or_eq_one.mp hk1 with e | e
        · subst e; simp
        · subst e; simp)
      (fun i s h1 h2 hp k hk1 hkU => by
        show (s.set_value_at (i + 1) (s.value_at i + (f.value_at 1 - f.value_at 0))).value_at k
          = _
        rw [value_at_set_value_at]
        by_cases e : k = i + 1
        · subst e
          simp only [hkU, and_self, if_true]
          rw [hp i (le_refl _) (by omega)]
          push_cast
          ring
        · simp only [e, false_and, if_false]
          exact hp k (by omega) hkU)
    intro k hk
    exact key k (by omega) hk
  refine ⟨main, fun k hk => ?_⟩
  rw [main (k + 1) hk, main k (by omega)]
  push_cast
  ring

theorem extend_to_linear_witness :
    (2 : Nat) ≤ 4 ∧ (3 : Nat) < 4 ∧
    ((Univariate.mk ![(1 : ℚ), 4]).extend_to 4 (by decide)
        (BarycentricData.spec_tables ℚ 2)).value_at 3
      = (Univariate.mk ![(1 : ℚ), 4]).value_at 0
        + ((3 : Nat) : ℚ) * ((Univariate.mk ![(1 : ℚ), 4]).value_at 1
            - (Univariate.mk ![(1 : ℚ), 4]).value_at 0) :=
  ⟨by decide, by decide, (extend_to_linear 4 (by decide) _ _).1 3 (by decide)⟩

end Univariate
end barretenberg

/-! ## The barycentric formula -/

namespace barretenberg

theorem toFinset_range_eq (L : Nat) : (List.range L).toFinset = Finset.range L := by
  ext a
  simp

open Polynomial in
/-- The barycentric formula on the domain `0, ..., L - 1`: a polynomial of degree below `L` is
recovered at a point off the domain from its values on the domain. -/
theorem barycentric_formula {Fr : Type} [Field Fr] (L : Nat)
    (hinj : ∀ a b, a < L → b < L → (a : Fr) = (b : Fr) → a = b)
    (p : Polynomial Fr) (hdeg : p.degree < (L : WithBot ℕ)) (x : Fr)
    (hx : ∀ i, i < L → x ≠ (i : Fr)) :
    ((List.range L).map (fun j : Nat =>
        p.eval (j : Fr) * (1 / (lagrange_denominator Fr L j * (x - (j : Fr)))))).sum
      * ((List.range L).map (fun i : Nat => x - (i : Fr))).prod = p.eval x := by
  classical
  have hvs : Set.InjOn (fun i : ℕ => (i : Fr)) (Finset.range L : Finset ℕ) := by
    intro a ha b hb hab
    exact hinj a b (by simpa using ha) (by simpa using hb) hab
  have hcard : p.degree < ((Finset.range L).card : WithBot ℕ) := by simpa using hdeg
  have hp := Lagrange.eq_interpolate hvs hcard
  have hx' : ∀ i ∈ Finset.range L, x ≠ (fun i : ℕ => (i : Fr)) i := by
    intro i hi
    exact hx i (by simpa using hi)
  have he := Lagrange.eval_interpolate_not_at_node (fun i => p.eval ((i : ℕ) : Fr)) hx'
  rw [← hp, Lagrange.eval_nodal] at he
  have hsum : ((List.range L).map (fun j : Nat =>
        p.eval (j : Fr) * (1 / (lagrange_denominator Fr L j * (x - (j : Fr)))))).sum
      = ∑ j ∈ Finset.range L, p.eval (j : Fr)
          * (1 / (lagrange_denominator Fr L j * (x - (j : Fr)))) := by
    rw [← List.sum_toFinset _ (List.nodup_range L), toFinset_range_eq]
  have hprod : ((List.range L).map (fun i : Nat => x - (i : Fr))).prod
      = ∏ i ∈ Finset.range L, (x - (i : Fr)) := by
    rw [← List.prod_toFinset _ (List.nodup_range L), toFinset_range_eq]
  have hden : ∀ j, lagrange_denominator Fr L j
      = ∏ i ∈ (Finset.range L).erase j, ((j : Fr) - (i : Fr)) := by
    intro j
    unfold lagrange_denominator
    rw [← List.prod_toFinset _ ((List.nodup_range L).filter _)]
    congr 1
    ext a
    simp [Finset.mem_erase, and_comm]
  rw [hsum, hprod, he, mul_comm]
  congr 1
  apply Finset.sum_congr rfl
  intro j _
  rw [hden j, Lagrange.nodalWeight, Finset.prod_inv_distrib, one_div, mul_inv]
  ring

end barretenberg

/-! ## Barycentric correctness of `extend_to` and `evaluate` -/

namespace barretenberg

theorem forLoop_mul_eq {Fr : Type} [CommRing Fr] (g : Nat → Fr) (a : Fr) (m : Nat) :
    forLoop 0 m (fun i acc => acc * g i) a = a * ((List.range m).map g).prod := by
  induction m with
  | zero => simp [forLoop]
  | succ m ih =>
    rw [forLoop_succ _ _ _ _ (Nat.zero_le _), ih]
    simp [List.range_succ, mul_assoc]

theorem forLoop_add_eq {Fr : Type} [CommRing Fr] (t : Nat → Fr) (a : Fr) (m : Nat) :
    forLoop 0 m (fun i acc => acc + t i) a = a + ((List.range m).map t).sum := by
  induction m with
  | zero => simp [forLoop]
  | succ m ih =>
    rw [forLoop_succ _ _ _ _ (Nat.zero_le _), ih]
    simp [List.range_succ, add_assoc]

/-- A loop that assigns `g i` to cell `i` at step `i`. -/
theorem array_read_forLoop_write {T : Type} [Inhabited T] {N : Nat} (g : Nat → T)
    (a : Fin N → T) (m i : Nat) :
    array_read (forLoop 0 m (fun i d => array_write d i (g i)) a) i
      = if i < m ∧ i < N then g i else array_read a i := by
  induction m with
  | zero => simp [forLoop]
  | succ m ih =>
    rw [forLoop_succ _ _ _ _ (Nat.zero_le _), array_read_write]
    by_cases e : i = m
    · subst e
      by_cases hn : i < N
      · simp [hn]
      · simp [hn, ih]
    · have : (i < m + 1) = (i < m) := by
        apply propext; constructor <;> intro h <;> omega
      simp [e, ih, this]

theorem spec_tables_extendSpec (Fr : Type) [Field Fr] (L U : Nat) :
    (BarycentricData.spec_tables Fr L).ExtendSpec L U := by
  refine ⟨fun k j _ _ hj => ?_, fun k _ _ => rfl⟩
  have hpos : 0 < L := by omega
  have e1 : (L * k + j) % L = j := by
    rw [Nat.mul_add_mod]; exact Nat.mod_eq_of_lt hj
  have e2 : (L * k + j) / L = k := by
    rw [Nat.mul_add_div hpos, Nat.div_eq_of_lt hj, Nat.add_zero]
  simp only [BarycentricData.spec_tables, e1, e2]

theorem spec_tables_evaluateSpec (Fr : Type) [Field Fr] (L : Nat) :
    (BarycentricData.spec_tables Fr L).EvaluateSpec L :=
  ⟨fun _ _ => rfl, fun _ _ => rfl⟩

namespace Univariate
variable {Fr : Type}

/-- What `evaluate` computes: the barycentric sum with the inverses taken on the fly, times the
product of the `u - i`. -/
theorem evaluate_eq [Field Fr] [Inhabited Fr] {L : Nat} (Data : BarycentricData Fr)
    (f : Univariate Fr L) (u : Fr) :
    f.evaluate Data u
      = ((List.range L).map (fun i : Nat => f.value_at i
            * (1 / (Data.lagrange_denominators i * (u - Data.big_domain i))))).sum
          * ((List.range L).map (fun i : Nat => u - (i : Fr))).prod := by
  unfold evaluate
  simp only []
  rw [forLoop_mul_eq (fun i : Nat => u - (i : Fr)) 1 L, one_mul]
  rw [forLoop_add_eq, zero_add]
  congr 2
  apply List.map_congr_left
  intro i hi
  have hi' : i < L := List.mem_range.mp hi
  rw [array_read_forLoop_write
    (fun i => 1 / (Data.lagrange_denominators i * (u - Data.big_domain i)))]
  simp [hi']

/-- C1. Barycentric correctness of `extend_to` in the general branch (`L ≠ 2`): over a field in
which `0, ..., U - 1` are pairwise distinct and with the tables of the spec formula, if `f` holds
the values `p(0), ..., p(L - 1)` of a polynomial `p` of degree below `L`, then for every `U ≥ L`
the extension `f.extend_to<U>()` holds `p(k)` at every index `k < U`. -/
theorem extend_to_barycentric [Field Fr] [Inhabited Fr] {L : Nat} (U : Nat) (h : L ≤ U)
    (hL : L ≠ 2) (Data : BarycentricData Fr) (hData : Data.ExtendSpec L U)
    (hdistinct : ∀ a b, a < U → b < U → (a : Fr) = (b : Fr) → a = b)
    (p : Polynomial Fr) (hdeg : p.degree < (L : WithBot ℕ)) (f : Univariate Fr L)
    (hf : ∀ i, i < L → f.value_at i = p.eval (i : Fr)) (k : Nat) (hk : k < U) :
    (f.extend_to U h Data).value_at k = p.eval (k : Fr) := by
  by_cases hkL : k < L
  · rw [value_at_extend_to_of_lt U h Data f k hkL, hf k hkL]
  · have hLk : L ≤ k := Nat.le_of_not_lt hkL
    rw [value_at_extend_to_of_ge U h Data f hL k hLk hk, hData.2 k hLk hk]
    have hterms : (List.range L).map (fun j =>
          f.value_at j * Data.precomputed_denominator_inverses (L * k + j))
        = (List.range L).map (fun j : Nat =>
          p.eval (j : Fr) * (1 / (lagrange_denominator Fr L j * ((k : Fr) - (j : Fr))))) := by
      apply List.map_congr_left
      intro j hj
      have hj' : j < L := List.mem_range.mp hj
      rw [hf j hj', hData.1 k j hLk hk hj']
    rw [hterms]
    exact barycentric_formula L
      (fun a b ha hb => hdistinct a b (by omega) (by omega)) p hdeg (k : Fr)
      (fun i hi e => by
        have := hdistinct k i hk (by omega) e
        omega)

theorem extend_to_barycentric_witness :
    ((Univariate.mk ![(0 : ℚ), 1, 4]).extend_to 5 (by decide)
        (BarycentricData.spec_tables ℚ 3)).value_at 4
      = (Polynomial.X ^ 2 : Polynomial ℚ).eval ((4 : Nat) : ℚ) :=
  extend_to_barycentric 5 (by decide) (by decide) (BarycentricData.spec_tables ℚ 3)
    (spec_tables_extendSpec ℚ 3 5) (fun a b _ _ e => Nat.cast_injective e)
    (Polynomial.X ^ 2) (by rw [Polynomial.degree_X_pow]; decide) (Univariate.mk ![(0 : ℚ), 1, 4])
    (fun i hi => by
      interval_cases i <;> norm_num [value_at, array_read])
    4 (by decide)

/-- C3. Evaluate consistency: over a field in which `0, ..., L - 1` are pairwise distinct, with
`lagrange_denominators[i] = d_i` and `big_domain[i] = i`, if `f` holds the values
`p(0), ..., p(L - 1)` of a polynomial `p` of degree below `L`, then `f.evaluate(u) = p(u)` for
every field element `u` outside `{0, ..., L - 1}`. -/
theorem evaluate_consistency [Field Fr] [Inhabited Fr] {L : Nat} (Data : BarycentricData Fr)
    (hData : Data.EvaluateSpec L)
    (hdistinct : ∀ a b, a < L → b < L → (a : Fr) = (b : Fr) → a = b)
    (p : Polynomial Fr) (hdeg : p.degree < (L : WithBot ℕ)) (f : Univariate Fr L)
    (hf : ∀ i, i < L → f.value_at i = p.eval (i : Fr)) (u : Fr)
    (hu : ∀ i, i < L → u ≠ (i : Fr)) :
    f.evaluate Data u = p.eval u := by
  rw [evaluate_eq]
  have hterms : (List.range L).map (fun i : Nat => f.value_at i
        * (1 / (Data.lagrange_denominators i * (u - Data.big_domain i))))
      = (List.range L).map (fun j : Nat =>
        p.eval (j : Fr) * (1 / (lagrange_denominator Fr L j * (u - (j : Fr))))) := by
    apply List.map_congr_left
    intro j hj
    have hj' : j < L := List.mem_range.mp hj
    rw [hf j hj', hData.1 j hj', hData.2 j hj']
  rw [hterms]
  exact barycentric_formula L hdistinct p hdeg u hu

theorem evaluate_consistency_witness :
    (Univariate.mk ![(0 : ℚ), 1, 4]).evaluate (BarycentricData.spec_tables ℚ 3) 7
      = (Polynomial.X ^ 2 : Polynomial ℚ).eval 7 :=
  evaluate_consistency (BarycentricData.spec_tables ℚ 3) (spec_tables_evaluateSpec ℚ 3)
    (fun a b _ _ e => Nat.cast_injective e)
    (Polynomial.X ^ 2) (by rw [Polynomial.degree_X_pow]; decide) (Univariate.mk ![(0 : ℚ), 1, 4])
    (fun i hi => by
      interval_cases i <;> norm_num [value_at, array_read])
    7
    (fun i hi => by
      interval_cases i <;> norm_num)

end Univariate
end barretenberg

/-! ## Relations -/

namespace proof_system
open barretenberg

namespace UltraPermutationRelationImpl

variable {FF : Type}

/-- C6. Permutation relation, sub-relation 1: for every row, parameters, scaling factor `s` and
prior accumulators, `accumulate` leaves accumulator 0 equal to its prior value plus
`((z_perm + lagrange_first) * N - (z_perm_shift + lagrange_last * public_input_delta) * D) * s`,
where `N` is the product over the four wires of `w_i + id_i * beta + gamma` and `D` the product
of `w_i + sigma_i * beta + gamma`. -/
theorem accumulate_grand_product [CommRing FF] (accumulators : Fin 2 → FF)
    (input : AllEntities FF) (relation_parameters : RelationParameters FF) (s : FF) :
    accumulate accumulators input relation_parameters s 0
      = accumulators 0
        + ((input.z_perm + input.lagrange_first)
              * ((input.w_l + input.id_1 * relation_parameters.beta + relation_parameters.gamma)
                * (input.w_r + input.id_2 * relation_parameters.beta + relation_parameters.gamma)
                * (input.w_o + input.id_3 * relation_parameters.beta + relation_parameters.gamma)
                * (input.w_4 + input.id_4 * relation_parameters.beta + relation_parameters.gamma))
            - (input.z_perm_shift
                + input.lagrange_last * relation_parameters.public_input_delta)
              * ((input.w_l + input.sigma_1 * relation_parameters.beta
                    + relation_parameters.gamma)
                * (input.w_r + input.sigma_2 * relation_parameters.beta
                    + relation_parameters.gamma)
                * (input.w_o + input.sigma_3 * relation_parameters.beta
                    + relation_parameters.gamma)
                * (input.w_4 + input.sigma_4 * relation_parameters.beta
                    + relation_parameters.gamma))) * s := by
  simp [accumulate, array_write, compute_grand_product_numerator,
    compute_grand_product_denominator]

theorem accumulate_one [CommRing FF] (accumulators : Fin 2 → FF)
    (input : AllEntities FF) (relation_parameters : RelationParameters FF) (s : FF) :
    accumulate accumulators input relation_parameters s 1
      = accumulators 1 + input.lagrange_last * input.z_perm_shift * s := by
  simp [accumulate, array_write]

/-- C7. Permutation relation, sub-relation 2: `accumulate` leaves accumulator 1 equal to its
prior value plus `lagrange_last * z_perm_shift * s`; over a field and for a nonzero `s` the
contribution is zero exactly when `lagrange_last = 0` or `z_perm_shift = 0`, so on a row where
`lagrange_last = 1` a zero contribution forces `z_perm_shift = 0`. -/
theorem accumulate_left_shiftable [Field FF] (accumulators : Fin 2 → FF)
    (input : AllEntities FF) (relation_parameters : RelationParameters FF) (s : FF)
    (hs : s ≠ 0) :
    accumulate accumulators input relation_parameters s 1
        = accumulators 1 + input.lagrange_last * input.z_perm_shift * s ∧
    (accumulate accumulators input relation_parameters s 1 = accumulators 1
        ↔ input.lagrange_last = 0 ∨ input.z_perm_shift = 0) ∧
    (input.lagrange_last = 1 →
      accumulate accumulators input relation_parameters s 1 = accumulators 1 →
      input.z_perm_shift = 0) := by
  have hiff : accumulate accumulators input relation_parameters s 1 = accumulators 1
      ↔ input.lagrange_last = 0 ∨ input.z_perm_shift = 0 := by
    rw [accumulate_one, add_right_eq_self, mul_eq_zero, mul_eq_zero]
    simp [hs]
  refine ⟨accumulate_one _ _ _ _, hiff, fun h1 h0 => ?_⟩
  rcases hiff.mp h0 with h | h
  · rw [h1] at h
    exact absurd h one_ne_zero
  · exact h

theorem accumulate_left_shiftable_witness :
    (3 : ℚ) ≠ 0 ∧
    (accumulate (fun _ => (0 : ℚ))
        { w_l := 0, w_r := 0, w_o := 0, w_4 := 0, id_1 := 0, id_2 := 0, id_3 := 0, id_4 := 0,
          sigma_1 := 0, sigma_2 := 0, sigma_3 := 0, sigma_4 := 0, z_perm := 0, z_perm_shift := 0,
          lagrange_first := 0, lagrange_last := 1 }
        ⟨0, 0, 0, 0, 0, 0, 0, 0⟩ 3 1 = 0
      ↔ (1 : ℚ) = 0 ∨ (0 : ℚ) = 0) :=
  ⟨by norm_num,
    (accumulate_left_shiftable (fun _ => (0 : ℚ))
      { w_l := 0, w_r := 0, w_o := 0, w_4 := 0, id_1 := 0, id_2 := 0, id_3 := 0, id_4 := 0,
        sigma_1 := 0, sigma_2 := 0, sigma_3 := 0, sigma_4 := 0, z_perm := 0, z_perm_shift := 0,
        lagrange_first := 0, lagrange_last := 1 }
      ⟨0, 0, 0, 0, 0, 0, 0, 0⟩ 3 (by norm_num)).2.1⟩

end UltraPermutationRelationImpl

namespace BabyVMRelationImpl

variable {FF : Type}

/-- What `accumulate` adds: every contribution is computed from `q_m` in the place of both
selectors. -/
theorem accumulate_apply [CommRing FF] (accumulators : Fin 4 → FF) (new_term : NewTerm FF)
    (parameters : RelationParameters FF) (s : FF) :
    accumulate accumulators new_term parameters s
      = ![accumulators 0
            + (new_term.w_l + new_term.w_r - new_term.w_o) * new_term.q_m
              * (1 - new_term.q_m) * s,
          accumulators 1
            + (new_term.w_l * new_term.w_r - new_term.w_o) * new_term.q_m
              * (1 - new_term.q_m) * s,
          accumulators 2 + new_term.q_m * (1 - new_term.q_m) * s,
          accumulators 3 + new_term.q_m * (1 - new_term.q_m) * s] := by
  have e3 : ((3 : Fin 4) : ℕ) = 3 := rfl
  funext j
  fin_cases j <;> simp [accumulate, array_write, e3]

/-- C8 (the source departs from it). On the row `w_l = 1`, `w_r = 1`, `w_o = 0` with
multiplication selector 0 and addition selector 1, scaling factor 1 and zeroed accumulators, the
claimed contributions are `2, 1, 0, 0`.  `accumulate` reads both selector views from the member
`q_m`: with `q_m` the multiplication selector it adds `0, 0, 0, 0`, and no value of `q_m`
whatsoever makes it add the claimed contributions. -/
theorem accumulate_reads_q_m_for_q_add :
    accumulate (fun _ => (0 : ℚ)) { w_l := 1, w_r := 1, w_o := 0, q_m := 0 }
        ⟨0, 0, 0, 0, 0, 0, 0, 0⟩ 1 = ![0, 0, 0, 0] ∧
    ¬ ∃ q_m : ℚ,
      accumulate (fun _ => (0 : ℚ)) { w_l := 1, w_r := 1, w_o := 0, q_m := q_m }
        ⟨0, 0, 0, 0, 0, 0, 0, 0⟩ 1
        = ![(1 + 1 - 0) * 1 * (1 - 0) * 1, (1 * 1 - 0) * 1 * (1 - 0) * 1, 0 * (1 - 0) * 1,
            1 * (1 - 1) * 1] := by
  constructor
  · rw [accumulate_apply]
    norm_num
  · rintro ⟨q_m, h⟩
    rw [accumulate_apply] at h
    have h0 := congrFun h 0
    have h2 := congrFun h 2
    simp at h0 h2
    rcases h2 with h2 | h2
    · rw [h2] at h0
      norm_num at h0
    · have : q_m = 1 := by linarith
      rw [this] at h0
      norm_num at h0

end BabyVMRelationImpl
end proof_system

/-! ## Circuit self-check -/

namespace proof_system
open barretenberg

namespace BabyVMCircuitBuilder

variable {FF : Type} [CommRing FF] [DecidableEq FF] [Inhabited FF]
variable {NUM_POLYNOMIALS NUM_SUBRELATIONS : Nat}

/-- The inner loop of `evaluate_relation`: the flag stays set exactly when every entry of
`result` is zero, and the reports added are those of the nonzero entries. -/
theorem report_failures_spec (relation_name : String) (result : Fin NUM_SUBRELATIONS → FF)
    (i : Nat) (log : List FailureReport) :
    ((report_failures relation_name result i log).1 = true ↔ ∀ j, result j = 0) ∧
    (∀ r, r ∈ (report_failures relation_name result i log).2 ↔
      r ∈ log ∨ (r.relation_name = relation_name ∧ r.row_index = i ∧
        ∃ j : Fin NUM_SUBRELATIONS, r.subrelation_index = j.val ∧ result j ≠ 0)) ∧
    ((∀ j, result j = 0) → (report_failures relation_name result i log).2 = log) := by
  have key := forLoop_invariant
    (fun m (state : Bool × List FailureReport) =>
      (state.1 = true ↔ ∀ j : Fin NUM_SUBRELATIONS, j.val < m → result j = 0) ∧
      (∀ r, r ∈ state.2 ↔
        r ∈ log ∨ (r.relation_name = relation_name ∧ r.row_index = i ∧
          ∃ j : Fin NUM_SUBRELATIONS, r.subrelation_index = j.val ∧ j.val < m ∧ result j ≠ 0)) ∧
      ((∀ j : Fin NUM_SUBRELATIONS, j.val < m → result j = 0) → state.2 = log))
    0 NUM_SUBRELATIONS
    (fun j state =>
      if array_read result j ≠ 0 then (false, state.2 ++ [⟨relation_name, j, i⟩]) else state)
    (true, log) (Nat.zero_le _)
    (by simp)
    (by
      intro m state _ hm ⟨h1, h2, h3⟩
      have hread : array_read result m = result ⟨m, hm⟩ := array_read_of_lt result m hm
      have hsplit : ∀ P : Fin NUM_SUBRELATIONS → Prop,
          (∀ j : Fin NUM_SUBRELATIONS, j.val < m + 1 → P j)
            ↔ (∀ j : Fin NUM_SUBRELATIONS, j.val < m → P j) ∧ P ⟨m, hm⟩ := by
        intro P
        constructor
        · intro h
          exact ⟨fun j hj => h j (by omega), h ⟨m, hm⟩ (by simp)⟩
        · rintro ⟨ha, hb⟩ j hj
          rcases Nat.lt_succ_iff_lt_or_eq.mp hj with hlt | heq
          · exact ha j hlt
          · have : j = ⟨m, hm⟩ := Fin.ext heq
            rw [this]; exact hb
      by_cases hz : result ⟨m, hm⟩ = 0
      · have hbody : (if array_read result m ≠ 0
            then (false, state.2 ++ [(⟨relation_name, m, i⟩ : FailureReport)]) else state)
            = state := by
          rw [hread]; simp [hz]
        simp only [hbody]
        refine ⟨?_, ?_, ?_⟩
        · rw [h1, hsplit]; simp [hz]
        · intro r
          rw [h2 r]
          constructor
          · rintro (h | ⟨ha, hb, j, hj1, hj2, hj3⟩)
            · exact Or.inl h
            · exact Or.inr ⟨ha, hb, j, hj1, by omega, hj3⟩
          · rintro (h | ⟨ha, hb, j, hj1, hj2, hj3⟩)
            · exact Or.inl h
            · refine Or.inr ⟨ha, hb, j, hj1, ?_, hj3⟩
              rcases Nat.lt_succ_iff_lt_or_eq.mp hj2 with hlt | heq
              · exact hlt
              · exfalso
                have : j = ⟨m, hm⟩ := Fin.ext heq
                rw [this] at hj3
                exact hj3 hz
        · intro h
          exact h3 ((hsplit _).mp h).1
      · have hbody : (if array_read result m ≠ 0
            then (false, state.2 ++ [(⟨relation_name, m, i⟩ : FailureReport)]) else state)
            = (false, state.2 ++ [(⟨relation_name, m, i⟩ : FailureReport)]) := by
          rw [hread]; simp [hz]
        simp only [hbody]
        refine ⟨?_, ?_, ?_⟩
        · rw [hsplit]; simp [hz]
        · intro r
          rw [List.mem_append, h2 r, List.mem_singleton]
          constructor
          · rintro ((h | ⟨ha, hb, j, hj1, hj2, hj3⟩) | h)
            · exact Or.inl h
            · exact Or.inr ⟨ha, hb, j, hj1, by omega, hj3⟩
            · subst h
              exact Or.inr ⟨rfl, rfl, ⟨m, hm⟩, rfl, by simp, hz⟩
          · rintro (h | ⟨ha, hb, j, hj1, hj2, hj3⟩)
            · exact Or.inl (Or.inl h)
            · rcases Nat.lt_succ_iff_lt_or_eq.mp hj2 with hlt | heq
              · exact Or.inl (Or.inr ⟨ha, hb, j, hj1, hlt, hj3⟩)
              · right
                cases r with
                | mk rn rs ri =>
                  simp only at ha hb hj1
                  subst ha hb
                  rw [hj1, heq]
        · intro h
          exact absurd ((hsplit _).mp h).2 hz)
  obtain ⟨k1, k2, k3⟩ := key
  have e : report_failures relation_name result i log
      = forLoop 0 NUM_SUBRELATIONS
          (fun j state =>
            if array_read result j ≠ 0 then (false, state.2 ++ [⟨relation_name, j, i⟩])
            else state)
          (true, log) := rfl
  rw [e]
  refine ⟨?_, ?_, ?_⟩
  · rw [k1]
    exact ⟨fun h j => h j j.isLt, fun h j _ => h j⟩
  · intro r
    rw [k2 r]
    constructor
    · rintro (h | ⟨ha, hb, j, hj1, _, hj3⟩)
      · exact Or.inl h
      · exact Or.inr ⟨ha, hb, j, hj1, hj3⟩
    · rintro (h | ⟨ha, hb, j, hj1, hj3⟩)
      · exact Or.inl h
      · exact Or.inr ⟨ha, hb, j, hj1, j.isLt, hj3⟩
  · intro h
    exact k3 (fun j _ => h j)

end BabyVMCircuitBuilder
end proof_system

namespace proof_system
open barretenberg

namespace BabyVMCircuitBuilder

variable {FF : Type} [CommRing FF] [DecidableEq FF] [Inhabited FF]
variable {NUM_POLYNOMIALS NUM_SUBRELATIONS : Nat}

theorem evaluate_rows_cons (relation : Relation FF NUM_POLYNOMIALS NUM_SUBRELATIONS)
    (params : RelationParameters FF) (rows : Fin NUM_POLYNOMIALS → List FF)
    (relation_name : String) (i : Nat) (rest : List Nat) (log : List FailureReport) :
    evaluate_rows relation params rows relation_name (i :: rest) (fun _ => 0) log
      = if (report_failures relation_name (residual relation params rows i) i log).1 = true
        then evaluate_rows relation params rows relation_name rest
          (residual relation params rows i)
          (report_failures relation_name (residual relation params rows i) i log).2
        else (false, (report_failures relation_name (residual relation params rows i) i log).2) := by
  rw [evaluate_rows]
  simp only [residual]
  cases (report_failures relation_name
    (relation.add_full_relation_value_contribution (fun _ => 0) (get_row rows i) params 1)
    i log).1 <;> simp

/-- Rows without a nonzero residual are passed over: the accumulated `result` is still zero
after them and nothing is reported. -/
theorem evaluate_rows_append_of_zero (relation : Relation FF NUM_POLYNOMIALS NUM_SUBRELATIONS)
    (params : RelationParameters FF) (rows : Fin NUM_POLYNOMIALS → List FF)
    (relation_name : String) (l1 l2 : List Nat) (log : List FailureReport)
    (h : ∀ i, i ∈ l1 → ∀ j, residual relation params rows i j = 0) :
    evaluate_rows relation params rows relation_name (l1 ++ l2) (fun _ => 0) log
      = evaluate_rows relation params rows relation_name l2 (fun _ => 0) log := by
  induction l1 with
  | nil => rfl
  | cons i rest ih =>
    have hz : ∀ j, residual relation params rows i j = 0 := h i (List.mem_cons_self _ _)
    have hfun : residual relation params rows i = fun _ => 0 := funext hz
    obtain ⟨s1, _, s3⟩ := report_failures_spec relation_name (residual relation params rows i)
      i log
    rw [List.cons_append, evaluate_rows_cons, if_pos (s1.mpr hz), s3 hz, hfun]
    exact ih (fun i' hi' => h i' (List.mem_cons_of_mem _ hi'))

theorem evaluate_rows_of_zero (relation : Relation FF NUM_POLYNOMIALS NUM_SUBRELATIONS)
    (params : RelationParameters FF) (rows : Fin NUM_POLYNOMIALS → List FF)
    (relation_name : String) (l : List Nat) (log : List FailureReport)
    (h : ∀ i, i ∈ l → ∀ j, residual relation params rows i j = 0) :
    evaluate_rows relation params rows relation_name l (fun _ => 0) log = (true, log) := by
  have := evaluate_rows_append_of_zero relation params rows relation_name l [] log h
  rw [List.append_nil] at this
  rw [this, evaluate_rows]

theorem evaluate_rows_true_iff (relation : Relation FF NUM_POLYNOMIALS NUM_SUBRELATIONS)
    (params : RelationParameters FF) (rows : Fin NUM_POLYNOMIALS → List FF)
    (relation_name : String) (l : List Nat) (log : List FailureReport) :
    (evaluate_rows relation params rows relation_name l (fun _ => 0) log).1 = true
      ↔ ∀ i, i ∈ l → ∀ j, residual relation params rows i j = 0 := by
  induction l generalizing log with
  | nil => simp [evaluate_rows]
  | cons i rest ih =>
    obtain ⟨s1, _, s3⟩ := report_failures_spec relation_name (residual relation params rows i)
      i log
    rw [evaluate_rows_cons]
    by_cases hz : ∀ j, residual relation params rows i j = 0
    · have hfun : residual relation params rows i = fun _ => 0 := funext hz
      rw [if_pos (s1.mpr hz), s3 hz, hfun, ih log]
      constructor
      · intro h i' hi'
        rcases List.mem_cons.mp hi' with e | e
        · rw [e]; exact hz
        · exact h i' e
      · intro h i' hi'
        exact h i' (List.mem_cons_of_mem _ hi')
    · have hf : ¬ (report_failures relation_name (residual relation params rows i) i log).1
          = true := fun hc => hz (s1.mp hc)
      rw [if_neg hf]
      constructor
      · intro h; exact absurd h (by simp)
      · intro h; exact absurd (h i (List.mem_cons_self _ _)) hz

theorem evaluate_relation_true_iff (relation : Relation FF NUM_POLYNOMIALS NUM_SUBRELATIONS)
    (params : RelationParameters FF) (rows : Fin NUM_POLYNOMIALS → List FF) (num_rows : Nat)
    (relation_name : String) (log : List FailureReport) :
    (evaluate_relation relation params rows num_rows relation_name log).1 = true
      ↔ ∀ i, i < num_rows → ∀ j, residual relation params rows i j = 0 := by
  have e : evaluate_relation relation params rows num_rows relation_name log
      = evaluate_rows relation params rows relation_name (List.range' 0 num_rows)
          (fun _ => 0) log := rfl
  rw [e, evaluate_rows_true_iff]
  constructor
  · intro h i hi
    exact h i (by simp [List.mem_range']; omega)
  · intro h i hi
    exact h i (by simp [List.mem_range'] at hi; omega)

theorem evaluate_relation_of_zero (relation : Relation FF NUM_POLYNOMIALS NUM_SUBRELATIONS)
    (params : RelationParameters FF) (rows : Fin NUM_POLYNOMIALS → List FF) (num_rows : Nat)
    (relation_name : String) (log : List FailureReport)
    (h : ∀ i, i < num_rows → ∀ j, residual relation params rows i j = 0) :
    evaluate_relation relation params rows num_rows relation_name log = (true, log) := by
  have e : evaluate_relation relation params rows num_rows relation_name log
      = evaluate_rows relation params rows relation_name (List.range' 0 num_rows)
          (fun _ => 0) log := rfl
  rw [e]
  exact evaluate_rows_of_zero relation params rows relation_name _ log
    (fun i hi => h i (by simp [List.mem_range'] at hi; omega))

/-- At the first row with a nonzero residual `evaluate_relation` reports the nonzero
sub-relations of that row and returns `false`. -/
theorem evaluate_relation_first_failure
    (relation : Relation FF NUM_POLYNOMIALS NUM_SUBRELATIONS)
    (params : RelationParameters FF) (rows : Fin NUM_POLYNOMIALS → List FF) (num_rows : Nat)
    (relation_name : String) (log : List FailureReport) (i : Nat) (hi : i < num_rows)
    (hfail : ∃ j, residual relation params rows i j ≠ 0)
    (hfirst : ∀ i', i' < i → ∀ j, residual relation params rows i' j = 0) :
    evaluate_relation relation params rows num_rows relation_name log
      = (false, (report_failures relation_name (residual relation params rows i) i log).2) := by
  have e : evaluate_relation relation params rows num_rows relation_name log
      = evaluate_rows relation params rows relation_name (List.range' 0 num_rows)
          (fun _ => 0) log := rfl
  have hsplit : List.range' 0 num_rows
      = List.range' 0 i ++ i :: List.range' (i + 1) (num_rows - i - 1) := by
    have h1 : num_rows = ((num_rows - i - 1) + 1) + i := by omega
    conv_lhs => rw [h1]
    rw [← List.range'_append_1 0 i, List.range'_succ, Nat.zero_add]
  obtain ⟨s1, _, _⟩ := report_failures_spec relation_name (residual relation params rows i)
    i log
  have hf : ¬ (report_failures relation_name (residual relation params rows i) i log).1
      = true := by
    intro hc
    obtain ⟨j, hj⟩ := hfail
    exact hj (s1.mp hc j)
  rw [e, hsplit, evaluate_rows_append_of_zero _ _ _ _ _ _ _
    (fun i' hi' => hfirst i' (by simp [List.mem_range'] at hi'; omega)),
    evaluate_rows_cons, if_neg hf]

end BabyVMCircuitBuilder
end proof_system

namespace proof_system
open barretenberg

namespace BabyVMCircuitBuilder

variable {FF : Type} [CommRing FF] [DecidableEq FF] [Inhabited FF]
variable {NUM_POLYNOMIALS : Nat}

/-- C10, statement that fails. The trace has two rows, each with the selector cell equal to 2,
so that sub-relation 2 of the toy-VM relation is nonzero on both rows for both checked
relations.  `check_circuit` reports row 0 of the first relation only: the violation in row 1
and the violations of the second relation are not reported. -/
theorem check_circuit_fails_fast :
    residual (BabyVMRelation (ZMod 7) 5) ⟨0, 0, 0, 0, 0, 0, 0, 0⟩
        ![[0, 0], [0, 0], [0, 0], [2, 2], [0, 0]] 1 2 ≠ 0 ∧
    (⟨"BabyVMAdditionRelation", 2, 1⟩ : FailureReport) ∉
      (check_circuit (BabyVMRelation (ZMod 7) 5) (BabyVMRelation (ZMod 7) 5) 0 0 0 0 0
        ![[0, 0], [0, 0], [0, 0], [2, 2], [0, 0]]).2 ∧
    residual (BabyVMRelation (ZMod 7) 5) ⟨0, 0, 0, 0, 0, 0, 0, 0⟩
        ![[0, 0], [0, 0], [0, 0], [2, 2], [0, 0]] 0 2 ≠ 0 ∧
    (⟨"BabyVMMultiplicationRelation", 2, 0⟩ : FailureReport) ∉
      (check_circuit (BabyVMRelation (ZMod 7) 5) (BabyVMRelation (ZMod 7) 5) 0 0 0 0 0
        ![[0, 0], [0, 0], [0, 0], [2, 2], [0, 0]]).2 ∧
    check_circuit (BabyVMRelation (ZMod 7) 5) (BabyVMRelation (ZMod 7) 5) 0 0 0 0 0
        ![[0, 0], [0, 0], [0, 0], [2, 2], [0, 0]]
      = (false, [⟨"BabyVMAdditionRelation", 2, 0⟩, ⟨"BabyVMAdditionRelation", 3, 0⟩]) := by
  decide

/-- C10, amended. `check_circuit` stops at the first violating row of the first failing
relation.  If row `i` is the first row on which the first relation has a nonzero residual, the
result is `false` and the reports are exactly the triples (first relation's name, `j`, `i`) for
the sub-relations `j` whose residual at row `i` is nonzero.  If the first relation has no
nonzero residual and row `i` is the first row on which the second relation has one, the result
is `false` and the reports are exactly the triples (second relation's name, `j`, `i`) for the
sub-relations `j` whose residual at row `i` is nonzero. -/
theorem check_circuit_reports_first_failure {NUM_ADDITION NUM_MULTIPLICATION : Nat}
    (BabyVMAdditionRelation : Relation FF NUM_POLYNOMIALS NUM_ADDITION)
    (BabyVMMultiplicationRelation : Relation FF NUM_POLYNOMIALS NUM_MULTIPLICATION)
    (beta gamma beta_sqr beta_cube eccvm_set_permutation_delta : FF)
    (rows : Fin NUM_POLYNOMIALS → List FF) (i : Nat) (hi : i < (array_read rows 0).length) :
    ((∃ j, residual BabyVMAdditionRelation
          ⟨0, beta, gamma, 0, 0, beta_sqr, beta_cube, eccvm_set_permutation_delta⟩
          rows i j ≠ 0) →
      (∀ i', i' < i → ∀ j, residual BabyVMAdditionRelation
          ⟨0, beta, gamma, 0, 0, beta_sqr, beta_cube, eccvm_set_permutation_delta⟩
          rows i' j = 0) →
      (check_circuit BabyVMAdditionRelation BabyVMMultiplicationRelation beta gamma beta_sqr
          beta_cube eccvm_set_permutation_delta rows).1 = false ∧
      ∀ r, r ∈ (check_circuit BabyVMAdditionRelation BabyVMMultiplicationRelation beta gamma
          beta_sqr beta_cube eccvm_set_permutation_delta rows).2 ↔
        (r.relation_name = "BabyVMAdditionRelation" ∧ r.row_index = i ∧
          ∃ j : Fin NUM_ADDITION, r.subrelation_index = j.val ∧
            residual BabyVMAdditionRelation
              ⟨0, beta, gamma, 0, 0, beta_sqr, beta_cube, eccvm_set_permutation_delta⟩
              rows i j ≠ 0)) ∧
    ((∀ i', i' < (array_read rows 0).length → ∀ j, residual BabyVMAdditionRelation
          ⟨0, beta, gamma, 0, 0, beta_sqr, beta_cube, eccvm_set_permutation_delta⟩
          rows i' j = 0) →
      (∃ j, residual BabyVMMultiplicationRelation
          ⟨0, beta, gamma, 0, 0, beta_sqr, beta_cube, eccvm_set_permutation_delta⟩
          rows i j ≠ 0) →
      (∀ i', i' < i → ∀ j, residual BabyVMMultiplicationRelation
          ⟨0, beta, gamma, 0, 0, beta_sqr, beta_cube, eccvm_set_permutation_delta⟩
          rows i' j = 0) →
      (check_circuit BabyVMAdditionRelation BabyVMMultiplicationRelation beta gamma beta_sqr
          beta_cube eccvm_set_permutation_delta rows).1 = false ∧
      ∀ r, r ∈ (check_circuit BabyVMAdditionRelation BabyVMMultiplicationRelation beta gamma
          beta_sqr beta_cube eccvm_set_permutation_delta rows).2 ↔
        (r.relation_name = "BabyVMMultiplicationRelation" ∧ r.row_index = i ∧
          ∃ j : Fin NUM_MULTIPLICATION, r.subrelation_index = j.val ∧
            residual BabyVMMultiplicationRelation
              ⟨0, beta, gamma, 0, 0, beta_sqr, beta_cube, eccvm_set_permutation_delta⟩
              rows i j ≠ 0)) := by
  constructor
  · intro hfail hfirst
    have hA := evaluate_relation_first_failure BabyVMAdditionRelation
      ⟨0, beta, gamma, 0, 0, beta_sqr, beta_cube, eccvm_set_permutation_delta⟩ rows
      (array_read rows 0).length "BabyVMAdditionRelation" [] i hi hfail hfirst
    obtain ⟨_, s2, _⟩ := report_failures_spec "BabyVMAdditionRelation"
      (residual BabyVMAdditionRelation
        ⟨0, beta, gamma, 0, 0, beta_sqr, beta_cube, eccvm_set_permutation_delta⟩ rows i) i []
    unfold check_circuit
    simp only [if_true]
    rw [hA]
    refine ⟨by simp, fun r => ?_⟩
    simp only [Bool.false_eq_true, if_false]
    rw [s2 r]
    simp
  · intro hzero hfail hfirst
    have hA := evaluate_relation_of_zero BabyVMAdditionRelation
      ⟨0, beta, gamma, 0, 0, beta_sqr, beta_cube, eccvm_set_permutation_delta⟩ rows
      (array_read rows 0).length "BabyVMAdditionRelation" [] hzero
    have hM := evaluate_relation_first_failure BabyVMMultiplicationRelation
      ⟨0, beta, gamma, 0, 0, beta_sqr, beta_cube, eccvm_set_permutation_delta⟩ rows
      (array_read rows 0).length "BabyVMMultiplicationRelation" [] i hi hfail hfirst
    obtain ⟨_, s2, _⟩ := report_failures_spec "BabyVMMultiplicationRelation"
      (residual BabyVMMultiplicationRelation
        ⟨0, beta, gamma, 0, 0, beta_sqr, beta_cube, eccvm_set_permutation_delta⟩ rows i) i []
    unfold check_circuit
    simp only [if_true]
    rw [hA]
    simp only [if_true]
    rw [hM]
    refine ⟨rfl, fun r => ?_⟩
    rw [s2 r]
    simp

theorem check_circuit_reports_first_failure_witness :
    ((check_circuit (BabyVMRelation (ZMod 7) 5) (BabyVMRelation (ZMod 7) 5) 0 0 0 0 0
        ![[0, 0], [0, 0], [0, 0], [2, 2], [0, 0]]).1 = false ∧
      ∀ r, r ∈ (check_circuit (BabyVMRelation (ZMod 7) 5) (BabyVMRelation (ZMod 7) 5) 0 0 0 0 0
          ![[0, 0], [0, 0], [0, 0], [2, 2], [0, 0]]).2 ↔
        (r.relation_name = "BabyVMAdditionRelation" ∧ r.row_index = 0 ∧
          ∃ j : Fin 4, r.subrelation_index = j.val ∧
            residual (BabyVMRelation (ZMod 7) 5) ⟨0, 0, 0, 0, 0, 0, 0, 0⟩
              ![[0, 0], [0, 0], [0, 0], [2, 2], [0, 0]] 0 j ≠ 0)) ∧
    ((check_circuit (⟨fun accumulator _ _ _ => accumulator⟩ : Relation (ZMod 7) 5 0)
        (BabyVMRelation (ZMod 7) 5) 0 0 0 0 0
        ![[0, 0], [0, 0], [0, 0], [1, 2], [0, 0]]).1 = false ∧
      ∀ r, r ∈ (check_circuit (⟨fun accumulator _ _ _ => accumulator⟩ : Relation (ZMod 7) 5 0)
          (BabyVMRelation (ZMod 7) 5) 0 0 0 0 0
          ![[0, 0], [0, 0], [0, 0], [1, 2], [0, 0]]).2 ↔
        (r.relation_name = "BabyVMMultiplicationRelation" ∧ r.row_index = 1 ∧
          ∃ j : Fin 4, r.subrelation_index = j.val ∧
            residual (BabyVMRelation (ZMod 7) 5) ⟨0, 0, 0, 0, 0, 0, 0, 0⟩
              ![[0, 0], [0, 0], [0, 0], [1, 2], [0, 0]] 1 j ≠ 0)) :=
  ⟨(check_circuit_reports_first_failure (BabyVMRelation (ZMod 7) 5) (BabyVMRelation (ZMod 7) 5)
      0 0 0 0 0 ![[0, 0], [0, 0], [0, 0], [2, 2], [0, 0]] 0 (by decide)).1
      ⟨2, by decide⟩ (fun i' hi' => absurd hi' (Nat.not_lt_zero _)),
    (check_circuit_reports_first_failure
      (⟨fun accumulator _ _ _ => accumulator⟩ : Relation (ZMod 7) 5 0)
      (BabyVMRelation (ZMod 7) 5)
      0 0 0 0 0 ![[0, 0], [0, 0], [0, 0], [1, 2], [0, 0]] 1 (by decide)).2
      (fun _ _ j => j.elim0) ⟨2, by decide⟩
      (fun i' hi' => by
        have : i' = 0 := by omega
        subst this
        decide)⟩

end BabyVMCircuitBuilder
end proof_system

/-! ## Flavors -/

namespace proof_system.honk.flavor

/-- C16, statement that fails. In the Ultra flavor the name `q_m` resolves to index 0 in
`PrecomputedEntities` and to index 5 in `AllEntities`, and `q_c` to 1 and to 0. -/
theorem ultra_q_m_index_differs :
    resolve UltraGrumpkin.PrecomputedEntities.accessors "q_m" = some 0 ∧
    resolve UltraGrumpkin.AllEntities.accessors "q_m" = some 5 ∧
    resolve UltraGrumpkin.PrecomputedEntities.accessors "q_c" = some 1 ∧
    resolve UltraGrumpkin.AllEntities.accessors "q_c" = some 0 := by
  decide

/-- C16, amended. In the Ultra flavor the 19 precomputed names other than the six selectors
`q_m`, `q_c`, `q_l`, `q_r`, `q_o`, `q_4` resolve to the same index in `PrecomputedEntities` and in
`AllEntities`.  The six selectors occupy the indices 0 to 5 in both containers in a different
order: `q_m` is first in `PrecomputedEntities` and last of the six in `AllEntities`, and each
of `q_c`, `q_l`, `q_r`, `q_o`, `q_4` is one index lower in `AllEntities`. -/
theorem ultra_precomputed_index_stability :
    (∀ p ∈ UltraGrumpkin.PrecomputedEntities.accessors,
      p.1 ∉ ["q_m", "q_c", "q_l", "q_r", "q_o", "q_4"] →
        resolve UltraGrumpkin.AllEntities.accessors p.1 = some p.2) ∧
    (UltraGrumpkin.PrecomputedEntities.accessors.filter
        (fun p => p.1 ∉ ["q_m", "q_c", "q_l", "q_r", "q_o", "q_4"])).length = 19 ∧
    (∀ p ∈ UltraGrumpkin.PrecomputedEntities.accessors,
      p.1 ∈ ["q_c", "q_l", "q_r", "q_o", "q_4"] →
        resolve UltraGrumpkin.AllEntities.accessors p.1 = some (p.2 - 1) ∧ 1 ≤ p.2 ∧ p.2 ≤ 5) ∧
    resolve UltraGrumpkin.PrecomputedEntities.accessors "q_m" = some 0 ∧
    resolve UltraGrumpkin.AllEntities.accessors "q_m" = some 5 := by
  decide

/-- C17. Name-to-index bijection in the Ultra flavor: the 43 named accessors of `AllEntities`
have pairwise distinct names and pairwise distinct indices, and the indices are exactly
`0, ..., 42`, that is `0, ..., NUM_ALL_ENTITIES - 1`; likewise the 25 names of
`PrecomputedEntities` cover `0, ..., 24` and the 11 names of `WitnessEntities` cover
`0, ..., 10`. -/
theorem ultra_name_index_bijection :
    (UltraGrumpkin.AllEntities.accessors.length = 43 ∧
      (UltraGrumpkin.AllEntities.accessors.map Prod.fst).Nodup ∧
      (UltraGrumpkin.AllEntities.accessors.map Prod.snd).Nodup ∧
      ∀ i, i ∈ UltraGrumpkin.AllEntities.accessors.map Prod.snd
        ↔ i < UltraGrumpkin.NUM_ALL_ENTITIES) ∧
    (UltraGrumpkin.PrecomputedEntities.accessors.length = 25 ∧
      (UltraGrumpkin.PrecomputedEntities.accessors.map Prod.fst).Nodup ∧
      (UltraGrumpkin.PrecomputedEntities.accessors.map Prod.snd).Nodup ∧
      ∀ i, i ∈ UltraGrumpkin.PrecomputedEntities.accessors.map Prod.snd
        ↔ i < UltraGrumpkin.NUM_PRECOMPUTED_ENTITIES) ∧
    (UltraGrumpkin.WitnessEntities.accessors.length = 11 ∧
      (UltraGrumpkin.WitnessEntities.accessors.map Prod.fst).Nodup ∧
      (UltraGrumpkin.WitnessEntities.accessors.map Prod.snd).Nodup ∧
      ∀ i, i ∈ UltraGrumpkin.WitnessEntities.accessors.map Prod.snd
        ↔ i < UltraGrumpkin.NUM_WITNESS_ENTITIES) := by
  have hA : UltraGrumpkin.AllEntities.accessors.map Prod.snd = List.range 43 := by decide
  have hP : UltraGrumpkin.PrecomputedEntities.accessors.map Prod.snd = List.range 25 := by
    decide
  have hW : UltraGrumpkin.WitnessEntities.accessors.map Prod.snd = List.range 11 := by decide
  refine ⟨⟨by decide, by decide, ?_, ?_⟩, ⟨by decide, by decide, ?_, ?_⟩,
    ⟨by decide, by decide, ?_, ?_⟩⟩
  · rw [hA]; exact List.nodup_range 43
  · intro i; rw [hA]; exact List.mem_range
  · rw [hP]; exact List.nodup_range 25
  · intro i; rw [hP]; exact List.mem_range
  · rw [hW]; exact List.nodup_range 11
  · intro i; rw [hW]; exact List.mem_range

/-- C18, statement that fails. In the Ultra flavor `NUM_ALL_ENTITIES` is 43 while
`NUM_PRECOMPUTED_ENTITIES + NUM_WITNESS_ENTITIES` plus the number of entries of `get_shifted()`
is 47. -/
theorem ultra_entity_count_is_not_the_sum :
    UltraGrumpkin.NUM_ALL_ENTITIES = 43 ∧
    UltraGrumpkin.NUM_PRECOMPUTED_ENTITIES + UltraGrumpkin.NUM_WITNESS_ENTITIES
      + UltraGrumpkin.AllEntities.get_shifted.length = 47 ∧
    UltraGrumpkin.NUM_ALL_ENTITIES ≠
      UltraGrumpkin.NUM_PRECOMPUTED_ENTITIES + UltraGrumpkin.NUM_WITNESS_ENTITIES
        + UltraGrumpkin.AllEntities.get_shifted.length := by
  decide

/-- C18, amended. In both Ultra flavors `NUM_ALL_ENTITIES` is `NUM_PRECOMPUTED_ENTITIES` plus
`NUM_WITNESS_ENTITIES` less the four individual sorted polynomials plus the number of entries
of `get_shifted()`: the witness names without an accessor in `AllEntities` are exactly those
that `get_sorted_polynomials()` returns, `sorted_1` to `sorted_4`. -/
theorem ultra_entity_count :
    (UltraGrumpkin.NUM_ALL_ENTITIES + UltraGrumpkin.WitnessEntities.get_sorted_polynomials.length
        = UltraGrumpkin.NUM_PRECOMPUTED_ENTITIES + UltraGrumpkin.NUM_WITNESS_ENTITIES
          + UltraGrumpkin.AllEntities.get_shifted.length ∧
      (UltraGrumpkin.WitnessEntities.accessors.map Prod.fst).filter
          (fun name => (resolve UltraGrumpkin.AllEntities.accessors name).isNone)
        = UltraGrumpkin.WitnessEntities.get_sorted_polynomials ∧
      UltraGrumpkin.WitnessEntities.get_sorted_polynomials
        = ["sorted_1", "sorted_2", "sorted_3", "sorted_4"]) ∧
    (UltraRecursive_.NUM_ALL_ENTITIES
          + UltraRecursive_.WitnessEntities.get_sorted_polynomials.length
        = UltraRecursive_.NUM_PRECOMPUTED_ENTITIES + UltraRecursive_.NUM_WITNESS_ENTITIES
          + UltraRecursive_.AllEntities.get_shifted.length ∧
      (UltraRecursive_.WitnessEntities.accessors.map Prod.fst).filter
          (fun name => (resolve UltraRecursive_.AllEntities.accessors name).isNone)
        = UltraRecursive_.WitnessEntities.get_sorted_polynomials ∧
      UltraRecursive_.WitnessEntities.get_sorted_polynomials
        = ["sorted_1", "sorted_2", "sorted_3", "sorted_4"]) := by
  decide

/-- C19. Shift correspondence: in each flavor `get_to_be_shifted()` and `get_shifted()` have the
same length and the entity at position `i` of `get_shifted()` is the one named after the entity
at position `i` of `get_to_be_shifted()` with the suffix `_shift`; in the Ultra flavors these
are the 11 pairs for `table_1` to `table_4`, `w_l`, `w_r`, `w_o`, `w_4`, `sorted_accum`,
`z_perm`, `z_lookup`, in that order. -/
theorem shift_correspondence :
    (BabyVM.AllEntities.get_shifted.length = BabyVM.AllEntities.get_to_be_shifted.length ∧
      BabyVM.AllEntities.get_shifted
        = BabyVM.AllEntities.get_to_be_shifted.map (fun name => name ++ "_shift")) ∧
    (UltraGrumpkin.AllEntities.get_shifted.length
        = UltraGrumpkin.AllEntities.get_to_be_shifted.length ∧
      UltraGrumpkin.AllEntities.get_shifted
        = UltraGrumpkin.AllEntities.get_to_be_shifted.map (fun name => name ++ "_shift") ∧
      UltraGrumpkin.AllEntities.get_to_be_shifted
        = ["table_1", "table_2", "table_3", "table_4", "w_l", "w_r", "w_o", "w_4",
           "sorted_accum", "z_perm", "z_lookup"]) ∧
    (UltraRecursive_.AllEntities.get_shifted.length
        = UltraRecursive_.AllEntities.get_to_be_shifted.length ∧
      UltraRecursive_.AllEntities.get_shifted
        = UltraRecursive_.AllEntities.get_to_be_shifted.map (fun name => name ++ "_shift") ∧
      UltraRecursive_.AllEntities.get_to_be_shifted
        = ["table_1", "table_2", "table_3", "table_4", "w_l", "w_r", "w_o", "w_4",
           "sorted_accum", "z_perm", "z_lookup"]) := by
  decide

/-- C20. The recursive flavor has the schema of the native one: `UltraRecursive_` and
`UltraGrumpkin` declare the same entity counts (43, 25, 11), the same name-to-index map in
`PrecomputedEntities`, `WitnessEntities` and `AllEntities`, the same ordered subset accessors,
the same commitment labels and the same ordered list of relations. -/
theorem recursive_flavor_same_schema :
    (UltraRecursive_.NUM_ALL_ENTITIES = 43 ∧ UltraGrumpkin.NUM_ALL_ENTITIES = 43 ∧
      UltraRecursive_.NUM_PRECOMPUTED_ENTITIES = 25 ∧
      UltraGrumpkin.NUM_PRECOMPUTED_ENTITIES = 25 ∧
      UltraRecursive_.NUM_WITNESS_ENTITIES = 11 ∧ UltraGrumpkin.NUM_WITNESS_ENTITIES = 11) ∧
    (UltraRecursive_.PrecomputedEntities.accessors = UltraGrumpkin.PrecomputedEntities.accessors ∧
      UltraRecursive_.WitnessEntities.accessors = UltraGrumpkin.WitnessEntities.accessors ∧
      UltraRecursive_.AllEntities.accessors = UltraGrumpkin.AllEntities.accessors) ∧
    (UltraRecursive_.PrecomputedEntities.get_selectors
        = UltraGrumpkin.PrecomputedEntities.get_selectors ∧
      UltraRecursive_.PrecomputedEntities.get_sigma_polynomials
        = UltraGrumpkin.PrecomputedEntities.get_sigma_polynomials ∧
      UltraRecursive_.PrecomputedEntities.get_id_polynomials
        = UltraGrumpkin.PrecomputedEntities.get_id_polynomials ∧
      UltraRecursive_.PrecomputedEntities.get_table_polynomials
        = UltraGrumpkin.PrecomputedEntities.get_table_polynomials ∧
      UltraRecursive_.WitnessEntities.get_wires = UltraGrumpkin.WitnessEntities.get_wires ∧
      UltraRecursive_.WitnessEntities.get_sorted_polynomials
        = UltraGrumpkin.WitnessEntities.get_sorted_polynomials ∧
      UltraRecursive_.AllEntities.get_wires = UltraGrumpkin.AllEntities.get_wires ∧
      UltraRecursive_.AllEntities.get_unshifted = UltraGrumpkin.AllEntities.get_unshifted ∧
      UltraRecursive_.AllEntities.get_to_be_shifted
        = UltraGrumpkin.AllEntities.get_to_be_shifted ∧
      UltraRecursive_.AllEntities.get_shifted = UltraGrumpkin.AllEntities.get_shifted) ∧
    UltraRecursive_.CommitmentLabels = UltraGrumpkin.CommitmentLabels ∧
    UltraRecursive_.Relations = UltraGrumpkin.Relations := by
  decide

end proof_system.honk.flavor

/-! ## Declared lengths and degrees -/

namespace proof_system
open barretenberg Polynomial

namespace BabyVMRelationImpl

/-- C14 (the source departs from it). With every entity of the row the edge `X` and scaling
factor 1, the contributions of the four sub-relations, in the order in which `accumulate` adds
them, have degrees 3, 4, 2, 2 in the round variable, so lengths 4, 5, 3, 3 are needed, and the
whole relation has degree 4; the declared lengths are `LEN_1 = 3`, `LEN_2 = 2`, `LEN_3 = 3`,
`LEN_4 = 3` and `RELATION_LENGTH = 3`. -/
theorem declared_lengths_and_degrees :
    ((accumulate (fun _ => (0 : ℚ[X])) { w_l := X, w_r := X, w_o := X, q_m := X }
        ⟨0, 0, 0, 0, 0, 0, 0, 0⟩ 1 0).natDegree = 3 ∧ LEN_1 = 3) ∧
    ((accumulate (fun _ => (0 : ℚ[X])) { w_l := X, w_r := X, w_o := X, q_m := X }
        ⟨0, 0, 0, 0, 0, 0, 0, 0⟩ 1 1).natDegree = 4 ∧ LEN_2 = 2) ∧
    ((accumulate (fun _ => (0 : ℚ[X])) { w_l := X, w_r := X, w_o := X, q_m := X }
        ⟨0, 0, 0, 0, 0, 0, 0, 0⟩ 1 2).natDegree = 2 ∧ LEN_3 = 3) ∧
    ((accumulate (fun _ => (0 : ℚ[X])) { w_l := X, w_r := X, w_o := X, q_m := X }
        ⟨0, 0, 0, 0, 0, 0, 0, 0⟩ 1 3).natDegree = 2 ∧ LEN_4 = 3) ∧
    RELATION_LENGTH = 3 := by
  rw [accumulate_apply]
  have h0 : ((0 : ℚ[X]) + (X + X - X) * X * (1 - X) * 1) = -X ^ 3 + X ^ 2 := by ring
  have h1 : ((0 : ℚ[X]) + (X * X - X) * X * (1 - X) * 1) = -X ^ 4 + 2 * X ^ 3 - X ^ 2 := by ring
  have h2 : ((0 : ℚ[X]) + X * (1 - X) * 1) = -X ^ 2 + X := by ring
  refine ⟨⟨?_, rfl⟩, ⟨?_, rfl⟩, ⟨?_, rfl⟩, ⟨?_, rfl⟩, rfl⟩
  · show ((0 : ℚ[X]) + (X + X - X) * X * (1 - X) * 1).natDegree = 3
    rw [h0]; compute_degree!
  · show ((0 : ℚ[X]) + (X * X - X) * X * (1 - X) * 1).natDegree = 4
    rw [h1]; compute_degree!
  · show ((0 : ℚ[X]) + X * (1 - X) * 1).natDegree = 2
    rw [h2]; compute_degree!
  · show ((0 : ℚ[X]) + X * (1 - X) * 1).natDegree = 2
    rw [h2]; compute_degree!

end BabyVMRelationImpl
end proof_system

namespace proof_system
open barretenberg Polynomial

namespace UltraPermutationRelationImpl

theorem accumulate_zero {FF : Type} [CommRing FF] (accumulators : Fin 2 → FF)
    (input : AllEntities FF) (relation_parameters : RelationParameters FF) (s : FF) :
    accumulate accumulators input relation_parameters s 0
      = accumulators 0
        + ((input.z_perm + input.lagrange_first)
              * compute_grand_product_numerator input relation_parameters
            - (input.z_perm_shift
                + input.lagrange_last * relation_parameters.public_input_delta)
              * compute_grand_product_denominator input relation_parameters) * s := by
  simp [accumulate, array_write]

theorem natDegree_wire_factor_le {K : Type} [Field K] (w t : K[X]) (b g : K)
    (hw : w.natDegree ≤ 1) (ht : t.natDegree ≤ 1) : (w + t * C b + C g).natDegree ≤ 1 := by
  apply natDegree_add_le_of_degree_le
  · apply natDegree_add_le_of_degree_le hw
    exact le_trans (natDegree_mul_C_le t b) ht
  · rw [natDegree_C]; exact Nat.zero_le 1

theorem natDegree_numerator_le {K : Type} [Field K] (input : AllEntities K[X])
    (hinput : input.IsEdge) (relation_parameters : RelationParameters K) :
    (compute_grand_product_numerator input (relation_parameters.map C)).natDegree ≤ 4 := by
  obtain ⟨⟨h1, h2, h3, h4⟩, ⟨i1, i2, i3, i4⟩, _, _⟩ := hinput
  unfold compute_grand_product_numerator
  simp only [RelationParameters.map]
  exact natDegree_mul_le_of_le (natDegree_mul_le_of_le (natDegree_mul_le_of_le
    (natDegree_wire_factor_le _ _ _ _ h1 i1) (natDegree_wire_factor_le _ _ _ _ h2 i2))
    (natDegree_wire_factor_le _ _ _ _ h3 i3)) (natDegree_wire_factor_le _ _ _ _ h4 i4)

theorem natDegree_denominator_le {K : Type} [Field K] (input : AllEntities K[X])
    (hinput : input.IsEdge) (relation_parameters : RelationParameters K) :
    (compute_grand_product_denominator input (relation_parameters.map C)).natDegree ≤ 4 := by
  obtain ⟨⟨h1, h2, h3, h4⟩, _, ⟨s1, s2, s3, s4⟩, _⟩ := hinput
  unfold compute_grand_product_denominator
  simp only [RelationParameters.map]
  exact natDegree_mul_le_of_le (natDegree_mul_le_of_le (natDegree_mul_le_of_le
    (natDegree_wire_factor_le _ _ _ _ h1 s1) (natDegree_wire_factor_le _ _ _ _ h2 s2))
    (natDegree_wire_factor_le _ _ _ _ h3 s3)) (natDegree_wire_factor_le _ _ _ _ h4 s4)

/-- C15. Declared lengths of the permutation relation: `SUBRELATION_LENGTHS` is `{6, 3}`, and
entry by entry it is 1 plus the degree of the sub-relation's contribution in the row entities,
with `beta`, `gamma`, `public_input_delta` and the scaling factor constants.  For every row of
edges (entities of degree at most 1 in the round variable) the grand-product contribution has
degree at most 5 and the contribution `lagrange_last * z_perm_shift` degree at most 2, and
there is a row of edges on which the degrees are 5 and 2. -/
theorem subrelation_lengths_match_degrees {K : Type} [Field K] (input : AllEntities K[X])
    (hinput : input.IsEdge) (relation_parameters : RelationParameters K) (s : K) :
    SUBRELATION_LENGTHS = [6, 3] ∧
    (accumulate (fun _ => 0) input (relation_parameters.map C) (C s) 0).natDegree + 1 ≤ 6 ∧
    (accumulate (fun _ => 0) input (relation_parameters.map C) (C s) 1).natDegree + 1 ≤ 3 ∧
    ∃ (input' : AllEntities K[X]) (relation_parameters' : RelationParameters K) (s' : K),
      input'.IsEdge ∧
      (accumulate (fun _ => 0) input' (relation_parameters'.map C) (C s') 0).natDegree + 1
        = 6 ∧
      (accumulate (fun _ => 0) input' (relation_parameters'.map C) (C s') 1).natDegree + 1
        = 3 := by
  refine ⟨rfl, ?_, ?_,
    { w_l := 0, w_r := 0, w_o := 0, w_4 := 0, id_1 := X, id_2 := X, id_3 := X, id_4 := X,
      sigma_1 := 0, sigma_2 := 0, sigma_3 := 0, sigma_4 := 0, z_perm := X, z_perm_shift := X,
      lagrange_first := 0, lagrange_last := X },
    ⟨0, 1, 0, 0, 0, 0, 0, 0⟩, 1, by simp [AllEntities.IsEdge], ?_, ?_⟩
  · rw [accumulate_zero, zero_add]
    have hN := natDegree_numerator_le input hinput relation_parameters
    have hD := natDegree_denominator_le input hinput relation_parameters
    obtain ⟨_, _, _, hz, hzs, hlf, hll⟩ := hinput
    have h1 : ((input.z_perm + input.lagrange_first)
        * compute_grand_product_numerator input (relation_parameters.map C)).natDegree
          ≤ 1 + 4 :=
      natDegree_mul_le_of_le (natDegree_add_le_of_degree_le hz hlf) hN
    have h2 : ((input.z_perm_shift
          + input.lagrange_last * (relation_parameters.map C).public_input_delta)
        * compute_grand_product_denominator input (relation_parameters.map C)).natDegree
          ≤ 1 + 4 :=
      natDegree_mul_le_of_le
        (natDegree_add_le_of_degree_le hzs (le_trans (natDegree_mul_C_le _ _) hll)) hD
    have h3 := natDegree_sub_le_of_le h1 h2
    have h4 := le_trans (natDegree_mul_C_le _ s) h3
    simp only [max_self] at h4
    omega
  · rw [accumulate_one, zero_add]
    obtain ⟨_, _, _, _, hzs, _, hll⟩ := hinput
    have h1 : (input.lagrange_last * input.z_perm_shift).natDegree ≤ 1 + 1 :=
      natDegree_mul_le_of_le hll hzs
    have h2 := le_trans (natDegree_mul_C_le _ s) h1
    omega
  · rw [accumulate_zero, zero_add]
    simp only [compute_grand_product_numerator, compute_grand_product_denominator,
      RelationParameters.map]
    have e : ((X : K[X]) + 0) * ((0 + X * C 1 + C 0) * (0 + X * C 1 + C 0)
          * (0 + X * C 1 + C 0) * (0 + X * C 1 + C 0))
        - (X + X * C 0) * ((0 + 0 * C 1 + C 0) * (0 + 0 * C 1 + C 0) * (0 + 0 * C 1 + C 0)
          * (0 + 0 * C 1 + C 0)) = (X : K[X]) ^ 5 := by
      simp
      ring
    rw [e]
    simp
  · rw [accumulate_one, zero_add]
    simp

theorem subrelation_lengths_match_degrees_witness :
    (accumulate (fun _ => 0)
        ({ w_l := X, w_r := X, w_o := X, w_4 := X, id_1 := X, id_2 := X, id_3 := X, id_4 := X,
           sigma_1 := X, sigma_2 := X, sigma_3 := X, sigma_4 := X, z_perm := X,
           z_perm_shift := X, lagrange_first := X, lagrange_last := X } : AllEntities ℚ[X])
        ((⟨0, 2, 3, 5, 0, 0, 0, 0⟩ : RelationParameters ℚ).map C) (C 7) 0).natDegree + 1 ≤ 6 :=
  (subrelation_lengths_match_degrees
    ({ w_l := X, w_r := X, w_o := X, w_4 := X, id_1 := X, id_2 := X, id_3 := X, id_4 := X,
       sigma_1 := X, sigma_2 := X, sigma_3 := X, sigma_4 := X, z_perm := X,
       z_perm_shift := X, lagrange_first := X, lagrange_last := X } : AllEntities ℚ[X])
    (by simp [AllEntities.IsEdge]) ⟨0, 2, 3, 5, 0, 0, 0, 0⟩ 7).2.1

end UltraPermutationRelationImpl
end proof_system

/-! ## The builder, mutated traces and selectors -/

namespace proof_system
open barretenberg

namespace BabyVMCircuitBuilder

theorem compute_full_polynomials_eq {FF : Type} [CommRing FF] {NUM_POLYNOMIALS : Nat}
    {TranscriptState RowsState : Type} [Inhabited TranscriptState]
    (compute_transcript_state : List (baby_vm.VMOperation FF) → Nat → List TranscriptState)
    (get_number_of_muls : Nat) (assign_row : Nat → TranscriptState → RowsState → RowsState)
    (rows : RowsState) (self : BabyVMCircuitBuilder FF) :
    (compute_full_polynomials compute_transcript_state get_number_of_muls assign_row rows self
        : Fin NUM_POLYNOMIALS → List FF) = fun _ => [] := rfl

theorem array_read_nil_column {FF : Type} {NUM_POLYNOMIALS : Nat} (i : Nat) :
    array_read (fun _ => [] : Fin NUM_POLYNOMIALS → List FF) i = [] := by
  unfold array_read
  split <;> rfl

variable {FF : Type} [CommRing FF] [DecidableEq FF] [Inhabited FF]
variable {NUM_POLYNOMIALS : Nat}

theorem check_circuit_eq {NUM_ADDITION NUM_MULTIPLICATION : Nat}
    (BabyVMAdditionRelation : Relation FF NUM_POLYNOMIALS NUM_ADDITION)
    (BabyVMMultiplicationRelation : Relation FF NUM_POLYNOMIALS NUM_MULTIPLICATION)
    (beta gamma beta_sqr beta_cube eccvm_set_permutation_delta : FF)
    (rows : Fin NUM_POLYNOMIALS → List FF) :
    check_circuit BabyVMAdditionRelation BabyVMMultiplicationRelation beta gamma beta_sqr
        beta_cube eccvm_set_permutation_delta rows
      = if (evaluate_relation BabyVMAdditionRelation
            ⟨0, beta, gamma, 0, 0, beta_sqr, beta_cube, eccvm_set_permutation_delta⟩ rows
            (array_read rows 0).length "BabyVMAdditionRelation" []).1 = true
        then evaluate_relation BabyVMMultiplicationRelation
            ⟨0, beta, gamma, 0, 0, beta_sqr, beta_cube, eccvm_set_permutation_delta⟩ rows
            (array_read rows 0).length "BabyVMMultiplicationRelation"
            (evaluate_relation BabyVMAdditionRelation
              ⟨0, beta, gamma, 0, 0, beta_sqr, beta_cube, eccvm_set_permutation_delta⟩ rows
              (array_read rows 0).length "BabyVMAdditionRelation" []).2
        else (false, (evaluate_relation BabyVMAdditionRelation
            ⟨0, beta, gamma, 0, 0, beta_sqr, beta_cube, eccvm_set_permutation_delta⟩ rows
            (array_read rows 0).length "BabyVMAdditionRelation" []).2) := by
  unfold check_circuit
  simp only [if_true]

end BabyVMCircuitBuilder
end proof_system

namespace proof_system
open barretenberg

namespace BabyVMCircuitBuilder

variable {FF : Type} [CommRing FF] [DecidableEq FF] [Inhabited FF]
variable {NUM_POLYNOMIALS : Nat}

omit [CommRing FF] [DecidableEq FF] in
/-- Cell `j` of row `i` is entry `i` of column `j`. -/
theorem get_row_apply (rows : Fin NUM_POLYNOMIALS → List FF) (i : Nat)
    (j : Fin NUM_POLYNOMIALS) : get_row rows i j = (rows j).getD i default := by
  have h := array_read_forLoop_write (fun j => (array_read rows j).getD i default)
    (fun _ => default : Fin NUM_POLYNOMIALS → FF) NUM_POLYNOMIALS j.val
  rw [array_read_of_lt _ _ j.isLt] at h
  simp only [j.isLt, and_self, if_true] at h
  rw [array_read_of_lt _ _ j.isLt] at h
  exact h

omit [CommRing FF] [DecidableEq FF] in
theorem get_row_replace_w_o_of_ne (rows : Fin NUM_POLYNOMIALS → List FF) (r i : Nat)
    (value : FF) (h : i ≠ r) : get_row (replace_w_o rows r value) i = get_row rows i := by
  funext j
  rw [get_row_apply, get_row_apply]
  unfold replace_w_o array_write
  by_cases e : j.val = 2
  · have hread : array_read rows 2 = rows j := by
      rw [← e, array_read_of_lt _ _ j.isLt]
    simp only [e, if_true, hread]
    simp [List.getD_eq_getElem?_getD, List.getElem?_set, Ne.symm h]
  · simp only [e, if_false]

omit [CommRing FF] [DecidableEq FF] [Inhabited FF] in
theorem num_rows_replace_w_o (rows : Fin NUM_POLYNOMIALS → List FF) (r : Nat) (value : FF) :
    (array_read (replace_w_o rows r value) 0).length = (array_read rows 0).length := by
  unfold replace_w_o
  rw [array_read_write]
  simp

omit [DecidableEq FF] in
theorem residual_replace_w_o_of_ne {NUM_SUBRELATIONS : Nat}
    (relation : Relation FF NUM_POLYNOMIALS NUM_SUBRELATIONS) (params : RelationParameters FF)
    (rows : Fin NUM_POLYNOMIALS → List FF) (r i : Nat) (value : FF) (h : i ≠ r) :
    residual relation params (replace_w_o rows r value) i = residual relation params rows i := by
  unfold residual
  rw [get_row_replace_w_o_of_ne rows r i value h]

/-- C12, statement that fails. Over the field of 7 elements the one-row trace with all cells 0
is accepted; with the `w_o` value of row 0 replaced by 1 it is still accepted and nothing is
reported: the selector of the row is 0, so its gate is off. -/
theorem check_circuit_misses_w_o_change :
    (check_circuit (BabyVMRelation (ZMod 7) 5) (BabyVMRelation (ZMod 7) 5) 0 0 0 0 0
        ![[0], [0], [0], [0], [0]]).1 = true ∧
    replace_w_o (![[0], [0], [0], [0], [0]] : Fin 5 → List (ZMod 7)) 0 1
      = ![[0], [0], [1], [0], [0]] ∧
    (1 : ZMod 7) ≠ 0 ∧
    check_circuit (BabyVMRelation (ZMod 7) 5) (BabyVMRelation (ZMod 7) 5) 0 0 0 0 0
        (replace_w_o ![[0], [0], [0], [0], [0]] 0 1) = (true, []) := by
  decide

/-- C12, amended. For every trace on which `check_circuit` returns `true` and every row `r`,
replacing the `w_o` value of row `r` makes `check_circuit` return `false` with a report whose
row index is `r` if and only if the new row `r` has a nonzero residual in one of the checked
relations; every report emitted after the replacement has row index `r`.  A row whose residuals
do not change with `w_o` stays accepted. -/
theorem check_circuit_detects_w_o_change_iff {NUM_ADDITION NUM_MULTIPLICATION : Nat}
    (BabyVMAdditionRelation : Relation FF NUM_POLYNOMIALS NUM_ADDITION)
    (BabyVMMultiplicationRelation : Relation FF NUM_POLYNOMIALS NUM_MULTIPLICATION)
    (beta gamma beta_sqr beta_cube eccvm_set_permutation_delta : FF)
    (rows : Fin NUM_POLYNOMIALS → List FF) (r : Nat) (value : FF)
    (haccepted : (check_circuit BabyVMAdditionRelation BabyVMMultiplicationRelation beta gamma
        beta_sqr beta_cube eccvm_set_permutation_delta rows).1 = true)
    (hr : r < (array_read rows 0).length) :
    (((check_circuit BabyVMAdditionRelation BabyVMMultiplicationRelation beta gamma beta_sqr
          beta_cube eccvm_set_permutation_delta (replace_w_o rows r value)).1 = false ∧
        ∃ report ∈ (check_circuit BabyVMAdditionRelation BabyVMMultiplicationRelation beta
          gamma beta_sqr beta_cube eccvm_set_permutation_delta (replace_w_o rows r value)).2,
          report.row_index = r)
      ↔ ((∃ j, residual BabyVMAdditionRelation
            ⟨0, beta, gamma, 0, 0, beta_sqr, beta_cube, eccvm_set_permutation_delta⟩
            (replace_w_o rows r value) r j ≠ 0) ∨
          (∃ j, residual BabyVMMultiplicationRelation
            ⟨0, beta, gamma, 0, 0, beta_sqr, beta_cube, eccvm_set_permutation_delta⟩
            (replace_w_o rows r value) r j ≠ 0))) ∧
    (∀ report ∈ (check_circuit BabyVMAdditionRelation BabyVMMultiplicationRelation beta gamma
        beta_sqr beta_cube eccvm_set_permutation_delta (replace_w_o rows r value)).2,
      report.row_index = r) := by
  -- the residuals of the accepted trace
  rw [check_circuit_eq] at haccepted
  have hA : ∀ i, i < (array_read rows 0).length → ∀ j, residual BabyVMAdditionRelation
      ⟨0, beta, gamma, 0, 0, beta_sqr, beta_cube, eccvm_set_permutation_delta⟩ rows i j = 0 := by
    by_contra hc
    rw [← evaluate_relation_true_iff _ _ _ _ "BabyVMAdditionRelation" []] at hc
    rw [if_neg hc] at haccepted
    exact absurd haccepted (by simp)
  have hM : ∀ i, i < (array_read rows 0).length → ∀ j, residual BabyVMMultiplicationRelation
      ⟨0, beta, gamma, 0, 0, beta_sqr, beta_cube, eccvm_set_permutation_delta⟩ rows i j = 0 := by
    rw [if_pos ((evaluate_relation_true_iff _ _ _ _ _ _).mpr hA),
      evaluate_relation_true_iff] at haccepted
    exact haccepted
  -- rows other than `r` keep their residuals
  have hA' : ∀ i, i < r → ∀ j, residual BabyVMAdditionRelation
      ⟨0, beta, gamma, 0, 0, beta_sqr, beta_cube, eccvm_set_permutation_delta⟩
      (replace_w_o rows r value) i j = 0 := by
    intro i hi j
    rw [residual_replace_w_o_of_ne _ _ rows r i value (by omega)]
    exact hA i (by omega) j
  have hM' : ∀ i, i < r → ∀ j, residual BabyVMMultiplicationRelation
      ⟨0, beta, gamma, 0, 0, beta_sqr, beta_cube, eccvm_set_permutation_delta⟩
      (replace_w_o rows r value) i j = 0 := by
    intro i hi j
    rw [residual_replace_w_o_of_ne _ _ rows r i value (by omega)]
    exact hM i (by omega) j
  have hAall : (∀ j, residual BabyVMAdditionRelation
      ⟨0, beta, gamma, 0, 0, beta_sqr, beta_cube, eccvm_set_permutation_delta⟩
      (replace_w_o rows r value) r j = 0) →
      ∀ i, i < (array_read rows 0).length → ∀ j, residual BabyVMAdditionRelation
        ⟨0, beta, gamma, 0, 0, beta_sqr, beta_cube, eccvm_set_permutation_delta⟩
        (replace_w_o rows r value) i j = 0 := by
    intro h i hi j
    by_cases e : i = r
    · rw [e]; exact h j
    · rw [residual_replace_w_o_of_ne _ _ rows r i value e]
      exact hA i hi j
  have hMall : (∀ j, residual BabyVMMultiplicationRelation
      ⟨0, beta, gamma, 0, 0, beta_sqr, beta_cube, eccvm_set_permutation_delta⟩
      (replace_w_o rows r value) r j = 0) →
      ∀ i, i < (array_read rows 0).length → ∀ j, residual BabyVMMultiplicationRelation
        ⟨0, beta, gamma, 0, 0, beta_sqr, beta_cube, eccvm_set_permutation_delta⟩
        (replace_w_o rows r value) i j = 0 := by
    intro h i hi j
    by_cases e : i = r
    · rw [e]; exact h j
    · rw [residual_replace_w_o_of_ne _ _ rows r i value e]
      exact hM i hi j
  rw [check_circuit_eq, num_rows_replace_w_o]
  by_cases fA : ∃ j, residual BabyVMAdditionRelation
      ⟨0, beta, gamma, 0, 0, beta_sqr, beta_cube, eccvm_set_permutation_delta⟩
      (replace_w_o rows r value) r j ≠ 0
  · -- the first relation fails at row `r`
    have e := evaluate_relation_first_failure BabyVMAdditionRelation
      ⟨0, beta, gamma, 0, 0, beta_sqr, beta_cube, eccvm_set_permutation_delta⟩
      (replace_w_o rows r value) (array_read rows 0).length "BabyVMAdditionRelation" [] r hr
      fA hA'
    obtain ⟨_, s2, _⟩ := report_failures_spec "BabyVMAdditionRelation"
      (residual BabyVMAdditionRelation
        ⟨0, beta, gamma, 0, 0, beta_sqr, beta_cube, eccvm_set_permutation_delta⟩
        (replace_w_o rows r value) r) r []
    rw [e]
    simp only [Bool.false_eq_true, if_false]
    obtain ⟨j, hj⟩ := fA
    refine ⟨⟨fun _ => Or.inl ⟨j, hj⟩, fun _ => ⟨trivial, ⟨"BabyVMAdditionRelation", j.val, r⟩,
      (s2 _).mpr (Or.inr ⟨rfl, rfl, j, rfl, hj⟩), rfl⟩⟩, fun report hrep => ?_⟩
    rcases (s2 report).mp hrep with h | ⟨_, h, _⟩
    · exact absurd h (List.not_mem_nil _)
    · exact h
  · have zA : ∀ j, residual BabyVMAdditionRelation
        ⟨0, beta, gamma, 0, 0, beta_sqr, beta_cube, eccvm_set_permutation_delta⟩
        (replace_w_o rows r value) r j = 0 := by
      intro j
      by_contra hc
      exact fA ⟨j, hc⟩
    have eA := evaluate_relation_of_zero BabyVMAdditionRelation
      ⟨0, beta, gamma, 0, 0, beta_sqr, beta_cube, eccvm_set_permutation_delta⟩
      (replace_w_o rows r value) (array_read rows 0).length "BabyVMAdditionRelation" []
      (hAall zA)
    rw [eA]
    simp only [if_true]
    by_cases fM : ∃ j, residual BabyVMMultiplicationRelation
        ⟨0, beta, gamma, 0, 0, beta_sqr, beta_cube, eccvm_set_permutation_delta⟩
        (replace_w_o rows r value) r j ≠ 0
    · have e := evaluate_relation_first_failure BabyVMMultiplicationRelation
        ⟨0, beta, gamma, 0, 0, beta_sqr, beta_cube, eccvm_set_permutation_delta⟩
        (replace_w_o rows r value) (array_read rows 0).length "BabyVMMultiplicationRelation"
        [] r hr fM hM'
      obtain ⟨_, s2, _⟩ := report_failures_spec "BabyVMMultiplicationRelation"
        (residual BabyVMMultiplicationRelation
          ⟨0, beta, gamma, 0, 0, beta_sqr, beta_cube, eccvm_set_permutation_delta⟩
          (replace_w_o rows r value) r) r []
      rw [e]
      obtain ⟨j, hj⟩ := fM
      refine ⟨⟨fun _ => Or.inr ⟨j, hj⟩, fun _ => ⟨rfl,
        ⟨"BabyVMMultiplicationRelation", j.val, r⟩,
        (s2 _).mpr (Or.inr ⟨rfl, rfl, j, rfl, hj⟩), rfl⟩⟩, fun report hrep => ?_⟩
      rcases (s2 report).mp hrep with h | ⟨_, h, _⟩
      · exact absurd h (List.not_mem_nil _)
      · exact h
    · have zM : ∀ j, residual BabyVMMultiplicationRelation
          ⟨0, beta, gamma, 0, 0, beta_sqr, beta_cube, eccvm_set_permutation_delta⟩
          (replace_w_o rows r value) r j = 0 := by
        intro j
        by_contra hc
        exact fM ⟨j, hc⟩
      have eM := evaluate_relation_of_zero BabyVMMultiplicationRelation
        ⟨0, beta, gamma, 0, 0, beta_sqr, beta_cube, eccvm_set_permutation_delta⟩
        (replace_w_o rows r value) (array_read rows 0).length
        "BabyVMMultiplicationRelation" [] (hMall zM)
      rw [eM]
      refine ⟨⟨fun h => absurd h.1 (by simp), fun h => ?_⟩, fun report hrep =>
        absurd hrep (List.not_mem_nil _)⟩
      rcases h with h | h
      · exact absurd h fA
      · exact absurd h fM

theorem check_circuit_detects_w_o_change_iff_witness :
    (((check_circuit (BabyVMRelation (ZMod 7) 5) (BabyVMRelation (ZMod 7) 5) 0 0 0 0 0
          (replace_w_o ![[0], [0], [0], [0], [0]] 0 1)).1 = false ∧
        ∃ report ∈ (check_circuit (BabyVMRelation (ZMod 7) 5) (BabyVMRelation (ZMod 7) 5)
          0 0 0 0 0 (replace_w_o ![[0], [0], [0], [0], [0]] 0 1)).2, report.row_index = 0)
      ↔ ((∃ j, residual (BabyVMRelation (ZMod 7) 5) ⟨0, 0, 0, 0, 0, 0, 0, 0⟩
            (replace_w_o ![[0], [0], [0], [0], [0]] 0 1) 0 j ≠ 0) ∨
          (∃ j, residual (BabyVMRelation (ZMod 7) 5) ⟨0, 0, 0, 0, 0, 0, 0, 0⟩
            (replace_w_o ![[0], [0], [0], [0], [0]] 0 1) 0 j ≠ 0))) ∧
    ((check_circuit
          (⟨fun accumulator row _ scaling_factor =>
              fun j => accumulator j + (row 0 + row 1 - row 2) * scaling_factor⟩
            : Relation (ZMod 7) 5 1)
          (BabyVMRelation (ZMod 7) 5) 0 0 0 0 0
          (replace_w_o ![[1, 2], [1, 3], [2, 5], [0, 0], [0, 0]] 1 6)).1 = false ∧
      ∃ report ∈ (check_circuit
          (⟨fun accumulator row _ scaling_factor =>
              fun j => accumulator j + (row 0 + row 1 - row 2) * scaling_factor⟩
            : Relation (ZMod 7) 5 1)
          (BabyVMRelation (ZMod 7) 5) 0 0 0 0 0
          (replace_w_o ![[1, 2], [1, 3], [2, 5], [0, 0], [0, 0]] 1 6)).2,
        report.row_index = 1) :=
  ⟨(check_circuit_detects_w_o_change_iff (BabyVMRelation (ZMod 7) 5)
      (BabyVMRelation (ZMod 7) 5) 0 0 0 0 0 ![[0], [0], [0], [0], [0]] 0 1
      (by decide) (by decide)).1,
    ((check_circuit_detects_w_o_change_iff
      (⟨fun accumulator row _ scaling_factor =>
          fun j => accumulator j + (row 0 + row 1 - row 2) * scaling_factor⟩
        : Relation (ZMod 7) 5 1)
      (BabyVMRelation (ZMod 7) 5) 0 0 0 0 0 ![[1, 2], [1, 3], [2, 5], [0, 0], [0, 0]] 1 6
      (by decide) (by decide)).1).mpr (Or.inl ⟨0, by decide⟩)⟩

/-- The boolean check on the selector that `accumulate` reads: over a field and for a nonzero
scaling factor, a zero contribution of sub-relation 3 (or of sub-relation 4, which adds the
same value) forces `q_m` to be 0 or 1. -/
theorem q_m_boolean_of_contribution_zero {K : Type} [Field K]
    (accumulators : Fin 4 → K) (new_term : BabyVMRelationImpl.NewTerm K)
    (parameters : RelationParameters K) (s : K) (hs : s ≠ 0)
    (h : BabyVMRelationImpl.accumulate accumulators new_term parameters s 2 = accumulators 2) :
    new_term.q_m = 0 ∨ new_term.q_m = 1 := by
  rw [BabyVMRelationImpl.accumulate_apply] at h
  have h2 : accumulators 2 + new_term.q_m * (1 - new_term.q_m) * s = accumulators 2 := h
  rw [add_right_eq_self, mul_eq_zero, mul_eq_zero] at h2
  rcases h2 with (h2 | h2) | h2
  · exact Or.inl h2
  · exact Or.inr (sub_eq_zero.mp h2).symm
  · exact absurd h2 hs

/-- C13 (the source departs from it). Over the field of 7 elements, on the row with
`w_l = w_r = w_o = 0`, multiplication selector 0 and addition selector `q_add = 2`, the
contribution of sub-relation 4 with scaling factor 1 is zero although `q_add` is neither 0 nor
1, and `check_circuit` accepts the one-row trace made of that row: sub-relation 4 is computed
from `q_m`, not from `q_add`. -/
theorem q_add_not_forced_boolean :
    BabyVMRelationImpl.accumulate (fun _ => (0 : ZMod 7))
        { w_l := 0, w_r := 0, w_o := 0, q_m := 0 } ⟨0, 0, 0, 0, 0, 0, 0, 0⟩ 1 3 = 0 ∧
    residual (BabyVMRelation (ZMod 7) 5) ⟨0, 0, 0, 0, 0, 0, 0, 0⟩
        ![[0], [0], [0], [0], [2]] 0 3 = 0 ∧
    get_row (![[0], [0], [0], [0], [2]] : Fin 5 → List (ZMod 7)) 0 4 = 2 ∧
    (2 : ZMod 7) ≠ 0 ∧ (2 : ZMod 7) ≠ 1 ∧
    check_circuit (BabyVMRelation (ZMod 7) 5) (BabyVMRelation (ZMod 7) 5) 0 0 0 0 0
        ![[0], [0], [0], [0], [2]] = (true, []) := by
  decide

end BabyVMCircuitBuilder
end proof_system

/-! ## Views -/

namespace barretenberg

namespace UnivariateView

variable {Fr : Type} {n : Nat}

theorem value_at_of_univariate [Inhabited Fr] {m : Nat} (u : Univariate Fr n) (i : Nat)
    (hi : i < m) :
    (UnivariateView.of_univariate u : UnivariateView Fr m).value_at i = u.value_at i := by
  simp [UnivariateView.of_univariate, UnivariateView.value_at, Univariate.value_at, array_read,
    hi]

end UnivariateView

namespace Univariate

variable {Fr : Type} {n : Nat}

theorem value_at_add_assign_view [Add Fr] [Inhabited Fr] (a : Univariate Fr n)
    (v : UnivariateView Fr n) (i : Nat) (hi : i < n) :
    (a.add_assign_view v).value_at i = a.value_at i + v.value_at i := by
  unfold add_assign_view
  have h := value_at_forLoop_pointwise (fun i x => x + array_read v.evaluations i) a n i
  simp only [hi, and_self, if_true] at h
  exact h

theorem value_at_sub_assign_view [Sub Fr] [Inhabited Fr] (a : Univariate Fr n)
    (v : UnivariateView Fr n) (i : Nat) (hi : i < n) :
    (a.sub_assign_view v).value_at i = a.value_at i - v.value_at i := by
  unfold sub_assign_view
  have h := value_at_forLoop_pointwise (fun i x => x - array_read v.evaluations i) a n i
  simp only [hi, and_self, if_true] at h
  exact h

theorem value_at_mul_assign_view [Mul Fr] [Inhabited Fr] (a : Univariate Fr n)
    (v : UnivariateView Fr n) (i : Nat) (hi : i < n) :
    (a.mul_assign_view v).value_at i = a.value_at i * v.value_at i := by
  unfold mul_assign_view
  have h := value_at_forLoop_pointwise (fun i x => x * array_read v.evaluations i) a n i
  simp only [hi, and_self, if_true] at h
  exact h

theorem value_at_of_view_eq [Inhabited Fr] (v : UnivariateView Fr n) (i : Nat) (hi : i < n) :
    (Univariate.of_view v).value_at i = v.value_at i :=
  value_at_of_view v i hi

end Univariate

namespace UnivariateView

variable {Fr : Type} {n : Nat}

theorem value_at_add [Add Fr] [Inhabited Fr] (a b : UnivariateView Fr n) (i : Nat)
    (hi : i < n) : (a.add b).value_at i = a.value_at i + b.value_at i := by
  unfold add
  rw [Univariate.value_at_add_assign_view _ _ i hi, Univariate.value_at_of_view_eq _ i hi]

theorem value_at_sub [Sub Fr] [Inhabited Fr] (a b : UnivariateView Fr n) (i : Nat)
    (hi : i < n) : (a.sub b).value_at i = a.value_at i - b.value_at i := by
  unfold sub
  rw [Univariate.value_at_sub_assign_view _ _ i hi, Univariate.value_at_of_view_eq _ i hi]

theorem value_at_mul [Mul Fr] [Inhabited Fr] (a b : UnivariateView Fr n) (i : Nat)
    (hi : i < n) : (a.mul b).value_at i = a.value_at i * b.value_at i := by
  unfold mul
  rw [Univariate.value_at_mul_assign_view _ _ i hi, Univariate.value_at_of_view_eq _ i hi]

theorem value_at_add_univariate [Add Fr] [Inhabited Fr] (a : UnivariateView Fr n)
    (b : Univariate Fr n) (i : Nat) (hi : i < n) :
    (a.add_univariate b).value_at i = a.value_at i + b.value_at i := by
  unfold add_univariate
  rw [Univariate.value_at_add_assign _ _ i hi, Univariate.value_at_of_view_eq _ i hi]

theorem value_at_sub_univariate [Sub Fr] [Inhabited Fr] (a : UnivariateView Fr n)
    (b : Univariate Fr n) (i : Nat) (hi : i < n) :
    (a.sub_univariate b).value_at i = a.value_at i - b.value_at i := by
  unfold sub_univariate
  rw [Univariate.value_at_sub_assign _ _ i hi, Univariate.value_at_of_view_eq _ i hi]

theorem value_at_mul_univariate [Mul Fr] [Inhabited Fr] (a : UnivariateView Fr n)
    (b : Univariate Fr n) (i : Nat) (hi : i < n) :
    (a.mul_univariate b).value_at i = a.value_at i * b.value_at i := by
  unfold mul_univariate
  rw [Univariate.value_at_mul_assign _ _ i hi, Univariate.value_at_of_view_eq _ i hi]

theorem value_at_add_scalar [Add Fr] [Inhabited Fr] (a : UnivariateView Fr n) (c : Fr)
    (i : Nat) (hi : i < n) : (a.add_scalar c).value_at i = a.value_at i + c := by
  unfold add_scalar
  rw [Univariate.value_at_add_assign_scalar _ _ i hi, Univariate.value_at_of_view_eq _ i hi]

theorem value_at_sub_scalar [Sub Fr] [Inhabited Fr] (a : UnivariateView Fr n) (c : Fr)
    (i : Nat) (hi : i < n) : (a.sub_scalar c).value_at i = a.value_at i - c := by
  unfold sub_scalar
  rw [Univariate.value_at_sub_assign_scalar _ _ i hi, Univariate.value_at_of_view_eq _ i hi]

theorem value_at_mul_scalar [Mul Fr] [Inhabited Fr] (a : UnivariateView Fr n) (c : Fr)
    (i : Nat) (hi : i < n) : (a.mul_scalar c).value_at i = a.value_at i * c := by
  unfold mul_scalar
  rw [Univariate.value_at_mul_assign_scalar _ _ i hi, Univariate.value_at_of_view_eq _ i hi]

/-- C22. A view is a read-only prefix window: for every univariate `u` of length `n`, every
`m ≤ n` and every `i < m`, the view of length `m` of `u` holds `u.value_at(i)` at `i`, the
univariate built from a view holds the view's value at `i`, and every arithmetic operator of a
view (with a view, with a univariate, with a scalar) returns the univariate of length `m` whose
component `i` is the result of the operation on the components `i`.  The operators are
functions of their arguments, so `u` is not modified. -/
theorem view_is_prefix_window [CommRing Fr] [Inhabited Fr] {m : Nat} (u : Univariate Fr n)
    (_hm : m ≤ n) (v w : UnivariateView Fr m) (x : Univariate Fr m) (c : Fr) (i : Nat)
    (hi : i < m) :
    (UnivariateView.of_univariate u : UnivariateView Fr m).value_at i = u.value_at i ∧
    (Univariate.of_view v).value_at i = v.value_at i ∧
    ((v.add w).value_at i = v.value_at i + w.value_at i ∧
      (v.sub w).value_at i = v.value_at i - w.value_at i ∧
      (v.mul w).value_at i = v.value_at i * w.value_at i) ∧
    ((v.add_univariate x).value_at i = v.value_at i + x.value_at i ∧
      (v.sub_univariate x).value_at i = v.value_at i - x.value_at i ∧
      (v.mul_univariate x).value_at i = v.value_at i * x.value_at i) ∧
    ((v.add_scalar c).value_at i = v.value_at i + c ∧
      (v.sub_scalar c).value_at i = v.value_at i - c ∧
      (v.mul_scalar c).value_at i = v.value_at i * c) :=
  ⟨value_at_of_univariate u i hi, Univariate.value_at_of_view_eq v i hi,
    ⟨value_at_add v w i hi, value_at_sub v w i hi, value_at_mul v w i hi⟩,
    ⟨value_at_add_univariate v x i hi, value_at_sub_univariate v x i hi,
      value_at_mul_univariate v x i hi⟩,
    ⟨value_at_add_scalar v c i hi, value_at_sub_scalar v c i hi, value_at_mul_scalar v c i hi⟩⟩

theorem view_is_prefix_window_witness :
    (2 : Nat) ≤ 3 ∧ (1 : Nat) < 2 ∧
    (UnivariateView.of_univariate (Univariate.mk ![(1 : ℚ), 4, 9]) : UnivariateView ℚ 2).value_at 1
      = (Univariate.mk ![(1 : ℚ), 4, 9]).value_at 1 :=
  ⟨by decide, by decide,
    (view_is_prefix_window (Univariate.mk ![(1 : ℚ), 4, 9]) (by decide)
      (UnivariateView.mk ![(1 : ℚ), 2]) (UnivariateView.mk ![(3 : ℚ), 5])
      (Univariate.mk ![(7 : ℚ), 8]) 6 1 (by decide)).1⟩

end UnivariateView
end barretenberg

/-! ## The permutation relation on univariate edges -/

namespace proof_system
open barretenberg

namespace UltraPermutationRelationImpl

variable {FF : Type} [CommRing FF] [Inhabited FF]

theorem value_at_wire_factor {LEN MAX : Nat} (w t : Univariate FF MAX) (b g : FF) (i : Nat)
    (hi : i < LEN) :
    ((((UnivariateView.of_univariate w : UnivariateView FF LEN).add_univariate
        ((UnivariateView.of_univariate t : UnivariateView FF LEN).mul_scalar b)).add_scalar
          g).value_at i)
      = w.value_at i + t.value_at i * b + g := by
  unfold Univariate.add_scalar
  rw [Univariate.value_at_add_assign_scalar _ _ i hi,
    UnivariateView.value_at_add_univariate _ _ i hi, UnivariateView.value_at_mul_scalar _ _ i hi,
    UnivariateView.value_at_of_univariate _ i hi, UnivariateView.value_at_of_univariate _ i hi]

theorem value_at_mul' {n : Nat} (a b : Univariate FF n) (i : Nat) (hi : i < n) :
    (a.mul b).value_at i = a.value_at i * b.value_at i := by
  unfold Univariate.mul
  exact Univariate.value_at_mul_assign a b i hi

theorem value_at_sub' {n : Nat} (a b : Univariate FF n) (i : Nat) (hi : i < n) :
    (a.sub b).value_at i = a.value_at i - b.value_at i := by
  unfold Univariate.sub
  exact Univariate.value_at_sub_assign a b i hi

theorem value_at_mul_scalar' {n : Nat} (a : Univariate FF n) (c : FF) (i : Nat) (hi : i < n) :
    (a.mul_scalar c).value_at i = a.value_at i * c := by
  unfold Univariate.mul_scalar
  exact Univariate.value_at_mul_assign_scalar a c i hi

theorem value_at_numerator_univariate {LEN MAX : Nat} (input : AllEntities (Univariate FF MAX))
    (relation_parameters : RelationParameters FF) (i : Nat) (hi : i < LEN) :
    (compute_grand_product_numerator_univariate input relation_parameters
        : Univariate FF LEN).value_at i
      = compute_grand_product_numerator (input.map (fun edge => edge.value_at i))
          relation_parameters := by
  unfold compute_grand_product_numerator_univariate compute_grand_product_numerator
  simp only [AllEntities.map]
  rw [value_at_mul' _ _ i hi, value_at_mul' _ _ i hi, value_at_mul' _ _ i hi,
    value_at_wire_factor _ _ _ _ i hi, value_at_wire_factor _ _ _ _ i hi,
    value_at_wire_factor _ _ _ _ i hi, value_at_wire_factor _ _ _ _ i hi]

theorem value_at_denominator_univariate {LEN MAX : Nat}
    (input : AllEntities (Univariate FF MAX)) (relation_parameters : RelationParameters FF)
    (i : Nat) (hi : i < LEN) :
    (compute_grand_product_denominator_univariate input relation_parameters
        : Univariate FF LEN).value_at i
      = compute_grand_product_denominator (input.map (fun edge => edge.value_at i))
          relation_parameters := by
  unfold compute_grand_product_denominator_univariate compute_grand_product_denominator
  simp only [AllEntities.map]
  rw [value_at_mul' _ _ i hi, value_at_mul' _ _ i hi, value_at_mul' _ _ i hi,
    value_at_wire_factor _ _ _ _ i hi, value_at_wire_factor _ _ _ _ i hi,
    value_at_wire_factor _ _ _ _ i hi, value_at_wire_factor _ _ _ _ i hi]

/-- C21. One relation, two representations: for the permutation relation, for every row of
univariate edges, all parameters, every scaling factor and every index `i` below the length of
a sub-relation's accumulator (6 for sub-relation 1 and 3 for sub-relation 2 with the declared
lengths), component `i` of what `accumulate` adds to the univariate accumulator is the scalar
contribution that `accumulate` adds on the row of field values made of component `i` of every
edge. -/
theorem accumulate_univariate_componentwise {LEN_0 LEN_1 MAX : Nat}
    (accumulators : Univariate FF LEN_0 × Univariate FF LEN_1)
    (input : AllEntities (Univariate FF MAX)) (relation_parameters : RelationParameters FF)
    (scaling_factor : FF) :
    (∀ i, i < LEN_0 →
      (accumulate_univariate accumulators input relation_parameters scaling_factor).1.value_at i
        = accumulators.1.value_at i
          + accumulate (fun _ => 0) (input.map (fun edge => edge.value_at i))
              relation_parameters scaling_factor 0) ∧
    (∀ i, i < LEN_1 →
      (accumulate_univariate accumulators input relation_parameters scaling_factor).2.value_at i
        = accumulators.2.value_at i
          + accumulate (fun _ => 0) (input.map (fun edge => edge.value_at i))
              relation_parameters scaling_factor 1) := by
  constructor
  · intro i hi
    rw [accumulate_zero, zero_add]
    unfold accumulate_univariate
    simp only []
    rw [Univariate.value_at_add_assign _ _ i hi, value_at_mul_scalar' _ _ i hi,
      value_at_sub' _ _ i hi, value_at_mul' _ _ i hi, value_at_mul' _ _ i hi,
      UnivariateView.value_at_add _ _ i hi, UnivariateView.value_at_add_univariate _ _ i hi,
      UnivariateView.value_at_mul_scalar _ _ i hi, value_at_numerator_univariate _ _ i hi,
      value_at_denominator_univariate _ _ i hi, UnivariateView.value_at_of_univariate _ i hi,
      UnivariateView.value_at_of_univariate _ i hi, UnivariateView.value_at_of_univariate _ i hi,
      UnivariateView.value_at_of_univariate _ i hi]
    rfl
  · intro i hi
    rw [accumulate_one, zero_add]
    unfold accumulate_univariate
    simp only []
    rw [Univariate.value_at_add_assign _ _ i hi, value_at_mul_scalar' _ _ i hi,
      UnivariateView.value_at_mul _ _ i hi, UnivariateView.value_at_of_univariate _ i hi,
      UnivariateView.value_at_of_univariate _ i hi]
    rfl

theorem accumulate_univariate_componentwise_witness :
    (5 : Nat) < 6 ∧
    (accumulate_univariate
        ((Univariate.mk (fun _ => 0), Univariate.mk (fun _ => 0))
          : Univariate ℚ 6 × Univariate ℚ 3)
        (AllEntities.map (fun c : ℚ => (Univariate.mk (fun j => c + j.val) : Univariate ℚ 6))
          ⟨1, 2, 3, 4, 5, 6, 7, 8, 9, 10, 11, 12, 13, 14, 15, 16⟩)
        ⟨0, 2, 3, 5, 0, 0, 0, 0⟩ 7).1.value_at 5
      = (Univariate.mk (fun _ => 0) : Univariate ℚ 6).value_at 5
        + accumulate (fun _ => 0)
            ((AllEntities.map
              (fun c : ℚ => (Univariate.mk (fun j => c + j.val) : Univariate ℚ 6))
              ⟨1, 2, 3, 4, 5, 6, 7, 8, 9, 10, 11, 12, 13, 14, 15, 16⟩).map
                (fun edge => edge.value_at 5))
            ⟨0, 2, 3, 5, 0, 0, 0, 0⟩ 7 0 :=
  ⟨by decide,
    (accumulate_univariate_componentwise
      ((Univariate.mk (fun _ => 0), Univariate.mk (fun _ => 0))
        : Univariate ℚ 6 × Univariate ℚ 3)
      (AllEntities.map (fun c : ℚ => (Univariate.mk (fun j => c + j.val) : Univariate ℚ 6))
        ⟨1, 2, 3, 4, 5, 6, 7, 8, 9, 10, 11, 12, 13, 14, 15, 16⟩)
      ⟨0, 2, 3, 5, 0, 0, 0, 0⟩ 7).1 5 (by decide)⟩

end UltraPermutationRelationImpl
end proof_system

/-! ## Divisors of `evaluate`, and the toy-VM relation on boolean selectors -/

namespace barretenberg

theorem lagrange_denominator_ne_zero {Fr : Type} [Field Fr] (L j : Nat) (hj : j < L)
    (hdistinct : ∀ a b, a < L → b < L → (a : Fr) = (b : Fr) → a = b) :
    lagrange_denominator Fr L j ≠ 0 := by
  unfold lagrange_denominator
  apply List.prod_ne_zero
  intro h0
  rw [List.mem_map] at h0
  obtain ⟨i, hi, hzero⟩ := h0
  rw [List.mem_filter, List.mem_range] at hi
  have hne : i ≠ j := by simpa using hi.2
  exact hne (hdistinct j i hj hi.1 (sub_eq_zero.mp hzero)).symm

namespace Univariate

variable {Fr : Type}

/-- C23. No division by zero in `evaluate` under its precondition: over a field in which
`0, ..., L - 1` are pairwise distinct and with the evaluation tables of the spec formula, for
every `u` outside `{0, ..., L - 1}` and every `i < L` the divisor
`lagrange_denominators[i] * (u - big_domain[i])` that `evaluate` inverts is nonzero; conversely,
when `u` is the domain point `k` the divisor of step `k` is zero.  `evaluate` is the sum of the
values times the inverses of these divisors, times the product of the `u - i`. -/
theorem evaluate_divisor_nonzero [Field Fr] [Inhabited Fr] {L : Nat}
    (Data : BarycentricData Fr) (hData : Data.EvaluateSpec L)
    (hdistinct : ∀ a b, a < L → b < L → (a : Fr) = (b : Fr) → a = b) :
    (∀ u : Fr, (∀ i, i < L → u ≠ (i : Fr)) → ∀ i, i < L → evaluate_divisor Data u i ≠ 0) ∧
    (∀ k, k < L → evaluate_divisor Data (k : Fr) k = 0) ∧
    (∀ (f : Univariate Fr L) (u : Fr),
      f.evaluate Data u
        = ((List.range L).map (fun i : Nat =>
              f.value_at i * (1 / evaluate_divisor Data u i))).sum
            * ((List.range L).map (fun i : Nat => u - (i : Fr))).prod) := by
  refine ⟨fun u hu i hi => ?_, fun k hk => ?_, fun f u => evaluate_eq Data f u⟩
  · unfold evaluate_divisor
    simp only []
    rw [hData.1 i hi, hData.2 i hi]
    exact mul_ne_zero (lagrange_denominator_ne_zero L i hi hdistinct)
      (sub_ne_zero.mpr (hu i hi))
  · unfold evaluate_divisor
    simp only []
    rw [hData.2 k hk, sub_self, mul_zero]

theorem evaluate_divisor_nonzero_witness :
    evaluate_divisor (BarycentricData.spec_tables ℚ 3) 7 0 ≠ 0 ∧
    evaluate_divisor (BarycentricData.spec_tables ℚ 3) 7 1 ≠ 0 ∧
    evaluate_divisor (BarycentricData.spec_tables ℚ 3) 7 2 ≠ 0 ∧
    evaluate_divisor (BarycentricData.spec_tables ℚ 3) ((1 : Nat) : ℚ) 1 = 0 :=
  have h := evaluate_divisor_nonzero (BarycentricData.spec_tables ℚ 3)
    (spec_tables_evaluateSpec ℚ 3) (fun a b _ _ e => Nat.cast_injective e)
  have h7 := h.1 7 (fun i hi => by interval_cases i <;> norm_num)
  ⟨h7 0 (by decide), h7 1 (by decide), h7 2 (by decide), h.2.1 1 (by decide)⟩

end Univariate
end barretenberg

namespace proof_system
namespace BabyVMRelationImpl

/-- C29. The toy-VM relation is vacuous on rows with a boolean selector: `accumulate` reads its
`q_mul` view and its `q_add` view from the same entity `q_m`, so for every row of field values
whose `q_m` is 0 or 1, every scaling factor and all `w_l`, `w_r`, `w_o`, the four contributions
are zero and the accumulators are unchanged; and on every row sub-relations 3 and 4 add the
same contribution. -/
theorem accumulate_vacuous_on_boolean_selector {FF : Type} [CommRing FF]
    (accumulators : Fin 4 → FF) (new_term : NewTerm FF) (parameters : RelationParameters FF)
    (scaling_factor : FF) :
    (new_term.q_m = 0 ∨ new_term.q_m = 1 →
      accumulate accumulators new_term parameters scaling_factor = accumulators) ∧
    accumulate accumulators new_term parameters scaling_factor 2 - accumulators 2
      = accumulate accumulators new_term parameters scaling_factor 3 - accumulators 3 := by
  rw [accumulate_apply]
  constructor
  · intro h
    have hz : new_term.q_m * (1 - new_term.q_m) = 0 := by
      rcases h with h | h <;> rw [h] <;> ring
    have h0 : (new_term.w_l + new_term.w_r - new_term.w_o) * new_term.q_m
        * (1 - new_term.q_m) * scaling_factor = 0 := by
      rw [mul_assoc (new_term.w_l + new_term.w_r - new_term.w_o), hz]; ring
    have h1 : (new_term.w_l * new_term.w_r - new_term.w_o) * new_term.q_m
        * (1 - new_term.q_m) * scaling_factor = 0 := by
      rw [mul_assoc (new_term.w_l * new_term.w_r - new_term.w_o), hz]; ring
    rw [h0, h1, hz]
    funext j
    fin_cases j <;> simp
  · simp

theorem accumulate_vacuous_on_boolean_selector_witness :
    accumulate (![1, 2, 3, 4] : Fin 4 → ℚ) { w_l := 5, w_r := 6, w_o := 7, q_m := 1 }
      ⟨0, 0, 0, 0, 0, 0, 0, 0⟩ 9 = ![1, 2, 3, 4] :=
  (accumulate_vacuous_on_boolean_selector (![1, 2, 3, 4] : Fin 4 → ℚ)
    { w_l := 5, w_r := 6, w_o := 7, q_m := 1 } ⟨0, 0, 0, 0, 0, 0, 0, 0⟩ 9).1 (Or.inr rfl)

end BabyVMRelationImpl
end proof_system

/-! ## Accumulation over rows -/

namespace proof_system
open barretenberg

namespace BabyVMRelationImpl

theorem toy_accumulate_additive {FF : Type} [CommRing FF] (accumulators : Fin 4 → FF)
    (new_term : NewTerm FF) (parameters : RelationParameters FF) (s : FF) (j : Fin 4) :
    accumulate accumulators new_term parameters s j
      = accumulators j + accumulate (fun _ => 0) new_term parameters s j := by
  rw [accumulate_apply, accumulate_apply]
  fin_cases j <;> simp

theorem toy_accumulate_rows_eq {FF : Type} [CommRing FF] (parameters : RelationParameters FF)
    (rows : List (NewTerm FF × FF)) (accumulators : Fin 4 → FF) (j : Fin 4) :
    accumulate_rows accumulators parameters rows j
      = accumulators j
        + (rows.map (fun pair => accumulate (fun _ => 0) pair.1 parameters pair.2 j)).sum := by
  induction rows generalizing accumulators with
  | nil => simp [accumulate_rows]
  | cons pair rest ih =>
    have e : accumulate_rows accumulators parameters (pair :: rest)
        = accumulate_rows (accumulate accumulators pair.1 parameters pair.2) parameters rest :=
      rfl
    rw [e, ih, toy_accumulate_additive accumulators]
    simp [add_assoc]

end BabyVMRelationImpl

namespace UltraPermutationRelationImpl

theorem permutation_accumulate_additive {FF : Type} [CommRing FF] (accumulators : Fin 2 → FF)
    (input : AllEntities FF) (relation_parameters : RelationParameters FF) (s : FF)
    (j : Fin 2) :
    accumulate accumulators input relation_parameters s j
      = accumulators j + accumulate (fun _ => 0) input relation_parameters s j := by
  have h0 : accumulate accumulators input relation_parameters s 0
      = accumulators 0 + accumulate (fun _ => 0) input relation_parameters s 0 := by
    rw [accumulate_zero, accumulate_zero]
    simp
  have h1 : accumulate accumulators input relation_parameters s 1
      = accumulators 1 + accumulate (fun _ => 0) input relation_parameters s 1 := by
    rw [accumulate_one, accumulate_one]
    simp
  fin_cases j
  · exact h0
  · exact h1

theorem permutation_accumulate_rows_eq {FF : Type} [CommRing FF]
    (relation_parameters : RelationParameters FF) (rows : List (AllEntities FF × FF))
    (accumulators : Fin 2 → FF) (j : Fin 2) :
    accumulate_rows accumulators relation_parameters rows j
      = accumulators j
        + (rows.map
            (fun pair => accumulate (fun _ => 0) pair.1 relation_parameters pair.2 j)).sum := by
  induction rows generalizing accumulators with
  | nil => simp [accumulate_rows]
  | cons pair rest ih =>
    have e : accumulate_rows accumulators relation_parameters (pair :: rest)
        = accumulate_rows (accumulate accumulators pair.1 relation_parameters pair.2)
            relation_parameters rest := rfl
    rw [e, ih, permutation_accumulate_additive accumulators]
    simp [add_assoc]

end UltraPermutationRelationImpl

/-- C24. Row independence of accumulation: for the toy-VM relation and for the permutation
relation, the accumulators obtained by calling `accumulate` over a finite list of pairs of a
row and a scaling factor, starting from given accumulators, are the initial accumulators plus
the sum of the contributions of the rows, the contribution of a row being what `accumulate`
adds to zeroed accumulators on that row alone; hence they are the same for every permutation
of the list. -/
theorem accumulate_rows_row_independent {FF : Type} [CommRing FF]
    (parameters : RelationParameters FF)
    (toy_accumulators : Fin 4 → FF) (toy_rows toy_rows' : List (BabyVMRelationImpl.NewTerm FF × FF))
    (htoy : toy_rows.Perm toy_rows')
    (accumulators : Fin 2 → FF)
    (rows rows' : List (UltraPermutationRelationImpl.AllEntities FF × FF))
    (hrows : rows.Perm rows') :
    (BabyVMRelationImpl.accumulate_rows toy_accumulators parameters toy_rows
        = BabyVMRelationImpl.accumulate_rows toy_accumulators parameters toy_rows' ∧
      ∀ j, BabyVMRelationImpl.accumulate_rows toy_accumulators parameters toy_rows j
        = toy_accumulators j
          + (toy_rows.map (fun pair =>
              BabyVMRelationImpl.accumulate (fun _ => 0) pair.1 parameters pair.2 j)).sum) ∧
    (UltraPermutationRelationImpl.accumulate_rows accumulators parameters rows
        = UltraPermutationRelationImpl.accumulate_rows accumulators parameters rows' ∧
      ∀ j, UltraPermutationRelationImpl.accumulate_rows accumulators parameters rows j
        = accumulators j
          + (rows.map (fun pair =>
              UltraPermutationRelationImpl.accumulate (fun _ => 0) pair.1 parameters
                pair.2 j)).sum) := by
  refine ⟨⟨?_, fun j => BabyVMRelationImpl.toy_accumulate_rows_eq parameters toy_rows _ j⟩,
    ⟨?_, fun j => UltraPermutationRelationImpl.permutation_accumulate_rows_eq parameters rows _ j⟩⟩
  · funext j
    rw [BabyVMRelationImpl.toy_accumulate_rows_eq, BabyVMRelationImpl.toy_accumulate_rows_eq]
    congr 1
    exact (htoy.map _).sum_eq
  · funext j
    rw [UltraPermutationRelationImpl.permutation_accumulate_rows_eq,
      UltraPermutationRelationImpl.permutation_accumulate_rows_eq]
    congr 1
    exact (hrows.map _).sum_eq

theorem accumulate_rows_row_independent_witness :
    BabyVMRelationImpl.accumulate_rows (![1, 2, 3, 4] : Fin 4 → ℚ) ⟨0, 0, 0, 0, 0, 0, 0, 0⟩
        [(⟨1, 2, 3, 4⟩, 5), (⟨6, 7, 8, 9⟩, 10)]
      = BabyVMRelationImpl.accumulate_rows (![1, 2, 3, 4] : Fin 4 → ℚ) ⟨0, 0, 0, 0, 0, 0, 0, 0⟩
        [(⟨6, 7, 8, 9⟩, 10), (⟨1, 2, 3, 4⟩, 5)] :=
  (accumulate_rows_row_independent (⟨0, 0, 0, 0, 0, 0, 0, 0⟩ : RelationParameters ℚ)
    ![1, 2, 3, 4] [(⟨1, 2, 3, 4⟩, 5), (⟨6, 7, 8, 9⟩, 10)]
    [(⟨6, 7, 8, 9⟩, 10), (⟨1, 2, 3, 4⟩, 5)] (List.Perm.swap _ _ _)
    ![0, 0]
    [(⟨1, 2, 3, 4, 5, 6, 7, 8, 9, 10, 11, 12, 13, 14, 15, 16⟩, 2),
      (⟨16, 15, 14, 13, 12, 11, 10, 9, 8, 7, 6, 5, 4, 3, 2, 1⟩, 3)]
    [(⟨16, 15, 14, 13, 12, 11, 10, 9, 8, 7, 6, 5, 4, 3, 2, 1⟩, 3),
      (⟨1, 2, 3, 4, 5, 6, 7, 8, 9, 10, 11, 12, 13, 14, 15, 16⟩, 2)]
    (List.Perm.swap _ _ _)).1.1

end proof_system

/-! ## The linear branch and the general branch -/

namespace barretenberg
namespace Univariate

variable {Fr : Type}

theorem value_at_extend_to_general_of_lt [CommRing Fr] [Inhabited Fr] {L : Nat} (U : Nat)
    (h : L ≤ U) (Data : BarycentricData Fr) (self : Univariate Fr L) (i : Nat) (hi : i < L) :
    (self.extend_to_general U h Data).value_at i = self.value_at i := by
  unfold extend_to_general
  simp only []
  rw [value_at_forLoop_of_preserved]
  · exact value_at_std_copy self _ i hi (by omega)
  · intro j s h1 _
    exact value_at_extend_body_ne Data self j s i (by omega)

theorem value_at_extend_to_general_of_ge [CommRing Fr] [Inhabited Fr] {L : Nat} (U : Nat)
    (h : L ≤ U) (Data : BarycentricData Fr) (self : Univariate Fr L) (k : Nat) (hk : L ≤ k)
    (hkU : k < U) :
    (self.extend_to_general U h Data).value_at k
      = ((List.range L).map (fun j =>
            self.value_at j * Data.precomputed_denominator_inverses (L * k + j))).sum
          * Data.full_numerator_values k := by
  unfold extend_to_general
  simp only []
  have key := forLoop_invariant
    (fun m (s : Univariate Fr U) => ∀ k, L ≤ k → k < m → k < U → s.value_at k
      = ((List.range L).map (fun j =>
            self.value_at j * Data.precomputed_denominator_inverses (L * k + j))).sum
          * Data.full_numerator_values k) L U (extend_body Data self)
    (Univariate.mk (std_copy self.evaluations (uninit : Univariate Fr U).evaluations)) h
    (fun k h1 h2 _ => by omega)
    (fun i s h1 h2 hp k hk1 hk2 hk3 => by
      by_cases e : k = i
      · subst e
        exact value_at_extend_body_self Data self k s hk3
      · rw [value_at_extend_body_ne Data self i s k e]
        exact hp k hk1 (by omega) hk3)
  exact key k hk hkU hkU

/-- The closed form of the linear branch of `extend_to`. -/
theorem value_at_linear_branch [CommRing Fr] [Inhabited Fr] (U : Nat) (h : 2 ≤ U)
    (Data : BarycentricData Fr) (f : Univariate Fr 2) (k : Nat) (hk : k < U) :
    (f.extend_to U h Data).value_at k
      = f.value_at 0 + (k : Fr) * (f.value_at 1 - f.value_at 0) := by
  rw [extend_to_eq_linear]
  have key := forLoop_invariant
    (fun m (s : Univariate Fr U) => ∀ k, k ≤ m → k < U →
      s.value_at k = f.value_at 0 + (k : Fr) * (f.value_at 1 - f.value_at 0)) 1 (U - 1)
    (fun idx result =>
      result.set_value_at (idx + 1) (result.value_at idx + (f.value_at 1 - f.value_at 0)))
    (Univariate.mk (std_copy f.evaluations (uninit : Univariate Fr U).evaluations))
    (by omega)
    (fun k hk1 hkU => by
      rw [value_at_std_copy f _ k (by omega) hkU]
      rcases Nat.le_one_iff_eq_zero_or_eq_one.mp hk1 with e | e
      · subst e; simp
      · subst e; simp)
    (fun i s h1 h2 hp k hk1 hkU => by
      show (s.set_value_at (i + 1) (s.value_at i + (f.value_at 1 - f.value_at 0))).value_at k
        = _
      rw [value_at_set_value_at]
      by_cases e : k = i + 1
      · subst e
        simp only [hkU, and_self, if_true]
        rw [hp i (le_refl _) (by omega)]
        push_cast
        ring
      · simp only [e, false_and, if_false]
        exact hp k (by omega) hkU)
  exact key k (by omega) hk

/-- C26. The linear special case agrees with the general formula: for `L = 2`, every `U ≥ 2`
and every `f`, over a field in which `0, ..., U - 1` are pairwise distinct, the result of the
recurrence branch of `extend_to` is the univariate that the general barycentric branch
computes for `LENGTH = 2` with the tables of the spec formula. -/
theorem linear_branch_eq_general_branch [Field Fr] [Inhabited Fr] (U : Nat) (h : 2 ≤ U)
    (hdistinct : ∀ a b, a < U → b < U → (a : Fr) = (b : Fr) → a = b)
    (Data : BarycentricData Fr) (f : Univariate Fr 2) :
    f.extend_to U h Data = f.extend_to_general U h (BarycentricData.spec_tables Fr 2) := by
  apply ext_value_at
  intro k hk
  rw [value_at_linear_branch U h Data f k hk]
  by_cases hk2 : k < 2
  · rw [value_at_extend_to_general_of_lt U h _ f k hk2]
    interval_cases k
    · simp
    · simp
  · have hk2' : 2 ≤ k := Nat.le_of_not_lt hk2
    rw [value_at_extend_to_general_of_ge U h _ f k hk2' hk]
    have hspec := spec_tables_extendSpec Fr 2 U
    have hk0 : (k : Fr) ≠ 0 := by
      intro e
      have := hdistinct k 0 hk (by omega) (by simpa using e)
      omega
    have hk1 : (k : Fr) - 1 ≠ 0 := by
      intro e
      have := hdistinct k 1 hk (by omega) (by simpa using sub_eq_zero.mp e)
      omega
    have e0 : (BarycentricData.spec_tables Fr 2).precomputed_denominator_inverses (2 * k + 0)
        = 1 / (lagrange_denominator Fr 2 0 * ((k : Fr) - ((0 : Nat) : Fr))) :=
      hspec.1 k 0 hk2' hk (by decide)
    have e1 : (BarycentricData.spec_tables Fr 2).precomputed_denominator_inverses (2 * k + 1)
        = 1 / (lagrange_denominator Fr 2 1 * ((k : Fr) - ((1 : Nat) : Fr))) :=
      hspec.1 k 1 hk2' hk (by decide)
    have d0 : lagrange_denominator Fr 2 0 = -1 := by
      simp [lagrange_denominator, List.range_succ, List.filter]
    have d1 : lagrange_denominator Fr 2 1 = 1 := by
      simp [lagrange_denominator, List.range_succ, List.filter]
    have en : (BarycentricData.spec_tables Fr 2).full_numerator_values k
        = (k : Fr) * ((k : Fr) - 1) := by
      rw [hspec.2 k hk2' hk]
      simp [full_numerator_value, List.range_succ]
    have hsum : (List.range 2).map (fun j =>
          f.value_at j
            * (BarycentricData.spec_tables Fr 2).precomputed_denominator_inverses (2 * k + j))
        = [f.value_at 0
            * (BarycentricData.spec_tables Fr 2).precomputed_denominator_inverses (2 * k + 0),
           f.value_at 1
            * (BarycentricData.spec_tables Fr 2).precomputed_denominator_inverses
                (2 * k + 1)] := by
      simp [List.range_succ]
    rw [hsum, e0, e1, d0, d1, en]
    simp only [List.sum_cons, List.sum_nil, Nat.cast_zero, Nat.cast_one, sub_zero, add_zero]
    have ha : (1 / (-1 * (k : Fr))) * (k : Fr) = -1 := by
      field_simp
    have hb : (1 / (1 * ((k : Fr) - 1))) * ((k : Fr) - 1) = 1 := by
      field_simp
    linear_combination (-(f.value_at 0 * ((k : Fr) - 1))) * ha - (f.value_at 1 * (k : Fr)) * hb

theorem linear_branch_eq_general_branch_witness :
    (Univariate.mk ![(1 : ℚ), 4]).extend_to 5 (by decide) (BarycentricData.spec_tables ℚ 2)
      = (Univariate.mk ![(1 : ℚ), 4]).extend_to_general 5 (by decide)
          (BarycentricData.spec_tables ℚ 2) :=
  linear_branch_eq_general_branch 5 (by decide) (fun a b _ _ e => Nat.cast_injective e)
    (BarycentricData.spec_tables ℚ 2) (Univariate.mk ![(1 : ℚ), 4])

end Univariate
end barretenberg

/-! ## BabyVM accessors, printing, equality of private call data, the ignored trace -/

namespace proof_system.honk.flavor

/-- C25, statement that fails. In the BabyVM flavor `AllEntities` and `WitnessEntities` name
five cells each while `NUM_ALL_ENTITIES` is 105 and `NUM_WITNESS_ENTITIES` is 76, so that index
5 is below both counts and has no name; `PrecomputedEntities` names no cell while
`NUM_PRECOMPUTED_ENTITIES` is 3; and `q_mul` and `q_add` are not names of
`PrecomputedEntities`. -/
theorem babyvm_accessors_are_not_bijective :
    (BabyVM.AllEntities.accessors.length = 5 ∧ BabyVM.NUM_ALL_ENTITIES = 105 ∧
      5 ∉ BabyVM.AllEntities.accessors.map Prod.snd) ∧
    (BabyVM.WitnessEntities.accessors.length = 5 ∧ BabyVM.NUM_WITNESS_ENTITIES = 76 ∧
      5 ∉ BabyVM.WitnessEntities.accessors.map Prod.snd) ∧
    (BabyVM.PrecomputedEntities.accessors = [] ∧ BabyVM.NUM_PRECOMPUTED_ENTITIES = 3) ∧
    resolve BabyVM.PrecomputedEntities.accessors "q_mul" = none ∧
    resolve BabyVM.PrecomputedEntities.accessors "q_add" = none := by
  decide

/-- C25, amended. In the BabyVM flavor the named accessors `w_l`, `w_r`, `w_o`, `q_mul`, `q_add`
of `WitnessEntities` and of `AllEntities` have pairwise distinct names and resolve to the
pairwise distinct indices 0 to 4, the same in both containers and below the declared counts;
the selectors `q_mul` and `q_add` are declared among the witness entities, at the indices 3
and 4, and `PrecomputedEntities` declares no named accessor. -/
theorem babyvm_name_index_map :
    BabyVM.WitnessEntities.accessors = BabyVM.AllEntities.accessors ∧
    BabyVM.AllEntities.accessors.map Prod.fst = ["w_l", "w_r", "w_o", "q_mul", "q_add"] ∧
    (BabyVM.AllEntities.accessors.map Prod.fst).Nodup ∧
    BabyVM.AllEntities.accessors.map Prod.snd = [0, 1, 2, 3, 4] ∧
    (∀ i ∈ BabyVM.AllEntities.accessors.map Prod.snd,
      i < BabyVM.NUM_WITNESS_ENTITIES ∧ i < BabyVM.NUM_ALL_ENTITIES) ∧
    resolve BabyVM.WitnessEntities.accessors "q_mul" = some 3 ∧
    resolve BabyVM.WitnessEntities.accessors "q_add" = some 4 ∧
    BabyVM.PrecomputedEntities.accessors = [] := by
  decide

end proof_system.honk.flavor

namespace barretenberg

/-- C27 (the source departs from it). For a univariate and for a view of length 1 the loop of
the operator `<<` is not entered: the text written is `[`, the evaluation, a comma and a line
end.  It does not end with `]` and holds one comma where `n - 1` is none. -/
theorem stream_out_length_one {Fr : Type} [Inhabited Fr] (print_element : Fr → String)
    (os : String) (u : Univariate Fr 1) (v : UnivariateView Fr 1) :
    u.stream_out print_element os
        = os ++ "[" ++ print_element (array_read u.evaluations 0) ++ "," ++ "\n" ∧
    v.stream_out print_element os
        = os ++ "[" ++ print_element (array_read v.evaluations 0) ++ "," ++ "\n" := by
  constructor
  · unfold Univariate.stream_out
    simp only []
    rw [forLoop_of_le _ _ _ _ (le_refl 1)]
  · unfold UnivariateView.stream_out
    simp only []
    rw [forLoop_of_le _ _ _ _ (le_refl 1)]

end barretenberg

namespace proof_system
open barretenberg

namespace BabyVMCircuitBuilder

/-- C30. `compute_full_polynomials` ignores the recorded trace: for every list of recorded
operations, and whatever the transcript state and the assignments of its loop are, the
container it returns is the default-constructed one, so two builders with different operation
lists get equal results; `check_circuit()` runs on that container, whose column 0 has size 0. -/
theorem compute_full_polynomials_ignores_operations {FF : Type} [CommRing FF]
    [DecidableEq FF] [Inhabited FF] {NUM_POLYNOMIALS : Nat}
    {TranscriptState RowsState : Type} [Inhabited TranscriptState]
    {NUM_ADDITION NUM_MULTIPLICATION : Nat}
    (BabyVMAdditionRelation : Relation FF NUM_POLYNOMIALS NUM_ADDITION)
    (BabyVMMultiplicationRelation : Relation FF NUM_POLYNOMIALS NUM_MULTIPLICATION)
    (beta gamma beta_sqr beta_cube eccvm_set_permutation_delta : FF)
    (compute_transcript_state : List (baby_vm.VMOperation FF) → Nat → List TranscriptState)
    (get_number_of_muls : Nat) (assign_row : Nat → TranscriptState → RowsState → RowsState)
    (rows : RowsState) (builder builder' : BabyVMCircuitBuilder FF) :
    (compute_full_polynomials compute_transcript_state get_number_of_muls assign_row rows
        builder : Fin NUM_POLYNOMIALS → List FF) = (fun _ => default_polynomial FF) ∧
    (compute_full_polynomials compute_transcript_state get_number_of_muls assign_row rows
        builder : Fin NUM_POLYNOMIALS → List FF)
      = compute_full_polynomials compute_transcript_state get_number_of_muls assign_row rows
          builder' ∧
    (array_read (compute_full_polynomials compute_transcript_state get_number_of_muls
        assign_row rows builder : Fin NUM_POLYNOMIALS → List FF) 0).length = 0 ∧
    check_circuit_of_builder BabyVMAdditionRelation BabyVMMultiplicationRelation beta gamma
        beta_sqr beta_cube eccvm_set_permutation_delta compute_transcript_state
        get_number_of_muls assign_row rows builder
      = check_circuit BabyVMAdditionRelation BabyVMMultiplicationRelation beta gamma beta_sqr
          beta_cube eccvm_set_permutation_delta (fun _ => default_polynomial FF) := by
  refine ⟨rfl, rfl, ?_, rfl⟩
  rw [compute_full_polynomials_eq, array_read_nil_column, List.length_nil]

end BabyVMCircuitBuilder
end proof_system

namespace aztec3.circuits.abis.private_kernel

/-- C28. The equality of `PrivateCallData` skips the proof: the operator `==` returns the
conjunction of the comparisons of `call_stack_item`, `private_call_stack_preimages`, `vk`,
`function_leaf_membership_witness`, `contract_leaf_membership_witness`,
`read_request_membership_witnesses`, `portal_contract_address` and `acir_hash`; replacing the
proof fields of the two values does not change the result, and for two values whose
comparisons of those eight members all hold the result is `true` whatever their proof fields
are. -/
theorem operator_eq_skips_proof {CallStackItem Proof VKPointer FunctionWitness ContractWitness
    ReadRequestWitness Fr : Type} {MAX_PRIVATE_CALL_STACK_LENGTH_PER_CALL
    MAX_READ_REQUESTS_PER_CALL : Nat} [BEq CallStackItem] [BEq VKPointer] [BEq FunctionWitness]
    [BEq ContractWitness] [BEq ReadRequestWitness] [BEq Fr]
    (self other : PrivateCallData CallStackItem Proof VKPointer FunctionWitness ContractWitness
      ReadRequestWitness Fr MAX_PRIVATE_CALL_STACK_LENGTH_PER_CALL MAX_READ_REQUESTS_PER_CALL)
    (proof proof' : Proof) :
    (self.operator_eq other
      = ((self.call_stack_item == other.call_stack_item) &&
          array_eq self.private_call_stack_preimages other.private_call_stack_preimages &&
          (self.vk == other.vk) &&
          (self.function_leaf_membership_witness == other.function_leaf_membership_witness) &&
          (self.contract_leaf_membership_witness == other.contract_leaf_membership_witness) &&
          array_eq self.read_request_membership_witnesses
            other.read_request_membership_witnesses &&
          (self.portal_contract_address == other.portal_contract_address) &&
          (self.acir_hash == other.acir_hash))) ∧
    PrivateCallData.operator_eq { self with proof := proof } { other with proof := proof' }
      = self.operator_eq other ∧
    ((self.call_stack_item == other.call_stack_item) = true →
      array_eq self.private_call_stack_preimages other.private_call_stack_preimages = true →
      (self.vk == other.vk) = true →
      (self.function_leaf_membership_witness == other.function_leaf_membership_witness)
        = true →
      (self.contract_leaf_membership_witness == other.contract_leaf_membership_witness)
        = true →
      array_eq self.read_request_membership_witnesses other.read_request_membership_witnesses
        = true →
      (self.portal_contract_address == other.portal_contract_address) = true →
      (self.acir_hash == other.acir_hash) = true →
      PrivateCallData.operator_eq { self with proof := proof } { other with proof := proof' }
        = true) := by
  refine ⟨rfl, rfl, ?_⟩
  intro h1 h2 h3 h4 h5 h6 h7 h8
  show PrivateCallData.operator_eq self other = true
  unfold PrivateCallData.operator_eq
  rw [h1, h2, h3, h4, h5, h6, h7, h8]
  rfl

theorem operator_eq_skips_proof_witness :
    PrivateCallData.operator_eq
      ({ call_stack_item := 1, private_call_stack_preimages := ![2, 3], proof := 10, vk := 4,
         function_leaf_membership_witness := 5, contract_leaf_membership_witness := 6,
         read_request_membership_witnesses := ![7, 8], portal_contract_address := 9,
         acir_hash := 11 } : PrivateCallData Nat Nat Nat Nat Nat Nat Nat 2 2)
      { call_stack_item := 1, private_call_stack_preimages := ![2, 3], proof := 99, vk := 4,
        function_leaf_membership_witness := 5, contract_leaf_membership_witness := 6,
        read_request_membership_witnesses := ![7, 8], portal_contract_address := 9,
        acir_hash := 11 } = true :=
  (operator_eq_skips_proof
    ({ call_stack_item := 1, private_call_stack_preimages := ![2, 3], proof := 0, vk := 4,
       function_leaf_membership_witness := 5, contract_leaf_membership_witness := 6,
       read_request_membership_witnesses := ![7, 8], portal_contract_address := 9,
       acir_hash := 11 } : PrivateCallData Nat Nat Nat Nat Nat Nat Nat 2 2)
    { call_stack_item := 1, private_call_stack_preimages := ![2, 3], proof := 0, vk := 4,
      function_leaf_membership_witness := 5, contract_leaf_membership_witness := 6,
      read_request_membership_witnesses := ![7, 8], portal_contract_address := 9,
      acir_hash := 11 } 10 99).2.2 (by decide) (by decide) (by decide) (by decide) (by decide)
    (by decide) (by decide) (by decide)

end aztec3.circuits.abis.private_kernel

/-! ## Linearity of `extend_to` -/

namespace barretenberg
namespace Univariate

variable {Fr : Type}

theorem value_at_add_eq [CommRing Fr] [Inhabited Fr] {n : Nat} (a b : Univariate Fr n) (i : Nat)
    (hi : i < n) : (a.add b).value_at i = a.value_at i + b.value_at i :=
  value_at_add_assign a b i hi

theorem value_at_mul_scalar_eq [CommRing Fr] [Inhabited Fr] {n : Nat} (a : Univariate Fr n)
    (c : Fr) (i : Nat) (hi : i < n) : (a.mul_scalar c).value_at i = a.value_at i * c :=
  value_at_mul_assign_scalar a c i hi

theorem value_at_mk_zero [CommRing Fr] [Inhabited Fr] {n : Nat} (i : Nat) (hi : i < n) :
    (Univariate.mk (fun _ => 0) : Univariate Fr n).value_at i = 0 := by
  simp [value_at, array_read, hi]

/-- The value of an extension at any cell, in either branch, as a function of the values of the
original that is additive and homogeneous. -/
theorem value_at_extend_to_add [CommRing Fr] [Inhabited Fr] {L : Nat} (U : Nat) (h : L ≤ U)
    (Data : BarycentricData Fr) (a b : Univariate Fr L) (k : Nat) (hk : k < U) :
    ((a.add b).extend_to U h Data).value_at k
      = (a.extend_to U h Data).value_at k + (b.extend_to U h Data).value_at k := by
  by_cases hkL : k < L
  · rw [value_at_extend_to_of_lt U h Data _ k hkL, value_at_extend_to_of_lt U h Data _ k hkL,
      value_at_extend_to_of_lt U h Data _ k hkL, value_at_add_eq a b k hkL]
  · have hLk : L ≤ k := Nat.le_of_not_lt hkL
    by_cases hL : L = 2
    · subst hL
      rw [value_at_linear_branch U h Data _ k hk, value_at_linear_branch U h Data _ k hk,
        value_at_linear_branch U h Data _ k hk, value_at_add_eq a b 0 (by decide),
        value_at_add_eq a b 1 (by decide)]
      ring
    · rw [value_at_extend_to_of_ge U h Data _ hL k hLk hk,
        value_at_extend_to_of_ge U h Data _ hL k hLk hk,
        value_at_extend_to_of_ge U h Data _ hL k hLk hk, ← add_mul, ← List.sum_map_add]
      congr 2
      apply List.map_congr_left
      intro j hj
      rw [value_at_add_eq a b j (List.mem_range.mp hj), add_mul]

theorem value_at_extend_to_mul_scalar [CommRing Fr] [Inhabited Fr] {L : Nat} (U : Nat)
    (h : L ≤ U) (Data : BarycentricData Fr) (a : Univariate Fr L) (c : Fr) (k : Nat)
    (hk : k < U) :
    ((a.mul_scalar c).extend_to U h Data).value_at k
      = (a.extend_to U h Data).value_at k * c := by
  by_cases hkL : k < L
  · rw [value_at_extend_to_of_lt U h Data _ k hkL, value_at_extend_to_of_lt U h Data _ k hkL,
      value_at_mul_scalar_eq a c k hkL]
  · have hLk : L ≤ k := Nat.le_of_not_lt hkL
    by_cases hL : L = 2
    · subst hL
      rw [value_at_linear_branch U h Data _ k hk, value_at_linear_branch U h Data _ k hk,
        value_at_mul_scalar_eq a c 0 (by decide), value_at_mul_scalar_eq a c 1 (by decide)]
      ring
    · rw [value_at_extend_to_of_ge U h Data _ hL k hLk hk,
        value_at_extend_to_of_ge U h Data _ hL k hLk hk]
      have hs : ((List.range L).map (fun j =>
            (a.mul_scalar c).value_at j * Data.precomputed_denominator_inverses (L * k + j))).sum
          = ((List.range L).map (fun j =>
            a.value_at j * Data.precomputed_denominator_inverses (L * k + j))).sum * c := by
        rw [← List.sum_map_mul_right]
        congr 1
        apply List.map_congr_left
        intro j hj
        rw [value_at_mul_scalar_eq a c j (List.mem_range.mp hj)]
        ring
      rw [hs]
      ring

theorem value_at_extend_to_zero [CommRing Fr] [Inhabited Fr] {L : Nat} (U : Nat) (h : L ≤ U)
    (Data : BarycentricData Fr) (k : Nat) (hk : k < U) :
    ((Univariate.mk (fun _ => 0) : Univariate Fr L).extend_to U h Data).value_at k = 0 := by
  by_cases hkL : k < L
  · rw [value_at_extend_to_of_lt U h Data _ k hkL, value_at_mk_zero k hkL]
  · have hLk : L ≤ k := Nat.le_of_not_lt hkL
    by_cases hL : L = 2
    · subst hL
      rw [value_at_linear_branch U h Data _ k hk, value_at_mk_zero 0 (by decide),
        value_at_mk_zero 1 (by decide)]
      ring
    · rw [value_at_extend_to_of_ge U h Data _ hL k hLk hk]
      have hz : (List.range L).map (fun j =>
            (Univariate.mk (fun _ => 0) : Univariate Fr L).value_at j
              * Data.precomputed_denominator_inverses (L * k + j))
          = (List.range L).map (fun _ => (0 : Fr)) := by
        apply List.map_congr_left
        intro j hj
        rw [value_at_mk_zero j (List.mem_range.mp hj), zero_mul]
      rw [hz]
      simp

/-- C34. `extend_to` is linear: for every `L`, every `U ≥ L`, all univariates `a`, `b` of
length `L` and every scalar `c`, whatever the tables of `BarycentricData` hold,
`(a + b).extend_to<U>() = a.extend_to<U>() + b.extend_to<U>()` and
`(a * c).extend_to<U>() = a.extend_to<U>() * c`, and the univariate whose `L` evaluations are
0 extends to the univariate whose `U` evaluations are 0. -/
theorem extend_to_is_linear [CommRing Fr] [Inhabited Fr] {L : Nat} (U : Nat) (h : L ≤ U)
    (Data : BarycentricData Fr) (a b : Univariate Fr L) (c : Fr) :
    (a.add b).extend_to U h Data = (a.extend_to U h Data).add (b.extend_to U h Data) ∧
    (a.mul_scalar c).extend_to U h Data = (a.extend_to U h Data).mul_scalar c ∧
    (Univariate.mk (fun _ => 0) : Univariate Fr L).extend_to U h Data
      = Univariate.mk (fun _ => 0) := by
  refine ⟨?_, ?_, ?_⟩
  · apply ext_value_at
    intro k hk
    rw [value_at_extend_to_add U h Data a b k hk, value_at_add_eq _ _ k hk]
  · apply ext_value_at
    intro k hk
    rw [value_at_extend_to_mul_scalar U h Data a c k hk, value_at_mul_scalar_eq _ _ k hk]
  · apply ext_value_at
    intro k hk
    rw [value_at_extend_to_zero U h Data k hk, value_at_mk_zero k hk]

theorem extend_to_is_linear_witness :
    ((Univariate.mk ![(1 : ℚ), 4, 9]).add (Univariate.mk ![2, 0, 5])).extend_to 5 (by decide)
        (BarycentricData.spec_tables ℚ 3)
      = ((Univariate.mk ![(1 : ℚ), 4, 9]).extend_to 5 (by decide)
            (BarycentricData.spec_tables ℚ 3)).add
          ((Univariate.mk ![(2 : ℚ), 0, 5]).extend_to 5 (by decide)
            (BarycentricData.spec_tables ℚ 3)) :=
  (extend_to_is_linear 5 (by decide) (BarycentricData.spec_tables ℚ 3)
    (Univariate.mk ![(1 : ℚ), 4, 9]) (Univariate.mk ![2, 0, 5]) 0).1

end Univariate
end barretenberg

/-! ## Composition of extensions, and `extend_to` against `evaluate` -/

namespace barretenberg
namespace Univariate

variable {Fr : Type}

open Polynomial in
/-- The values of a univariate are the values of a polynomial of degree below its length. -/
theorem exists_interpolant [Field Fr] [Inhabited Fr] {L : Nat}
    (hinj : ∀ a b, a < L → b < L → (a : Fr) = (b : Fr) → a = b) (f : Univariate Fr L) :
    ∃ p : Polynomial Fr, p.degree < (L : WithBot ℕ) ∧
      ∀ i, i < L → f.value_at i = p.eval (i : Fr) := by
  classical
  have hvs : Set.InjOn (fun i : ℕ => (i : Fr)) (Finset.range L : Finset ℕ) := by
    intro a ha b hb hab
    exact hinj a b (by simpa using ha) (by simpa using hb) hab
  refine ⟨Lagrange.interpolate (Finset.range L) (fun i : ℕ => (i : Fr))
    (fun i => f.value_at i), ?_, fun i hi => ?_⟩
  · have := Lagrange.degree_interpolate_lt (fun i => f.value_at i) hvs
    simpa using this
  · exact (Lagrange.eval_interpolate_at_node (fun i => f.value_at i) hvs
      (Finset.mem_range.mpr hi)).symm

open Polynomial in
/-- Both branches of `extend_to` extend the values of a polynomial of degree below `L` by the
values of that polynomial. -/
theorem value_at_extend_to_of_polynomial [Field Fr] [Inhabited Fr] {L : Nat} (U : Nat)
    (h : L ≤ U) (Data : BarycentricData Fr) (hData : Data.ExtendSpec L U)
    (hdistinct : ∀ a b, a < U → b < U → (a : Fr) = (b : Fr) → a = b)
    (p : Polynomial Fr) (hdeg : p.degree < (L : WithBot ℕ)) (f : Univariate Fr L)
    (hf : ∀ i, i < L → f.value_at i = p.eval (i : Fr)) (k : Nat) (hk : k < U) :
    (f.extend_to U h Data).value_at k = p.eval (k : Fr) := by
  by_cases hkL : k < L
  · rw [value_at_extend_to_of_lt U h Data f k hkL, hf k hkL]
  · have hLk : L ≤ k := Nat.le_of_not_lt hkL
    by_cases hL : L = 2
    · subst hL
      rw [value_at_linear_branch U h Data f k hk, hf 0 (by decide), hf 1 (by decide)]
      have hle : p.degree ≤ 1 := by
        rw [Polynomial.degree_le_iff_coeff_zero]
        intro m hm
        have h2 : ((2 : ℕ) : WithBot ℕ) ≤ (m : WithBot ℕ) := by
          have : (1 : WithBot ℕ) < (m : WithBot ℕ) := hm
          exact_mod_cast this
        exact (Polynomial.degree_lt_iff_coeff_zero p 2).mp hdeg m (by exact_mod_cast h2)
      have hp := Polynomial.eq_X_add_C_of_degree_le_one hle
      have hev : ∀ x : Fr, p.eval x = p.coeff 1 * x + p.coeff 0 := by
        intro x
        conv_lhs => rw [hp]
        simp
      rw [hev, hev, hev]
      push_cast
      ring
    · rw [value_at_extend_to_of_ge U h Data f hL k hLk hk, hData.2 k hLk hk]
      have hterms : (List.range L).map (fun j =>
            f.value_at j * Data.precomputed_denominator_inverses (L * k + j))
          = (List.range L).map (fun j : Nat =>
            p.eval (j : Fr) * (1 / (lagrange_denominator Fr L j * ((k : Fr) - (j : Fr))))) := by
        apply List.map_congr_left
        intro j hj
        have hj' : j < L := List.mem_range.mp hj
        rw [hf j hj', hData.1 k j hLk hk hj']
      rw [hterms]
      exact barycentric_formula L
        (fun a b ha hb => hdistinct a b (by omega) (by omega)) p hdeg (k : Fr)
        (fun i hi e => by
          have := hdistinct k i hk (by omega) e
          omega)

/-- C35. Extension composes: over a field in which `0, ..., U2 - 1` are pairwise distinct and
with tables that hold the values of the spec formula, for all `L ≤ U1 ≤ U2` and every `f` of
length `L`, `f.extend_to<U1>().extend_to<U2>() = f.extend_to<U2>()`; and
`f.extend_to<L>() = f` whatever the tables hold. -/
theorem extend_to_composes [Field Fr] [Inhabited Fr] {L : Nat} (U1 U2 : Nat) (h1 : L ≤ U1)
    (h12 : U1 ≤ U2) (Data1 Data12 Data2 : BarycentricData Fr)
    (hData1 : Data1.ExtendSpec L U1) (hData12 : Data12.ExtendSpec U1 U2)
    (hData2 : Data2.ExtendSpec L U2)
    (hdistinct : ∀ a b, a < U2 → b < U2 → (a : Fr) = (b : Fr) → a = b)
    (f : Univariate Fr L) :
    (f.extend_to U1 h1 Data1).extend_to U2 h12 Data12
      = f.extend_to U2 (le_trans h1 h12) Data2 ∧
    ∀ Data : BarycentricData Fr, f.extend_to L (le_refl L) Data = f := by
  constructor
  · obtain ⟨p, hdeg, hf⟩ := exists_interpolant
      (fun a b ha hb => hdistinct a b (by omega) (by omega)) f
    have hdeg1 : p.degree < (U1 : WithBot ℕ) :=
      lt_of_lt_of_le hdeg (by exact_mod_cast h1)
    have hg : ∀ i, i < U1 → (f.extend_to U1 h1 Data1).value_at i = p.eval (i : Fr) :=
      fun i hi => value_at_extend_to_of_polynomial U1 h1 Data1 hData1
        (fun a b ha hb => hdistinct a b (by omega) (by omega)) p hdeg f hf i hi
    apply ext_value_at
    intro k hk
    rw [value_at_extend_to_of_polynomial U2 h12 Data12 hData12 hdistinct p hdeg1 _ hg k hk,
      value_at_extend_to_of_polynomial U2 (le_trans h1 h12) Data2 hData2 hdistinct p hdeg f hf
        k hk]
  · intro Data
    apply ext_value_at
    intro k hk
    exact value_at_extend_to_of_lt L (le_refl L) Data f k hk

theorem extend_to_composes_witness :
    ((Univariate.mk ![(1 : ℚ), 4, 9]).extend_to 4 (by decide)
        (BarycentricData.spec_tables ℚ 3)).extend_to 6 (by decide)
        (BarycentricData.spec_tables ℚ 4)
      = (Univariate.mk ![(1 : ℚ), 4, 9]).extend_to 6 (by decide)
          (BarycentricData.spec_tables ℚ 3) :=
  (extend_to_composes 4 6 (by decide) (by decide) (BarycentricData.spec_tables ℚ 3)
    (BarycentricData.spec_tables ℚ 4) (BarycentricData.spec_tables ℚ 3)
    (spec_tables_extendSpec ℚ 3 4) (spec_tables_extendSpec ℚ 4 6) (spec_tables_extendSpec ℚ 3 6)
    (fun a b _ _ e => Nat.cast_injective e) (Univariate.mk ![(1 : ℚ), 4, 9])).1

/-- C36. `extend_to` and `evaluate` agree at integer points: over a field in which
`0, ..., U - 1` are pairwise distinct and with tables that hold the values of the spec
formula, for every `f` of length `L`, every `U > L` and every integer `k` with `L ≤ k < U`,
`f.extend_to<U>().value_at(k) = f.evaluate(k)`. -/
theorem extend_to_agrees_with_evaluate [Field Fr] [Inhabited Fr] {L : Nat} (U : Nat)
    (h : L ≤ U) (Data DataL : BarycentricData Fr) (hData : Data.ExtendSpec L U)
    (hDataL : DataL.EvaluateSpec L)
    (hdistinct : ∀ a b, a < U → b < U → (a : Fr) = (b : Fr) → a = b)
    (f : Univariate Fr L) (k : Nat) (hLk : L ≤ k) (hk : k < U) :
    (f.extend_to U h Data).value_at k = f.evaluate DataL (k : Fr) := by
  have hinj : ∀ a b, a < L → b < L → (a : Fr) = (b : Fr) → a = b :=
    fun a b ha hb => hdistinct a b (by omega) (by omega)
  obtain ⟨p, hdeg, hf⟩ := exists_interpolant hinj f
  rw [value_at_extend_to_of_polynomial U h Data hData hdistinct p hdeg f hf k hk, evaluate_eq]
  have hterms : (List.range L).map (fun i : Nat => f.value_at i
        * (1 / (DataL.lagrange_denominators i * ((k : Fr) - DataL.big_domain i))))
      = (List.range L).map (fun j : Nat =>
        p.eval (j : Fr) * (1 / (lagrange_denominator Fr L j * ((k : Fr) - (j : Fr))))) := by
    apply List.map_congr_left
    intro j hj
    have hj' : j < L := List.mem_range.mp hj
    rw [hf j hj', hDataL.1 j hj', hDataL.2 j hj']
  rw [hterms]
  exact (barycentric_formula L hinj p hdeg (k : Fr)
    (fun i hi e => by
      have := hdistinct k i hk (by omega) e
      omega)).symm

theorem extend_to_agrees_with_evaluate_witness :
    ((Univariate.mk ![(1 : ℚ), 4, 9]).extend_to 5 (by decide)
        (BarycentricData.spec_tables ℚ 3)).value_at 4
      = (Univariate.mk ![(1 : ℚ), 4, 9]).evaluate (BarycentricData.spec_tables ℚ 3)
          ((4 : Nat) : ℚ) :=
  extend_to_agrees_with_evaluate 5 (by decide) (BarycentricData.spec_tables ℚ 3)
    (BarycentricData.spec_tables ℚ 3) (spec_tables_extendSpec ℚ 3 5)
    (spec_tables_evaluateSpec ℚ 3) (fun a b _ _ e => Nat.cast_injective e)
    (Univariate.mk ![(1 : ℚ), 4, 9]) 4 (by decide) (by decide)

end Univariate
end barretenberg

/-! ## Bounds of the loop of the linear branch -/

namespace barretenberg

theorem size_t_sub_of_le (a b : Nat) (hb : b ≤ a) (ha : a < 2 ^ 64) : size_t_sub a b = a - b := by
  unfold size_t_sub
  rw [Nat.mod_eq_of_lt ha, Nat.mod_eq_of_lt (lt_of_le_of_lt hb ha)]
  have e : a + 2 ^ 64 - b = (a - b) + 2 ^ 64 := by omega
  rw [e, Nat.add_mod_right, Nat.mod_eq_of_lt (by omega)]

theorem forLoop_access_log (m : Nat) :
    forLoop 1 (m + 1) (fun idx (accesses : List (Nat × Nat)) => accesses ++ [(idx, idx + 1)]) []
      = (List.range m).map (fun t => (t + 1, t + 2)) := by
  induction m with
  | zero => rfl
  | succ m ih =>
    rw [forLoop_succ _ _ _ _ (by omega), ih, List.range_succ, List.map_append]
    rfl

namespace Univariate

variable {Fr : Type}

/-- C37. The loop of the `L = 2` branch stays in bounds: for every `U ≥ 2` the unsigned bound
`U - 1` does not wrap around, the loop runs `U - 2` times, step `t` (counted from 0) reads
cell `t + 1` and writes cell `t + 2`, every written index is at least 2 and at most `U - 1`,
and the cell read is cell 1, which the copy defined, or the cell that the step before wrote.
The branch of `extend_to` is that loop. -/
theorem linear_loop_in_bounds [CommRing Fr] [Inhabited Fr] (U : Nat) (h : 2 ≤ U)
    (hU : U < 2 ^ 64) (Data : BarycentricData Fr) (f : Univariate Fr 2) :
    size_t_sub U 1 = U - 1 ∧
    (extend_to_linear_accesses U).length = U - 2 ∧
    extend_to_linear_accesses U = (List.range (U - 2)).map (fun t => (t + 1, t + 2)) ∧
    (∀ t, t < U - 2 →
      (extend_to_linear_accesses U).get? t = some (t + 1, t + 2) ∧
      2 ≤ t + 2 ∧ t + 2 ≤ U - 1 ∧ t + 2 < U ∧
      (t + 1 = 1 ∨ (extend_to_linear_accesses U).get? (t - 1) = some (t, t + 1))) ∧
    f.extend_to U h Data
      = forLoop 1 (size_t_sub U 1)
          (fun idx result =>
            result.set_value_at (idx + 1)
              (result.value_at idx + (f.value_at 1 - f.value_at 0)))
          (Univariate.mk (std_copy f.evaluations (uninit : Univariate Fr U).evaluations)) := by
  have hsub : size_t_sub U 1 = U - 1 := size_t_sub_of_le U 1 (by omega) hU
  have hlog : extend_to_linear_accesses U
      = (List.range (U - 2)).map (fun t => (t + 1, t + 2)) := by
    unfold extend_to_linear_accesses
    rw [hsub]
    have e : U - 1 = (U - 2) + 1 := by omega
    rw [e]
    exact forLoop_access_log (U - 2)
  have hget : ∀ t, t < U - 2 → (extend_to_linear_accesses U).get? t = some (t + 1, t + 2) := by
    intro t ht
    rw [hlog, List.get?_eq_getElem?, List.getElem?_map, List.getElem?_range ht]
    rfl
  refine ⟨hsub, by rw [hlog, List.length_map, List.length_range], hlog, fun t ht => ?_, ?_⟩
  · refine ⟨hget t ht, by omega, by omega, by omega, ?_⟩
    rcases Nat.eq_zero_or_pos t with e | e
    · left; omega
    · right
      have := hget (t - 1) (by omega)
      have e1 : t - 1 + 1 = t := by omega
      have e2 : t - 1 + 2 = t + 1 := by omega
      rw [e1, e2] at this
      exact this
  · rw [hsub]
    exact extend_to_eq_linear U h Data f

theorem linear_loop_in_bounds_witness :
    size_t_sub 5 1 = 5 - 1 ∧
    (extend_to_linear_accesses 5).length = 5 - 2 ∧
    extend_to_linear_accesses 5 = (List.range (5 - 2)).map (fun t => (t + 1, t + 2)) ∧
    extend_to_linear_accesses 5 = [(1, 2), (2, 3), (3, 4)] :=
  have w := linear_loop_in_bounds 5 (by decide) (by norm_num) (BarycentricData.spec_tables ℚ 2)
    (Univariate.mk ![(1 : ℚ), 4])
  ⟨w.1, w.2.1, w.2.2.1, by decide⟩

end Univariate
end barretenberg

/-! ## The operation log of the builder -/

namespace proof_system
namespace BabyVMCircuitBuilder

theorem vm_operations_run {FF : Type} [CommRing FF] (call : Call FF)
    (self : BabyVMCircuitBuilder FF) :
    (call.run self).vm_operations
      = self.vm_operations ++ (call.run { vm_operations := [] }).vm_operations := by
  cases call <;> simp [Call.run, add_accumulate, mul_accumulate, eq_and_reset]

theorem run_calls_append {FF : Type} [CommRing FF] (calls more : List (Call FF))
    (self : BabyVMCircuitBuilder FF) :
    run_calls (calls ++ more) self = run_calls more (run_calls calls self) := by
  unfold run_calls
  rw [List.foldl_append]

theorem vm_operations_run_calls {FF : Type} [CommRing FF] (calls : List (Call FF))
    (self : BabyVMCircuitBuilder FF) :
    (run_calls calls self).vm_operations
      = self.vm_operations ++ (run_calls calls { vm_operations := [] }).vm_operations := by
  induction calls generalizing self with
  | nil => simp [run_calls]
  | cons c cs ih =>
    have e : ∀ b : BabyVMCircuitBuilder FF, run_calls (c :: cs) b = run_calls cs (c.run b) :=
      fun _ => rfl
    rw [e, e, ih (c.run self), ih (c.run { vm_operations := [] }), vm_operations_run c self,
      List.append_assoc]

theorem vm_operations_run_calls_map {FF : Type} [CommRing FF] (calls : List (Call FF)) :
    (run_calls calls { vm_operations := [] }).vm_operations.map
        (fun op => (op.add, op.mul, op.eq, op.reset, op.base_point, op.mul_scalar_full))
      = calls.map (fun call =>
          match call with
          | Call.add_accumulate to_add => (true, false, false, false, to_add, 0)
          | Call.mul_accumulate to_mul scalar => (false, true, false, false, to_mul, scalar)
          | Call.eq_and_reset expected => (false, false, true, true, expected, 0)) := by
  induction calls with
  | nil => rfl
  | cons c cs ih =>
    have e : run_calls (c :: cs) ({ vm_operations := [] } : BabyVMCircuitBuilder FF)
        = run_calls cs (c.run { vm_operations := [] }) := rfl
    rw [e, vm_operations_run_calls, List.map_append, ih, List.map_cons]
    cases c <;> rfl

/-- C31. The operation log of the builder: starting from an empty builder, after any sequence
of calls of `add_accumulate`, `mul_accumulate` and `eq_and_reset`, `vm_operations` has one
entry per call, in the order of the calls: the entry of a call has `add`, `mul`, `eq` set for
`add_accumulate`, `mul_accumulate`, `eq_and_reset` respectively and the other two cleared,
`reset` equal to `eq`, `base_point` equal to the first argument of the call, and
`mul_scalar_full` equal to the scalar for `mul_accumulate` and to 0 otherwise.  Every entry has
exactly one of `add`, `mul`, `eq` set, a call appends one entry and leaves the earlier entries
unchanged, and so do further calls. -/
theorem operation_log_invariant {FF : Type} [CommRing FF] (calls more : List (Call FF)) :
    (run_calls calls { vm_operations := [] }).vm_operations.map
        (fun op => (op.add, op.mul, op.eq, op.reset, op.base_point, op.mul_scalar_full))
      = calls.map (fun call =>
          match call with
          | Call.add_accumulate to_add => (true, false, false, false, to_add, 0)
          | Call.mul_accumulate to_mul scalar => (false, true, false, false, to_mul, scalar)
          | Call.eq_and_reset expected => (false, false, true, true, expected, 0)) ∧
    (run_calls calls { vm_operations := [] }).vm_operations.length = calls.length ∧
    (∀ op ∈ (run_calls calls { vm_operations := [] }).vm_operations,
      ((op.add && !op.mul && !op.eq) || (!op.add && op.mul && !op.eq)
        || (!op.add && !op.mul && op.eq)) = true ∧ op.reset = op.eq) ∧
    (∀ (builder : BabyVMCircuitBuilder FF) (call : Call FF),
      ∃ op, (call.run builder).vm_operations = builder.vm_operations ++ [op]) ∧
    (run_calls (calls ++ more) { vm_operations := [] }).vm_operations
      = (run_calls calls { vm_operations := [] }).vm_operations
        ++ (run_calls more { vm_operations := [] }).vm_operations := by
  have hmap := vm_operations_run_calls_map calls
  refine ⟨hmap, ?_, ?_, ?_, ?_⟩
  · have := congrArg List.length hmap
    simpa using this
  · intro op hop
    have hmem := List.mem_map_of_mem
      (fun op : baby_vm.VMOperation FF =>
        (op.add, op.mul, op.eq, op.reset, op.base_point, op.mul_scalar_full)) hop
    rw [hmap, List.mem_map] at hmem
    obtain ⟨c, _, hc⟩ := hmem
    cases c <;> simp only [Prod.mk.injEq] at hc <;>
      obtain ⟨h1, h2, h3, h4, _, _⟩ := hc <;> rw [← h1, ← h2, ← h3, ← h4] <;> exact ⟨rfl, rfl⟩
  · intro builder call
    cases call
    · exact ⟨_, rfl⟩
    · exact ⟨_, rfl⟩
    · exact ⟨_, rfl⟩
  · rw [run_calls_append, vm_operations_run_calls]

theorem operation_log_invariant_witness :
    ({ add := false, mul := true, eq := false, reset := false, base_point := 2,
       mul_scalar_full := 5 } : baby_vm.VMOperation ℤ)
      ∈ (run_calls [Call.add_accumulate (3 : ℤ), Call.mul_accumulate 2 5, Call.eq_and_reset 7]
          { vm_operations := [] }).vm_operations ∧
    ({ add := false, mul := true, eq := false, reset := false, base_point := 2,
       mul_scalar_full := 5 } : baby_vm.VMOperation ℤ).reset
      = ({ add := false, mul := true, eq := false, reset := false, base_point := 2,
           mul_scalar_full := 5 } : baby_vm.VMOperation ℤ).eq :=
  ⟨by simp [run_calls, Call.run, add_accumulate, mul_accumulate, eq_and_reset],
    ((operation_log_invariant
      [Call.add_accumulate (3 : ℤ), Call.mul_accumulate 2 5, Call.eq_and_reset 7] []).2.2.1
      { add := false, mul := true, eq := false, reset := false, base_point := 2,
        mul_scalar_full := 5 }
      (by simp [run_calls, Call.run, add_accumulate, mul_accumulate, eq_and_reset])).2⟩

end BabyVMCircuitBuilder
end proof_system

/-! ## The subgroup size -/

namespace proof_system
namespace BabyVMCircuitBuilder

theorem shift_left_one (s : Nat) (hs : s < 64) : shift_left 1 s = some (2 ^ s) := by
  unfold shift_left
  rw [if_pos hs, one_mul, Nat.mod_eq_of_lt (Nat.pow_lt_pow_right (by decide) hs)]

/-- C38. The subgroup size is the next power of two: taking `get_msb64(n)` to be
`floor(log2 n)`, for every `num_rows` with `1 ≤ num_rows ≤ 2^63` the call
`get_circuit_subgroup_size(num_rows)` returns a power of two `r` with
`num_rows ≤ r < 2 * num_rows`, which is the least power of two that is at least `num_rows`, and
`r = num_rows` exactly when `num_rows` is a power of two. -/
theorem get_circuit_subgroup_size_next_power_of_two (get_msb64 : Nat → Nat) (num_rows : Nat)
    (hmsb : get_msb64 num_rows = Nat.log 2 num_rows) (h1 : 1 ≤ num_rows)
    (h2 : num_rows ≤ 2 ^ 63) :
    ∃ r, get_circuit_subgroup_size get_msb64 num_rows = some r ∧
      (∃ e, r = 2 ^ e) ∧ num_rows ≤ r ∧ r < 2 * num_rows ∧
      (∀ e, num_rows ≤ 2 ^ e → r ≤ 2 ^ e) ∧
      (r = num_rows ↔ ∃ e, num_rows = 2 ^ e) := by
  have hne : num_rows ≠ 0 := by omega
  have hlo : 2 ^ Nat.log 2 num_rows ≤ num_rows := Nat.pow_log_le_self 2 hne
  have hhi : num_rows < 2 ^ (Nat.log 2 num_rows + 1) :=
    Nat.lt_pow_succ_log_self (by decide) num_rows
  have he : Nat.log 2 num_rows ≤ 63 := by
    by_contra hc
    have h64 : 64 ≤ Nat.log 2 num_rows := by omega
    have : 2 ^ 64 ≤ 2 ^ Nat.log 2 num_rows := Nat.pow_le_pow_right (by decide) h64
    omega
  have hmod : Nat.log 2 num_rows % 2 ^ 64 = Nat.log 2 num_rows :=
    Nat.mod_eq_of_lt (by omega)
  have hleast : ∀ e, num_rows ≤ 2 ^ e → 2 ^ Nat.log 2 num_rows ≤ 2 ^ e := fun e hle =>
    le_trans hlo hle
  unfold get_circuit_subgroup_size
  simp only [hmsb, hmod]
  rw [shift_left_one _ (by omega), Option.some_bind]
  by_cases hp : 2 ^ Nat.log 2 num_rows = num_rows
  · rw [if_pos hp, Nat.add_zero, hmod, shift_left_one _ (by omega)]
    refine ⟨_, rfl, ⟨_, rfl⟩, le_of_eq hp.symm, by omega, hleast, ?_⟩
    exact ⟨fun _ => ⟨_, hp.symm⟩, fun _ => hp⟩
  · rw [if_neg hp]
    have hlt : 2 ^ Nat.log 2 num_rows < num_rows := lt_of_le_of_ne hlo hp
    have he62 : Nat.log 2 num_rows ≤ 62 := by
      by_contra hc
      have h63 : Nat.log 2 num_rows = 63 := by omega
      rw [h63] at hlt
      omega
    have hmod1 : (Nat.log 2 num_rows + 1) % 2 ^ 64 = Nat.log 2 num_rows + 1 :=
      Nat.mod_eq_of_lt (by omega)
    rw [hmod1, shift_left_one _ (by omega)]
    have hsucc : 2 ^ (Nat.log 2 num_rows + 1) = 2 * 2 ^ Nat.log 2 num_rows := by
      rw [pow_succ, mul_comm]
    refine ⟨_, rfl, ⟨_, rfl⟩, le_of_lt hhi, by omega, ?_, ?_⟩
    · intro e hle
      have hlte : Nat.log 2 num_rows < e := by
        by_contra hc
        have : 2 ^ e ≤ 2 ^ Nat.log 2 num_rows :=
          Nat.pow_le_pow_right (by decide) (Nat.le_of_not_lt hc)
        omega
      exact Nat.pow_le_pow_right (by decide) hlte
    · constructor
      · intro h
        omega
      · rintro ⟨e, hn⟩
        exfalso
        apply hp
        rw [hn, Nat.log_pow (by decide)]

theorem get_circuit_subgroup_size_next_power_of_two_witness :
    get_circuit_subgroup_size (Nat.log 2) 5 = some 8 ∧
    ∃ r, get_circuit_subgroup_size (Nat.log 2) 5 = some r ∧
      (∃ e, r = 2 ^ e) ∧ 5 ≤ r ∧ r < 2 * 5 ∧
      (∀ e, 5 ≤ 2 ^ e → r ≤ 2 ^ e) ∧
      (r = 5 ↔ ∃ e, 5 = 2 ^ e) :=
  ⟨by
      have h : Nat.log 2 5 = 2 := by
        rw [Nat.log_eq_iff (by decide)]
        decide
      simp [get_circuit_subgroup_size, shift_left, h],
    get_circuit_subgroup_size_next_power_of_two (Nat.log 2) 5 rfl (by decide) (by norm_num)⟩

end BabyVMCircuitBuilder
end proof_system

/-! ## The commitments of the verifier -/

namespace proof_system.honk.flavor
open barretenberg

/-- A sequence of assignments by name performs, in order, the writes of the pairs of indices
that the names resolve to. -/
theorem foldl_assign_by_name {T : Type} [Inhabited T] {N M : Nat}
    (target_accessors source_accessors : List (String × Nat)) (source : Fin M → T)
    (names : List String) (data : Fin N → T) :
    names.foldl (assign_by_name target_accessors source_accessors source) data
      = (names.filterMap (fun name =>
            match resolve target_accessors name, resolve source_accessors name with
            | some i, some j => some (i, j)
            | _, _ => none)).foldl
          (fun data pair => array_write data pair.1 (array_read source pair.2)) data := by
  induction names generalizing data with
  | nil => rfl
  | cons name names ih =>
    rw [List.foldl_cons, ih, List.filterMap_cons]
    unfold assign_by_name
    cases resolve target_accessors name <;> cases resolve source_accessors name <;> rfl

/-- A cell after a sequence of writes: the value of the last write to it, or the initial one. -/
theorem array_read_foldl_write {T : Type} [Inhabited T] {N M : Nat} (source : Fin M → T)
    (pairs : List (Nat × Nat)) (data : Fin N → T) (k : Nat) (hk : k < N) :
    array_read
        (pairs.foldl (fun data pair => array_write data pair.1 (array_read source pair.2)) data) k
      = match pairs.reverse.lookup k with
        | some j => array_read source j
        | none => array_read data k := by
  induction pairs generalizing data with
  | nil => rfl
  | cons pair pairs ih =>
    rw [List.foldl_cons, ih, List.reverse_cons, List.lookup_append]
    cases hl : pairs.reverse.lookup k with
    | some j => rfl
    | none =>
      simp only [Option.none_or, List.lookup]
      rw [array_read_write]
      by_cases e : k = pair.1
      · subst e
        simp [hk]
      · have : (k == pair.1) = false := by simpa using e
        simp [this, e]

theorem ultra_grumpkin_construct_read {Commitment : Type} [Inhabited Commitment]
    (verification_key : Fin UltraGrumpkin.NUM_PRECOMPUTED_ENTITIES → Commitment) (k : Nat)
    (hk : k < 43) :
    array_read (UltraGrumpkin.VerifierCommitments.construct verification_key) k
      = if k < 25 then
          array_read verification_key (if k = 5 then 0 else if k < 5 then k + 1 else k)
        else default := by
  have hp : (UltraGrumpkin.VerifierCommitments.assigned.filterMap (fun name =>
        match resolve UltraGrumpkin.AllEntities.accessors name,
          resolve UltraGrumpkin.PrecomputedEntities.accessors name with
        | some i, some j => some (i, j)
        | _, _ => none))
      = [(5, 0), (1, 2), (2, 3), (3, 4), (4, 5), (0, 1), (6, 6), (7, 7), (8, 8), (9, 9),
         (10, 10), (11, 11), (12, 12), (13, 13), (14, 14), (15, 15), (16, 16), (17, 17),
         (18, 18), (19, 19), (20, 20), (21, 21), (22, 22), (23, 23), (24, 24)] := by
    decide
  unfold UltraGrumpkin.VerifierCommitments.construct
  rw [foldl_assign_by_name, hp]
  have hread := array_read_foldl_write verification_key
    [(5, 0), (1, 2), (2, 3), (3, 4), (4, 5), (0, 1), (6, 6), (7, 7), (8, 8), (9, 9),
     (10, 10), (11, 11), (12, 12), (13, 13), (14, 14), (15, 15), (16, 16), (17, 17),
     (18, 18), (19, 19), (20, 20), (21, 21), (22, 22), (23, 23), (24, 24)]
    (fun _ => default : Fin UltraGrumpkin.NUM_ALL_ENTITIES → Commitment) k hk
  rw [hread]
  interval_cases k <;> simp [List.lookup, array_read]

theorem ultra_recursive_construct_read {Commitment : Type} [Inhabited Commitment]
    (verification_key : Fin UltraRecursive_.NUM_PRECOMPUTED_ENTITIES → Commitment) (k : Nat)
    (hk : k < 43) :
    array_read (UltraRecursive_.VerifierCommitments.construct verification_key) k
      = if k < 25 then
          array_read verification_key (if k = 5 then 0 else if k < 5 then k + 1 else k)
        else default := by
  have hp : (UltraRecursive_.VerifierCommitments.assigned.filterMap (fun name =>
        match resolve UltraRecursive_.AllEntities.accessors name,
          resolve UltraRecursive_.PrecomputedEntities.accessors name with
        | some i, some j => some (i, j)
        | _, _ => none))
      = [(5, 0), (1, 2), (2, 3), (3, 4), (4, 5), (0, 1), (6, 6), (7, 7), (8, 8), (9, 9),
         (10, 10), (11, 11), (12, 12), (13, 13), (14, 14), (15, 15), (16, 16), (17, 17),
         (18, 18), (19, 19), (20, 20), (21, 21), (22, 22), (23, 23), (24, 24)] := by
    decide
  unfold UltraRecursive_.VerifierCommitments.construct
  rw [foldl_assign_by_name, hp]
  have hread := array_read_foldl_write verification_key
    [(5, 0), (1, 2), (2, 3), (3, 4), (4, 5), (0, 1), (6, 6), (7, 7), (8, 8), (9, 9),
     (10, 10), (11, 11), (12, 12), (13, 13), (14, 14), (15, 15), (16, 16), (17, 17),
     (18, 18), (19, 19), (20, 20), (21, 21), (22, 22), (23, 23), (24, 24)]
    (fun _ => default : Fin UltraRecursive_.NUM_ALL_ENTITIES → Commitment) k hk
  rw [hread]
  interval_cases k <;> simp [List.lookup, array_read]

/-- C32. `VerifierCommitments` copies the verification key by name: in both Ultra flavors, after
constructing `VerifierCommitments` from a verification key, each of the 25 precomputed entities
of the result, resolved by its name in `AllEntities`, holds the verification key's entity of
the same name, resolved in `PrecomputedEntities` (`q_m` is cell 5 of the result and cell 0 of
the key), and the 18 cells from 25 to 42, the witness and shifted ones, hold their default
value. -/
theorem verifier_commitments_copy_by_name {Commitment : Type} [Inhabited Commitment]
    (verification_key : Fin UltraGrumpkin.NUM_PRECOMPUTED_ENTITIES → Commitment)
    (recursive_verification_key : Fin UltraRecursive_.NUM_PRECOMPUTED_ENTITIES → Commitment) :
    (UltraGrumpkin.PrecomputedEntities.accessors.map (fun entity =>
          (resolve UltraGrumpkin.AllEntities.accessors entity.1).map (fun i =>
            array_read (UltraGrumpkin.VerifierCommitments.construct verification_key) i))
        = UltraGrumpkin.PrecomputedEntities.accessors.map (fun entity =>
            some (array_read verification_key entity.2)) ∧
      (resolve UltraGrumpkin.AllEntities.accessors "q_m" = some 5 ∧
        resolve UltraGrumpkin.PrecomputedEntities.accessors "q_m" = some 0 ∧
        array_read (UltraGrumpkin.VerifierCommitments.construct verification_key) 5
          = array_read verification_key 0) ∧
      (List.range' 25 18).map (fun i =>
          array_read (UltraGrumpkin.VerifierCommitments.construct verification_key) i)
        = List.replicate 18 default) ∧
    (UltraRecursive_.PrecomputedEntities.accessors.map (fun entity =>
          (resolve UltraRecursive_.AllEntities.accessors entity.1).map (fun i =>
            array_read (UltraRecursive_.VerifierCommitments.construct recursive_verification_key) i))
        = UltraRecursive_.PrecomputedEntities.accessors.map (fun entity =>
            some (array_read recursive_verification_key entity.2)) ∧
      (resolve UltraRecursive_.AllEntities.accessors "q_m" = some 5 ∧
        resolve UltraRecursive_.PrecomputedEntities.accessors "q_m" = some 0 ∧
        array_read (UltraRecursive_.VerifierCommitments.construct recursive_verification_key) 5
          = array_read recursive_verification_key 0) ∧
      (List.range' 25 18).map (fun i =>
          array_read (UltraRecursive_.VerifierCommitments.construct recursive_verification_key) i)
        = List.replicate 18 default) := by
  constructor
  · refine ⟨?_, ⟨by decide, by decide, ?_⟩, ?_⟩
    · have hr : UltraGrumpkin.PrecomputedEntities.accessors.map (fun entity =>
            resolve UltraGrumpkin.AllEntities.accessors entity.1)
          = [some 5, some 0, some 1, some 2, some 3, some 4, some 6, some 7, some 8, some 9,
             some 10, some 11, some 12, some 13, some 14, some 15, some 16, some 17, some 18,
             some 19, some 20, some 21, some 22, some 23, some 24] := by
        decide
      have hm : UltraGrumpkin.PrecomputedEntities.accessors.map (fun entity =>
            (resolve UltraGrumpkin.AllEntities.accessors entity.1).map (fun i =>
              array_read (UltraGrumpkin.VerifierCommitments.construct verification_key) i))
          = (UltraGrumpkin.PrecomputedEntities.accessors.map (fun entity =>
              resolve UltraGrumpkin.AllEntities.accessors entity.1)).map
            (Option.map (fun i =>
              array_read (UltraGrumpkin.VerifierCommitments.construct verification_key) i)) := by
        rw [List.map_map]
        rfl
      rw [hm, hr]
      simp [UltraGrumpkin.PrecomputedEntities.accessors, ultra_grumpkin_construct_read]
    · rw [ultra_grumpkin_construct_read verification_key 5 (by decide)]
      rfl
    · simp [List.range', ultra_grumpkin_construct_read]
  · refine ⟨?_, ⟨by decide, by decide, ?_⟩, ?_⟩
    · have hr : UltraRecursive_.PrecomputedEntities.accessors.map (fun entity =>
            resolve UltraRecursive_.AllEntities.accessors entity.1)
          = [some 5, some 0, some 1, some 2, some 3, some 4, some 6, some 7, some 8, some 9,
             some 10, some 11, some 12, some 13, some 14, some 15, some 16, some 17, some 18,
             some 19, some 20, some 21, some 22, some 23, some 24] := by
        decide
      have hm : UltraRecursive_.PrecomputedEntities.accessors.map (fun entity =>
            (resolve UltraRecursive_.AllEntities.accessors entity.1).map (fun i =>
              array_read (UltraRecursive_.VerifierCommitments.construct recursive_verification_key) i))
          = (UltraRecursive_.PrecomputedEntities.accessors.map (fun entity =>
              resolve UltraRecursive_.AllEntities.accessors entity.1)).map
            (Option.map (fun i =>
              array_read (UltraRecursive_.VerifierCommitments.construct recursive_verification_key) i)) := by
        rw [List.map_map]
        rfl
      rw [hm, hr]
      simp [UltraRecursive_.PrecomputedEntities.accessors, ultra_recursive_construct_read]
    · rw [ultra_recursive_construct_read recursive_verification_key 5 (by decide)]
      rfl
    · simp [List.range', ultra_recursive_construct_read]

end proof_system.honk.flavor

/-! ## Unshifted and shifted entities -/

namespace proof_system.honk.flavor

/-- C33. Unshifted and shifted partition the Ultra entities: in `UltraGrumpkin::AllEntities`,
`get_unshifted()` lists the cells of the indices 0 to 31 in ascending order, `get_shifted()`
lists the cells of the indices 32 to 42 in ascending order, no name is in both lists, the two
lists together give every index below `NUM_ALL_ENTITIES` once, and every entry of
`get_to_be_shifted()` and of `get_wires()` occurs in `get_unshifted()`. -/
theorem unshifted_and_shifted_partition :
    UltraGrumpkin.AllEntities.get_unshifted.map (resolve UltraGrumpkin.AllEntities.accessors)
      = (List.range 32).map some ∧
    UltraGrumpkin.AllEntities.get_shifted.map (resolve UltraGrumpkin.AllEntities.accessors)
      = (List.range' 32 11).map some ∧
    UltraGrumpkin.AllEntities.get_unshifted.Disjoint UltraGrumpkin.AllEntities.get_shifted ∧
    (UltraGrumpkin.AllEntities.get_unshifted ++ UltraGrumpkin.AllEntities.get_shifted).map
        (resolve UltraGrumpkin.AllEntities.accessors)
      = (List.range UltraGrumpkin.NUM_ALL_ENTITIES).map some ∧
    UltraGrumpkin.AllEntities.get_to_be_shifted.all
        (fun name => decide (name ∈ UltraGrumpkin.AllEntities.get_unshifted)) = true ∧
    UltraGrumpkin.AllEntities.get_wires.all
        (fun name => decide (name ∈ UltraGrumpkin.AllEntities.get_unshifted)) = true := by
  refine ⟨by decide, by decide, ?_, by decide, by decide, by decide⟩
  rw [List.disjoint_left]
  decide

end proof_system.honk.flavor
